import Mathlib

/-! Bookstore catalog: shallow embedding of the resolver layer.

Source files embedded here (all under `backend/src`):

* `graphql/resolvers/bookResolvers.js`, `categoryResolvers.js`, `userResolvers.js`
* `graphql/simpleResolvers.js`
* `graphql/typeDefs/bookTypeDefs.js` (holds the Book schema and its methods)
* `models/Category.js`, `middleware/auth.js`

Modelling conventions.

* A collection is a list of documents; `_id` is unique in a collection, and the
  primitives below (`findById`, `updateById`, `deleteById`) agree with the
  database on every such list.  Ids are well-formed ObjectId strings.
* A resolver is a function `Store → Except String α × Store`: the store that is
  returned is the one left behind, also when the resolver raises, because writes
  done before a `throw` are not rolled back.
* JavaScript numbers that hold counts and quantities are `Int`; ratings and
  prices are `ℚ` (exact arithmetic).
* `new Date()` / `Date.now()` is the parameter `now`; a fresh ObjectId is the
  parameter `fresh`.
-/

namespace Bookstore

/-- ObjectId in its string form. -/
abbrev Id := String

/-! ## Documents -/

/-- Book document (`bookSchema`), restricted to the fields the resolvers
compute with.  `slug = ""` stands for an absent slug (both are falsy). -/
structure Book where
  id : Id
  title : String
  author : String
  isbn : Option String := none
  price : ℚ
  category : Id
  stock : Int := 0
  sold : Int := 0
  rating : ℚ := 0
  reviewCount : Nat := 0
  isActive : Bool := true
  isFeatured : Bool := false
  slug : String := ""
  viewCount : Int := 0
  createdAt : Nat := 0
  updatedAt : Nat := 0
  deriving DecidableEq

/-- Category document (`categorySchema`).  `parentCategory = none` is the
schema default `null`. -/
structure Category where
  id : Id
  name : String
  description : Option String := none
  slug : String := ""
  parentCategory : Option Id := none
  subCategories : List Id := []
  bookCount : Int := 0
  isActive : Bool := true
  isFeatured : Bool := false
  sortOrder : Int := 0
  createdAt : Nat := 0
  updatedAt : Nat := 0
  deriving DecidableEq

/-- Modelled from the spec: the User schema (`models/User.js` is not part of
the sources).  Fields are those the spec lists and the resolvers touch;
`password` holds the salted hash. -/
structure User where
  id : Id
  name : String
  email : String
  password : String
  role : String := "customer"
  phone : Option String := none
  isActive : Bool := true
  isEmailVerified : Bool := false
  lastLogin : Option Nat := none
  createdAt : Nat := 0
  updatedAt : Nat := 0
  deriving DecidableEq

/-- The three primary collections. -/
structure Store where
  books : List Book
  categories : List Category
  users : List User
  deriving DecidableEq

/-- Identity object that `getUser` puts in the GraphQL context. -/
structure Identity where
  id : Id
  email : String
  name : String
  role : String
  isActive : Bool
  isEmailVerified : Bool
  deriving DecidableEq

/-! ## Collection primitives -/

section Collection
variable {α : Type}

/-- The query `Model.findById(id)`. -/
def findById (key : α → Id) (id : Id) (xs : List α) : Option α :=
  xs.find? (fun x => decide (key x = id))

/-- Effect of `Model.findByIdAndUpdate(id, update)` on the collection: the document with
that id is replaced by its image, a missing id changes nothing. -/
def updateById (key : α → Id) (id : Id) (f : α → α) (xs : List α) : List α :=
  xs.map (fun x => if key x = id then f x else x)

/-- Effect of `Model.findByIdAndDelete(id)` on the collection. -/
def deleteById (key : α → Id) (id : Id) (xs : List α) : List α :=
  xs.filter (fun x => decide (key x ≠ id))

/-- Effect of `Model.deleteMany` with the filter `_id: $in ids`. -/
def deleteMany (key : α → Id) (ids : List Id) (xs : List α) : List α :=
  xs.filter (fun x => decide (key x ∉ ids))

/-- Effect of `Model.updateMany` with the filter `_id: $in ids`. -/
def updateMany (key : α → Id) (ids : List Id) (f : α → α) (xs : List α) : List α :=
  xs.map (fun x => if key x ∈ ids then f x else x)

/-- The query `Model.find` with the filter `_id: $in ids`. -/
def findMany (key : α → Id) (ids : List Id) (xs : List α) : List α :=
  xs.filter (fun x => decide (key x ∈ ids))

end Collection

/-- Result of a resolver: value or error message, and the store left behind. -/
abbrev Outcome (α : Type) := Except String α × Store

/-- The `catch (error)` clause that closes every resolver:
`throw new Error(label + error.message)`. -/
def rethrow {α : Type} (label : String) (r : Outcome α) : Outcome α :=
  match r with
  | (.error msg, s) => (.error (label ++ msg), s)
  | (.ok a, s) => (.ok a, s)

/-- The guard `!user || user.role !== 'admin'`. -/
def notAdmin (user : Option Identity) : Bool :=
  match user with
  | none => true
  | some u => decide (u.role ≠ "admin")

/-- Message thrown by the admin guard of the resolvers. -/
def accessDenied : String := "Access denied. Admin privileges required."

/-! ## Strings: the slug pipeline of the pre-save hooks -/

/-- Lower case of one character as `String.prototype.toLowerCase` gives it, exact
on ASCII and on the two characters outside ASCII whose lower case holds an ASCII
letter (U+0130 and the Kelvin sign U+212A).  Every other character outside ASCII
is left as it is: its lower case is outside ASCII too, and the slug pipeline
deletes both alike in its next step. -/
def lowerChar (c : Char) : List Char :=
  if c = Char.ofNat 0x130 then ['i', Char.ofNat 0x307]
  else if c = Char.ofNat 0x212A then ['k']
  else [c.toLower]

/-- The class `\s` of a JavaScript regular expression. -/
def isSpace (c : Char) : Bool :=
  let n := c.toNat
  (9 ≤ n && n ≤ 13) || n = 0x20 || n = 0xA0 || n = 0x1680 || (0x2000 ≤ n && n ≤ 0x200A)
    || n = 0x2028 || n = 0x2029 || n = 0x202F || n = 0x205F || n = 0x3000 || n = 0xFEFF

/-- Characters kept by the replacement of `[^a-z0-9\s-]` by the empty string. -/
def slugKeep (c : Char) : Bool :=
  ('a' ≤ c && c ≤ 'z') || ('0' ≤ c && c ≤ '9') || isSpace c || c = '-'

/-- Replace each maximal run of characters satisfying `p` by the single
character `r`, as a global `replace` of `p+` does; the flag tells that the previous
character belonged to a run. -/
def replaceRunsAux (p : Char → Bool) (r : Char) : Bool → List Char → List Char
  | _, [] => []
  | inRun, c :: cs =>
    if p c then
      (if inRun then replaceRunsAux p r true cs else r :: replaceRunsAux p r true cs)
    else c :: replaceRunsAux p r false cs

/-- Replace each maximal run of characters satisfying `p` by `r`. -/
def replaceRuns (p : Char → Bool) (r : Char) (cs : List Char) : List Char :=
  replaceRunsAux p r false cs

/-- The method `String.prototype.trim`: it takes no argument, so the `'-'` passed
by the hooks is ignored and white space is what gets removed at both ends. -/
def jsTrim (cs : List Char) : List Char :=
  ((cs.dropWhile isSpace).reverse.dropWhile isSpace).reverse

/-- The schema setter `trim: true`: the value assigned to the path is
`value.trim()`.  It runs when a document is built from data and when an update
is cast, not when a document is loaded. -/
def trimSetter (v : String) : String := String.mk (jsTrim v.toList)

/-- The property `length` of a JavaScript string, which the validator
`maxlength` compares: the number of UTF-16 code units, two for each character
above U+FFFF. -/
def jsLength (v : String) : Nat :=
  (v.toList.map (fun c => if c.toNat < 0x10000 then 1 else 2)).sum

/-- The chain shared by the book and category pre-save hooks: `toLowerCase`,
delete what is not in `[a-z0-9\s-]`, replace white-space runs by one hyphen,
replace hyphen runs by one hyphen, `trim`. -/
def slugify (name : String) : String :=
  String.mk (jsTrim (replaceRuns (fun c => c = '-') '-'
    (replaceRuns isSpace '-' ((name.toList.flatMap lowerChar).filter slugKeep))))

/-! ## Book schema: validators, hooks, save -/

/-- Validators of `title` (required, maxlength 200) on the value the path holds,
that is the value the setter `trim` has left (`BookInput.document`,
`BookUpdateInput.apply`); the length is `value.length`. -/
def titleErrors (t : String) : List String :=
  (if t = "" then ["title: Book title is required"] else []) ++
  (if 200 < jsLength t then ["title: Title cannot exceed 200 characters"] else [])

/-- Validators of `author` (required, maxlength 100) on the value the path
holds, that is the value the setter `trim` has left; the length is
`value.length`. -/
def authorErrors (a : String) : List String :=
  (if a = "" then ["author: Author is required"] else []) ++
  (if 100 < jsLength a then ["author: Author name cannot exceed 100 characters"] else [])

/-- Validator of `isbn` on the value the path holds, that is the value the
setter `trim` has left: when present and not empty it consists of exactly 10 or
exactly 13 decimal digits. -/
def isbnErrors (i : Option String) : List String :=
  match i with
  | none => []
  | some v =>
    if v = "" ∨ ((v.length = 10 ∨ v.length = 13) ∧ v.toList.all Char.isDigit) then []
    else ["isbn: Please enter a valid ISBN (10 or 13 digits)"]

/-- Validator `min: 0` of `price`. -/
def priceErrors (p : ℚ) : List String :=
  if p < 0 then ["price: Price cannot be negative"] else []

/-- Validator `min: 0` of `stock`. -/
def stockErrors (n : Int) : List String :=
  if n < 0 then ["stock: Stock cannot be negative"] else []

/-- Validator `min: 0` of `sold`. -/
def soldErrors (n : Int) : List String :=
  if n < 0 then ["sold: Sold quantity cannot be negative"] else []

/-- Validators `min: 0` and `max: 5` of `rating`. -/
def ratingErrors (r : ℚ) : List String :=
  (if r < 0 then ["rating: Rating cannot be less than 0"] else []) ++
  (if 5 < r then ["rating: Rating cannot be more than 5"] else [])

/-- All validation failures of a book document, in schema order. -/
def Book.validationErrors (b : Book) : List String :=
  titleErrors b.title ++ authorErrors b.author ++ isbnErrors b.isbn ++ priceErrors b.price
    ++ stockErrors b.stock ++ soldErrors b.sold ++ ratingErrors b.rating

/-- Unique indexes of the book collection (`isbn`, sparse, and `slug`): the
keys of `doc` that differ from those of `old` (all of them when the document is
new) must not be held by another document. -/
def Book.duplicateKey (old : Option Book) (doc : Book) (books : List Book) : Option String :=
  let others := books.filter (fun b => decide (b.id ≠ doc.id))
  let isbnChanged := decide (old.map (fun o => o.isbn) ≠ some doc.isbn)
  let slugChanged := decide (old.map (fun o => o.slug) ≠ some doc.slug)
  if isbnChanged ∧ doc.isbn ≠ none ∧ others.any (fun b => decide (b.isbn = doc.isbn)) then
    some "E11000 duplicate key error: isbn"
  else if slugChanged ∧ others.any (fun b => decide (b.slug = doc.slug)) then
    some "E11000 duplicate key error: slug"
  else none

/-- The hook `bookSchema.pre('save')` that generates the slug. -/
def Book.preSaveSlug (now : Nat) (titleModified : Bool) (b : Book) : Book :=
  if b.slug = "" ∨ titleModified = true then
    { b with slug := slugify b.title ++ "-" ++ toString now }
  else b

/-- The call `book.save()` on a document loaded as `old` and changed in memory
to `doc`: validation, then the pre-save hook, then the write.  A document that
is not modified is not written; a written one gets `updatedAt` (schema option
`timestamps`). -/
def Book.save (now : Nat) (old doc : Book) (s : Store) : Outcome Unit :=
  match doc.validationErrors with
  | e :: es => (.error ("Book validation failed: " ++ ", ".intercalate (e :: es)), s)
  | [] =>
    let doc1 := Book.preSaveSlug now (decide (doc.title ≠ old.title)) doc
    if doc1 = old then (.ok (), s)
    else
      match Book.duplicateKey (some old) doc1 s.books with
      | some msg => (.error msg, s)
      | none =>
        let written := updateById Book.id old.id (fun _ => { doc1 with updatedAt := now }) s.books
        (.ok (), { s with books := written })

/-- The call `book.save()` on a document made by `new Book(data)`. -/
def Book.insert (now : Nat) (doc : Book) (s : Store) : Outcome Unit :=
  match doc.validationErrors with
  | e :: es => (.error ("Book validation failed: " ++ ", ".intercalate (e :: es)), s)
  | [] =>
    let doc1 := Book.preSaveSlug now true doc
    if s.books.any (fun b => decide (b.id = doc1.id)) then
      (.error "E11000 duplicate key error: _id", s)
    else
      match Book.duplicateKey none doc1 s.books with
      | some msg => (.error msg, s)
      | none =>
        (.ok (), { s with books := s.books ++ [{ doc1 with createdAt := now, updatedAt := now }] })

/-- Effect of `Category.findByIdAndUpdate(id, $inc bookCount by d)`. -/
def incBookCount (now : Nat) (id : Id) (d : Int) (s : Store) : Store :=
  let bump : Category → Category :=
    fun c => { c with bookCount := c.bookCount + d, updatedAt := now }
  { s with categories := updateById Category.id id bump s.categories }

/-! ## Book mutations (`bookResolvers.Mutation`) -/

/-- Input of `createBook` (GraphQL `BookInput`), on the modelled fields.  The
fields of the input that are left out (`description`, `publisher`, and the
others that `Book` leaves out) are taken to pass their validators. -/
structure BookInput where
  title : String
  author : String
  isbn : Option String := none
  price : ℚ
  categoryId : Id
  stock : Int
  isFeatured : Option Bool := none
  deriving DecidableEq

/-- Input of `updateBook` (GraphQL `BookUpdateInput`); `none` is an absent field. -/
structure BookUpdateInput where
  title : Option String := none
  author : Option String := none
  isbn : Option String := none
  price : Option ℚ := none
  categoryId : Option Id := none
  stock : Option Int := none
  isFeatured : Option Bool := none
  isActive : Option Bool := none
  deriving DecidableEq

/-- The document `new Book(bookData)` builds from the input of `createBook`:
`category` is `input.categoryId`, the setters `trim` of `title`, `author` and
`isbn` are applied, and the paths the input does not name take their defaults. -/
def BookInput.document (fresh : Id) (input : BookInput) : Book :=
  { id := fresh, title := trimSetter input.title, author := trimSetter input.author,
    isbn := input.isbn.map trimSetter, price := input.price, category := input.categoryId,
    stock := input.stock, isFeatured := input.isFeatured.getD false }

/-- Update validators (`runValidators: true`) on the fields an update sets, each
on the value the cast of the update has left (setter `trim` on `title`,
`author` and `isbn`). -/
def BookUpdateInput.validationErrors (i : BookUpdateInput) : List String :=
  (i.title.map (fun t => titleErrors (trimSetter t))).getD []
    ++ (i.author.map (fun a => authorErrors (trimSetter a))).getD []
    ++ isbnErrors (i.isbn.map trimSetter) ++ (i.price.map priceErrors).getD []
    ++ (i.stock.map stockErrors).getD []

/-- The update document (`...input` and `updatedAt: new Date()`) applied to a book,
after its cast (setter `trim` on `title`, `author` and `isbn`); `category` is the
field `input.category` that `updateBook` adds on a move. -/
def BookUpdateInput.apply (i : BookUpdateInput) (category : Option Id) (now : Nat)
    (b : Book) : Book :=
  { b with
    title := (i.title.map trimSetter).getD b.title
    author := (i.author.map trimSetter).getD b.author
    isbn := match i.isbn with | some v => some (trimSetter v) | none => b.isbn
    price := i.price.getD b.price
    category := category.getD b.category
    stock := i.stock.getD b.stock
    isFeatured := i.isFeatured.getD b.isFeatured
    isActive := i.isActive.getD b.isActive
    updatedAt := now }

/-- Resolver `createBook`. -/
def createBook (now : Nat) (fresh : Id) (input : BookInput) (user : Option Identity)
    (s : Store) : Outcome (Option Book) :=
  rethrow "Error creating book: " <|
    if notAdmin user then (.error accessDenied, s)
    else
      match findById Category.id input.categoryId s.categories with
      | none => (.error "Category not found", s)
      | some _ =>
        let book : Book := input.document fresh
        match Book.insert now book s with
        | (.error e, s1) => (.error e, s1)
        | (.ok _, s1) =>
          let s2 := incBookCount now input.categoryId 1 s1
          (.ok (findById Book.id fresh s2.books), s2)

/-- Resolver `updateBook`. -/
def updateBook (now : Nat) (id : Id) (input : BookUpdateInput) (user : Option Identity)
    (s : Store) : Outcome (Option Book) :=
  rethrow "Error updating book: " <|
    if notAdmin user then (.error accessDenied, s)
    else
      match findById Book.id id s.books with
      | none => (.error "Book not found", s)
      | some book =>
        -- `input.categoryId && input.categoryId !== book.category.toString()`
        let moved : Option Id :=
          match input.categoryId with
          | some c => if c ≠ "" ∧ c ≠ book.category then some c else none
          | none => none
        let counted : Except String Store :=
          match moved with
          | none => .ok s
          | some c =>
            match findById Category.id c s.categories with
            | none => .error "New category not found"
            | some _ => .ok (incBookCount now c 1 (incBookCount now book.category (-1) s))
        match counted with
        | .error e => (.error e, s)
        | .ok s1 =>
          match input.validationErrors with
          | e :: es => (.error ("Validation failed: " ++ ", ".intercalate (e :: es)), s1)
          | [] =>
            let doc := input.apply moved now book
            match Book.duplicateKey (some book) doc s1.books with
            | some msg => (.error msg, s1)
            | none =>
              let s2 : Store := { s1 with books := updateById Book.id id (fun _ => doc) s1.books }
              (.ok (findById Book.id id s2.books), s2)

/-- Resolver `deleteBook`. -/
def deleteBook (now : Nat) (id : Id) (user : Option Identity) (s : Store) : Outcome Bool :=
  rethrow "Error deleting book: " <|
    if notAdmin user then (.error accessDenied, s)
    else
      match findById Book.id id s.books with
      | none => (.error "Book not found", s)
      | some book =>
        let s1 := incBookCount now book.category (-1) s
        (.ok true, { s1 with books := deleteById Book.id id s1.books })

/-- Resolver `toggleBookStatus`. -/
def toggleBookStatus (now : Nat) (id : Id) (user : Option Identity) (s : Store) :
    Outcome (Option Book) :=
  rethrow "Error toggling book status: " <|
    if notAdmin user then (.error accessDenied, s)
    else
      match findById Book.id id s.books with
      | none => (.error "Book not found", s)
      | some book =>
        match Book.save now book { book with isActive := !book.isActive } s with
        | (.error e, s1) => (.error e, s1)
        | (.ok _, s1) => (.ok (findById Book.id id s1.books), s1)

/-- Resolver `toggleFeaturedStatus`. -/
def toggleFeaturedStatus (now : Nat) (id : Id) (user : Option Identity) (s : Store) :
    Outcome (Option Book) :=
  rethrow "Error toggling featured status: " <|
    if notAdmin user then (.error accessDenied, s)
    else
      match findById Book.id id s.books with
      | none => (.error "Book not found", s)
      | some book =>
        match Book.save now book { book with isFeatured := !book.isFeatured } s with
        | (.error e, s1) => (.error e, s1)
        | (.ok _, s1) => (.ok (findById Book.id id s1.books), s1)

/-- The branch on `operation` inside `updateBookStock`: the in-memory book after
the assignments, or the message of the `throw`.  In the `subtract` branch the
second assignment reads `book.stock` after the first one has overwritten it. -/
def adjustStock (book : Book) (quantity : Int) (operation : String) : Except String Book :=
  if operation = "add" then
    .ok { book with stock := book.stock + quantity }
  else if operation = "subtract" then
    let book1 : Book := { book with stock := max 0 (book.stock - quantity) }
    .ok { book1 with sold := book1.sold + min (book1.stock + quantity) quantity }
  else
    .error "Invalid operation. Use \"add\" or \"subtract\""

/-- Resolver `updateBookStock`. -/
def updateBookStock (now : Nat) (id : Id) (quantity : Int) (operation : String)
    (user : Option Identity) (s : Store) : Outcome (Option Book) :=
  rethrow "Error updating stock: " <|
    if notAdmin user then (.error accessDenied, s)
    else
      match findById Book.id id s.books with
      | none => (.error "Book not found", s)
      | some book =>
        match adjustStock book quantity operation with
        | .error e => (.error e, s)
        | .ok doc =>
          match Book.save now book doc s with
          | (.error e, s1) => (.error e, s1)
          | (.ok _, s1) => (.ok (findById Book.id id s1.books), s1)

/-- Model method `bookSchema.methods.updateStock`, up to the `save()`: the
in-memory document after the assignments. -/
def Book.updateStock (b : Book) (quantity : Int) (operation : String := "subtract") : Book :=
  if operation = "subtract" then
    { b with stock := max 0 (b.stock - quantity), sold := b.sold + quantity }
  else if operation = "add" then
    { b with stock := b.stock + quantity }
  else b

/-- Model method `bookSchema.methods.updateRating`, up to the `save()`: the
in-memory document after the assignments. -/
def Book.updateRating (b : Book) (newRating : ℚ) (isNewReview : Bool := true) : Book :=
  if isNewReview then
    let totalRating := b.rating * b.reviewCount + newRating
    let reviewCount := b.reviewCount + 1
    { b with reviewCount := reviewCount, rating := totalRating / reviewCount }
  else b

/-- Successive calls `book.updateRating(r)` on the same document, one per new
review, in the order of the list. -/
def Book.applyRatings (b : Book) (rs : List ℚ) : Book :=
  rs.foldl (fun d r => d.updateRating r) b

/-! ## Category schema: validators, hook, save -/

/-- An exception raised inside a resolver: a plain `Error`, or the driver error
with `code === 11000` whose `keyPattern` names the unique field. -/
inductive Raised where
  | plain (message : String)
  | duplicateKey (field : String)
  deriving DecidableEq

/-- The property `error.message`. -/
def Raised.message : Raised → String
  | .plain m => m
  | .duplicateKey f => "E11000 duplicate key error: " ++ f

/-- Result of the body of a `try` block. -/
abbrev Attempt (α : Type) := Except Raised α × Store

/-- The `catch (error)` clause of `createCategory` and `updateCategory`. -/
def categoryCatch {α : Type} (label : String) (r : Attempt α) : Outcome α :=
  match r with
  | (.ok a, s) => (.ok a, s)
  | (.error (.duplicateKey f), s) =>
    if f = "name" then (.error "Category name already exists", s)
    else if f = "slug" then (.error "Category slug already exists", s)
    else (.error (label ++ (Raised.duplicateKey f).message), s)
  | (.error (.plain m), s) => (.error (label ++ m), s)

/-- The plain `catch (error)` clause, on the body of a `try` block. -/
def plainCatch {α : Type} (label : String) (r : Attempt α) : Outcome α :=
  match r with
  | (.ok a, s) => (.ok a, s)
  | (.error e, s) => (.error (label ++ e.message), s)

/-- The setter `lowercase: true` of a schema string. -/
def toLowerCase (v : String) : String := String.mk (v.toList.flatMap lowerChar)

/-- Characters of the class `[a-z0-9-]` of the slug validator. -/
def slugChar (c : Char) : Bool :=
  ('a' ≤ c && c ≤ 'z') || ('0' ≤ c && c ≤ '9') || c = '-'

/-- Validators of `name` (required, maxlength 100) on the value the path holds,
that is the value the setter `trim` has left (`createCategory`,
`CategoryUpdateInput.apply`); the length is `value.length`. -/
def nameErrors (n : String) : List String :=
  (if n = "" then ["name: Category name is required"] else []) ++
  (if 100 < jsLength n then ["name: Category name cannot exceed 100 characters"] else [])

/-- Validator of `description` (maxlength 500) on the value the setter `trim` has
left; the length is `value.length`. -/
def descriptionErrors (d : Option String) : List String :=
  match d with
  | none => []
  | some v =>
    if 500 < jsLength v then ["description: Description cannot exceed 500 characters"] else []

/-- Validators of `slug` (required, and `match` on a slug that is not empty). -/
def slugErrors (v : String) : List String :=
  if v = "" then ["slug: Slug is required"]
  else if v.toList.all slugChar then []
  else ["slug: Slug can only contain lowercase letters, numbers, and hyphens"]

/-- All validation failures of a category document. -/
def Category.validationErrors (c : Category) : List String :=
  nameErrors c.name ++ descriptionErrors c.description ++ slugErrors c.slug

/-- Unique indexes of the category collection (`name`, `slug`), checked on the
keys of `doc` that differ from those of `old`. -/
def Category.duplicateKey (old : Option Category) (doc : Category) (cats : List Category) :
    Option Raised :=
  let others := cats.filter (fun c => decide (c.id ≠ doc.id))
  let nameChanged := decide (old.map (fun o => o.name) ≠ some doc.name)
  let slugChanged := decide (old.map (fun o => o.slug) ≠ some doc.slug)
  if nameChanged ∧ others.any (fun c => decide (c.name = doc.name)) then
    some (.duplicateKey "name")
  else if slugChanged ∧ others.any (fun c => decide (c.slug = doc.slug)) then
    some (.duplicateKey "slug")
  else none

/-- The hook `categorySchema.pre('save')`. -/
def Category.preSave (c : Category) : Category :=
  if c.slug = "" ∧ c.name ≠ "" then { c with slug := slugify c.name } else c

/-- The call `category.save()` on a document loaded as `old` and changed in
memory to `doc`: validation runs first, then the pre-save hook, then the write. -/
def Category.save (now : Nat) (old doc : Category) (s : Store) : Attempt Unit :=
  match doc.validationErrors with
  | e :: es => (.error (.plain ("Category validation failed: " ++ ", ".intercalate (e :: es))), s)
  | [] =>
    let doc1 := doc.preSave
    if doc1 = old then (.ok (), s)
    else
      match Category.duplicateKey (some old) doc1 s.categories with
      | some err => (.error err, s)
      | none =>
        let written :=
          updateById Category.id old.id (fun _ => { doc1 with updatedAt := now }) s.categories
        (.ok (), { s with categories := written })

/-- The call `category.save()` on a document made by `new Category(input)`. -/
def Category.insert (now : Nat) (doc : Category) (s : Store) : Attempt Unit :=
  match doc.validationErrors with
  | e :: es => (.error (.plain ("Category validation failed: " ++ ", ".intercalate (e :: es))), s)
  | [] =>
    let doc1 := doc.preSave
    if s.categories.any (fun c => decide (c.id = doc1.id)) then
      (.error (.duplicateKey "_id"), s)
    else
      match Category.duplicateKey none doc1 s.categories with
      | some err => (.error err, s)
      | none =>
        (.ok (), { s with categories :=
                     s.categories ++ [{ doc1 with createdAt := now, updatedAt := now }] })

/-- Effect of `Category.findByIdAndUpdate(parent, $pull member from subCategories)`. -/
def pullSubCategory (now : Nat) (parent member : Id) (s : Store) : Store :=
  let pull : Category → Category :=
    fun c => { c with subCategories := c.subCategories.filter (fun x => decide (x ≠ member)),
                      updatedAt := now }
  { s with categories := updateById Category.id parent pull s.categories }

/-- Effect of `Category.findByIdAndUpdate(parent, $addToSet member to subCategories)`. -/
def addSubCategory (now : Nat) (parent member : Id) (s : Store) : Store :=
  let add : Category → Category :=
    fun c => { c with subCategories :=
                        if member ∈ c.subCategories then c.subCategories
                        else c.subCategories ++ [member],
                      updatedAt := now }
  { s with categories := updateById Category.id parent add s.categories }

/-- The query `Book.countDocuments` with the filter `category: id`. -/
def countBooksIn (id : Id) (s : Store) : Nat :=
  (s.books.filter (fun b => decide (b.category = id))).length

/-- The query `Book.countDocuments` with the filter `category: $in ids`. -/
def countBooksAmong (ids : List Id) (s : Store) : Nat :=
  (s.books.filter (fun b => decide (b.category ∈ ids))).length

/-! ## Category mutations (`categoryResolvers.Mutation`) -/

/-- Input of `createCategory` (GraphQL `CategoryInput`), on the modelled fields. -/
structure CategoryInput where
  name : String
  description : Option String := none
  slug : Option String := none
  parentCategoryId : Option Id := none
  sortOrder : Option Int := none
  isFeatured : Option Bool := none
  deriving DecidableEq

/-- Input of `updateCategory` (GraphQL `CategoryUpdateInput`).  For
`parentCategoryId`, `none` is `undefined` (field absent), `some none` is an
explicit `null`, `some (some p)` is an id. -/
structure CategoryUpdateInput where
  name : Option String := none
  description : Option String := none
  slug : Option String := none
  parentCategoryId : Option (Option Id) := none
  sortOrder : Option Int := none
  isActive : Option Bool := none
  isFeatured : Option Bool := none
  deriving DecidableEq

/-- Update validators (`runValidators: true`) on the fields an update sets, each
on the value the cast of the update has left (setter `trim` on `name` and
`description`, setter `lowercase` on `slug`). -/
def CategoryUpdateInput.validationErrors (i : CategoryUpdateInput) : List String :=
  (i.name.map (fun n => nameErrors (trimSetter n))).getD []
    ++ descriptionErrors (i.description.map trimSetter)
    ++ (i.slug.map (fun v => slugErrors (toLowerCase v))).getD []

/-- The update document (`...input` and `updatedAt: new Date()`) applied to a
category; `parent` is the field `input.parentCategory` that `updateCategory`
adds when the parent link changes (`some none` sets it to `null`). -/
def CategoryUpdateInput.apply (i : CategoryUpdateInput) (parent : Option (Option Id))
    (now : Nat) (c : Category) : Category :=
  { c with
    name := (i.name.map trimSetter).getD c.name
    description := match i.description with | some v => some (trimSetter v) | none => c.description
    slug := match i.slug with | some v => toLowerCase v | none => c.slug
    parentCategory := match parent with | some p => p | none => c.parentCategory
    sortOrder := i.sortOrder.getD c.sortOrder
    isActive := i.isActive.getD c.isActive
    isFeatured := i.isFeatured.getD c.isFeatured
    updatedAt := now }

/-- A truthy id: present and not the empty string. -/
def truthyId (i : Option Id) : Option Id :=
  match i with
  | some v => if v = "" then none else some v
  | none => none

/-- The document `new Category(input)` builds from the input of
`createCategory`, `parent` being the `input.parentCategory` the resolver has
set: the setters `trim` of `name` and `description` and `lowercase` of `slug` are
applied (a slug that is not given stays absent, the empty string here), and
the paths the input does not name take their defaults. -/
def CategoryInput.document (fresh : Id) (parent : Option Id) (input : CategoryInput) :
    Category :=
  { id := fresh, name := trimSetter input.name,
    description := input.description.map trimSetter,
    slug := toLowerCase (input.slug.getD ""), parentCategory := parent,
    sortOrder := input.sortOrder.getD 0, isFeatured := input.isFeatured.getD false }

/-- Resolver `createCategory`. -/
def createCategory (now : Nat) (fresh : Id) (input : CategoryInput) (user : Option Identity)
    (s : Store) : Outcome (Option Category) :=
  categoryCatch "Error creating category: " <|
    if notAdmin user then (.error (.plain accessDenied), s)
    else
      let parent := truthyId input.parentCategoryId
      let parentFound : Bool :=
        match parent with
        | some p => (findById Category.id p s.categories).isSome
        | none => true
      if parentFound = false then (.error (.plain "Parent category not found"), s)
      else
        let category : Category := input.document fresh parent
        match Category.insert now category s with
        | (.error e, s1) => (.error e, s1)
        | (.ok _, s1) =>
          let s2 :=
            match parent with
            | some p => addSubCategory now p fresh s1
            | none => s1
          (.ok (findById Category.id fresh s2.categories), s2)

/-- Resolver `updateCategory`. -/
def updateCategory (now : Nat) (id : Id) (input : CategoryUpdateInput) (user : Option Identity)
    (s : Store) : Outcome (Option Category) :=
  categoryCatch "Error updating category: " <|
    if notAdmin user then (.error (.plain accessDenied), s)
    else
      match findById Category.id id s.categories with
      | none => (.error (.plain "Category not found"), s)
      | some category =>
        -- the block `if (input.parentCategoryId !== undefined)`: the store it leaves
        -- and the value of `input.parentCategory`, or the exception it raises
        let relinked : Except Raised (Option (Option Id)) × Store :=
          match input.parentCategoryId with
          | none => (.ok none, s)
          | some requested =>
            let s1 :=
              match category.parentCategory with
              | some old => pullSubCategory now old category.id s
              | none => s
            match truthyId requested with
            | none => (.ok (some none), s1)
            | some p =>
              match findById Category.id p s1.categories with
              | none => (.error (.plain "New parent category not found"), s1)
              | some _ =>
                if p = id then (.error (.plain "Category cannot be its own parent"), s1)
                else (.ok (some (some p)), addSubCategory now p category.id s1)
        match relinked with
        | (.error e, s1) => (.error e, s1)
        | (.ok parent, s1) =>
          match input.validationErrors with
          | e :: es => (.error (.plain ("Validation failed: " ++ ", ".intercalate (e :: es))), s1)
          | [] =>
            match findById Category.id id s1.categories with
            | none => (.ok none, s1)
            | some current =>
              let doc := input.apply parent now current
              match Category.duplicateKey (some current) doc s1.categories with
              | some err => (.error err, s1)
              | none =>
                let s2 : Store :=
                  { s1 with categories := updateById Category.id id (fun _ => doc) s1.categories }
                (.ok (findById Category.id id s2.categories), s2)

/-- Resolver `deleteCategory` of `categoryResolvers.js`. -/
def deleteCategory (now : Nat) (id : Id) (user : Option Identity) (s : Store) : Outcome Bool :=
  rethrow "Error deleting category: " <|
    if notAdmin user then (.error accessDenied, s)
    else
      match findById Category.id id s.categories with
      | none => (.error "Category not found", s)
      | some category =>
        let bookCount := countBooksIn id s
        if 0 < bookCount then
          (.error ("Cannot delete category. It has " ++ toString bookCount
            ++ " books associated with it."), s)
        else if 0 < category.subCategories.length then
          (.error ("Cannot delete category. It has subcategories. "
            ++ "Please delete or move subcategories first."), s)
        else
          let s1 :=
            match category.parentCategory with
            | some p => pullSubCategory now p category.id s
            | none => s
          (.ok true, { s1 with categories := deleteById Category.id id s1.categories })

/-- Resolver `toggleCategoryStatus`. -/
def toggleCategoryStatus (now : Nat) (id : Id) (user : Option Identity) (s : Store) :
    Outcome (Option Category) :=
  plainCatch "Error toggling category status: " <|
    if notAdmin user then (.error (.plain accessDenied), s)
    else
      match findById Category.id id s.categories with
      | none => (.error (.plain "Category not found"), s)
      | some category =>
        match Category.save now category { category with isActive := !category.isActive } s with
        | (.error e, s1) => (.error e, s1)
        | (.ok _, s1) => (.ok (findById Category.id id s1.categories), s1)

/-- Resolver `toggleCategoryFeatured`. -/
def toggleCategoryFeatured (now : Nat) (id : Id) (user : Option Identity) (s : Store) :
    Outcome (Option Category) :=
  plainCatch "Error toggling featured status: " <|
    if notAdmin user then (.error (.plain accessDenied), s)
    else
      match findById Category.id id s.categories with
      | none => (.error (.plain "Category not found"), s)
      | some category =>
        match Category.save now category { category with isFeatured := !category.isFeatured } s with
        | (.error e, s1) => (.error e, s1)
        | (.ok _, s1) => (.ok (findById Category.id id s1.categories), s1)

/-- The write `Category.updateMany` of `bulkUpdateCategories`, document by
document over the ids that match: it is not atomic, a unique-index violation
stops it and keeps the writes already done.  No validators run. -/
def bulkApplyCategories (now : Nat) (input : CategoryUpdateInput) :
    List Id → Store → Attempt Unit
  | [], s => (.ok (), s)
  | t :: ts, s =>
    match findById Category.id t s.categories with
    | none => bulkApplyCategories now input ts s
    | some c =>
      let doc := input.apply none now c
      match Category.duplicateKey (some c) doc s.categories with
      | some err => (.error err, s)
      | none =>
        let written := updateById Category.id t (fun _ => doc) s.categories
        bulkApplyCategories now input ts { s with categories := written }

/-- Resolver `bulkUpdateCategories`. -/
def bulkUpdateCategories (now : Nat) (ids : List Id) (input : CategoryUpdateInput)
    (user : Option Identity) (s : Store) : Outcome (List Category) :=
  plainCatch "Error bulk updating categories: " <|
    if notAdmin user then (.error (.plain accessDenied), s)
    else
      let targets := (findMany Category.id ids s.categories).map Category.id
      match bulkApplyCategories now input targets s with
      | (.error e, s1) => (.error e, s1)
      | (.ok _, s1) => (.ok (findMany Category.id ids s1.categories), s1)

/-- Resolver `bulkDeleteCategories`. -/
def bulkDeleteCategories (ids : List Id) (user : Option Identity) (s : Store) : Outcome Bool :=
  rethrow "Error bulk deleting categories: " <|
    if notAdmin user then (.error accessDenied, s)
    else if 0 < countBooksAmong ids s then
      (.error "Cannot delete categories. They have books associated with them.", s)
    else
      let categoriesWithSubs :=
        (findMany Category.id ids s.categories).filter (fun c => decide (c.subCategories ≠ []))
      if 0 < categoriesWithSubs.length then
        (.error "Cannot delete categories that have subcategories.", s)
      else
        (.ok true, { s with categories := deleteMany Category.id ids s.categories })

/-- The updates issued by `reorderCategories`, in the order of `categoryOrders`:
each `findByIdAndUpdate(id, sortOrder, new: true)` yields the updated document
or `null`. -/
def reorderEach (now : Nat) : List (Id × Int) → Store → List (Option Category) × Store
  | [], s => ([], s)
  | (id, sortOrder) :: rest, s =>
    let setOrder : Category → Category :=
      fun c => { c with sortOrder := sortOrder, updatedAt := now }
    let s1 : Store := { s with categories := updateById Category.id id setOrder s.categories }
    let (docs, s2) := reorderEach now rest s1
    (findById Category.id id s1.categories :: docs, s2)

/-- Resolver `reorderCategories`. -/
def reorderCategories (now : Nat) (categoryOrders : List (Id × Int)) (user : Option Identity)
    (s : Store) : Outcome (List Category) :=
  rethrow "Error reordering categories: " <|
    if notAdmin user then (.error accessDenied, s)
    else
      let (docs, s1) := reorderEach now categoryOrders s
      (.ok (docs.filterMap (fun d => d)), s1)

/-! ## Mutations of `simpleResolvers.js` on categories -/

/-- Resolver `deleteCategory` of `simpleResolvers.js`: it counts the books and
deletes, without loading the category. -/
def simpleDeleteCategory (id : Id) (user : Option Identity) (s : Store) : Outcome Bool :=
  rethrow "Error deleting category: " <|
    if notAdmin user then (.error accessDenied, s)
    else
      let bookCount := countBooksIn id s
      if 0 < bookCount then
        (.error ("Cannot delete category. It has " ++ toString bookCount
          ++ " books associated with it."), s)
      else
        (.ok true, { s with categories := deleteById Category.id id s.categories })

/-! ## User schema and user mutations (`userResolvers.Mutation`) -/

/-- Modelled from the spec: password handling of the User model (`models/User.js`
is not part of the sources): a salted one-way hash applied before persistence,
and comparison of a candidate with the stored hash. -/
structure Passwords where
  hash : String → String
  compare : String → String → Bool

/-- Modelled from the spec: validators of the User schema (`models/User.js` is
not part of the sources): `role` is one of `customer` and `admin`. -/
def roleErrors (r : String) : List String :=
  if r = "customer" ∨ r = "admin" then [] else ["role: is not a valid enum value"]

/-- Modelled from the spec: the unique, case-insensitive `email` index of the
User schema: emails are stored in lower case, and a changed email must not be
held by another user. -/
def User.duplicateKey (old : Option User) (doc : User) (users : List User) : Option Raised :=
  let others := users.filter (fun u => decide (u.id ≠ doc.id))
  let emailChanged := decide (old.map (fun o => o.email) ≠ some doc.email)
  if emailChanged ∧ others.any (fun u => decide (u.email = doc.email)) then
    some (.duplicateKey "email")
  else none

/-- The call `user.save()` on a document loaded as `old` and changed in memory
to `doc`. -/
def User.save (now : Nat) (old doc : User) (s : Store) : Attempt Unit :=
  match roleErrors doc.role with
  | e :: es => (.error (.plain ("User validation failed: " ++ ", ".intercalate (e :: es))), s)
  | [] =>
    if doc = old then (.ok (), s)
    else
      match User.duplicateKey (some old) doc s.users with
      | some err => (.error err, s)
      | none =>
        let written := updateById User.id old.id (fun _ => { doc with updatedAt := now }) s.users
        (.ok (), { s with users := written })

/-- The call `user.save()` on a document made by `new User(input)`. -/
def User.insert (now : Nat) (doc : User) (s : Store) : Attempt Unit :=
  match roleErrors doc.role with
  | e :: es => (.error (.plain ("User validation failed: " ++ ", ".intercalate (e :: es))), s)
  | [] =>
    if s.users.any (fun u => decide (u.id = doc.id)) then (.error (.duplicateKey "_id"), s)
    else
      match User.duplicateKey none doc s.users with
      | some err => (.error err, s)
      | none =>
        (.ok (), { s with users := s.users ++ [{ doc with createdAt := now, updatedAt := now }] })

/-- Input of `updateProfile` (GraphQL `UpdateProfileInput`), on the modelled fields. -/
structure UpdateProfileInput where
  name : Option String := none
  phone : Option String := none
  deriving DecidableEq

/-- Input of `changePassword` (GraphQL `ChangePasswordInput`). -/
structure ChangePasswordInput where
  currentPassword : String
  newPassword : String
  confirmPassword : String
  deriving DecidableEq

/-- Input of `createUser` (GraphQL `RegisterInput`), on the modelled fields. -/
structure RegisterInput where
  name : String
  email : String
  password : String
  phone : Option String := none
  deriving DecidableEq

/-- Input of `updateUser` and `bulkUpdateUsers` (GraphQL `AdminUpdateUserInput`),
on the modelled fields. -/
structure AdminUpdateUserInput where
  name : Option String := none
  email : Option String := none
  role : Option String := none
  phone : Option String := none
  isActive : Option Bool := none
  isEmailVerified : Option Bool := none
  deriving DecidableEq

/-- The update document (`...input` and `updatedAt: new Date()`) applied to a user. -/
def AdminUpdateUserInput.apply (i : AdminUpdateUserInput) (now : Nat) (u : User) : User :=
  { u with
    name := i.name.getD u.name
    email := match i.email with | some v => toLowerCase v | none => u.email
    role := i.role.getD u.role
    phone := match i.phone with | some v => some v | none => u.phone
    isActive := i.isActive.getD u.isActive
    isEmailVerified := i.isEmailVerified.getD u.isEmailVerified
    updatedAt := now }

/-- Resolver `updateProfile`. -/
def updateProfile (now : Nat) (input : UpdateProfileInput) (user : Option Identity)
    (s : Store) : Outcome User :=
  rethrow "Error updating profile: " <|
    match user with
    | none => (.error "Authentication required", s)
    | some me =>
      let set : User → User :=
        fun u => { u with name := input.name.getD u.name,
                          phone := (match input.phone with | some v => some v | none => u.phone),
                          updatedAt := now }
      let s1 : Store := { s with users := updateById User.id me.id set s.users }
      match findById User.id me.id s1.users with
      | none => (.error "User not found", s1)
      | some updatedUser => (.ok updatedUser, s1)

/-- Resolver `changePassword`. -/
def changePassword (pw : Passwords) (now : Nat) (input : ChangePasswordInput)
    (user : Option Identity) (s : Store) : Outcome Bool :=
  plainCatch "Error changing password: " <|
    match user with
    | none => (.error (.plain "Authentication required"), s)
    | some me =>
      if input.newPassword ≠ input.confirmPassword then
        (.error (.plain "New password and confirm password do not match"), s)
      else
        match findById User.id me.id s.users with
        | none => (.error (.plain "User not found"), s)
        | some userWithPassword =>
          if pw.compare input.currentPassword userWithPassword.password = false then
            (.error (.plain "Current password is incorrect"), s)
          else
            let doc := { userWithPassword with password := pw.hash input.newPassword }
            match User.save now userWithPassword doc s with
            | (.error e, s1) => (.error e, s1)
            | (.ok _, s1) => (.ok true, s1)

/-- The `catch (error)` clause of `createUser`. -/
def createUserCatch {α : Type} (r : Attempt α) : Outcome α :=
  match r with
  | (.ok a, s) => (.ok a, s)
  | (.error (.duplicateKey _), s) => (.error "User with this email already exists", s)
  | (.error (.plain m), s) => (.error ("Error creating user: " ++ m), s)

/-- Resolver `createUser`.  The lookup `User.findOne` by `email` and the stored
email go through the lower-case setter of the schema, as the spec has the email
unique without regard to case. -/
def createUser (pw : Passwords) (now : Nat) (fresh : Id) (input : RegisterInput)
    (user : Option Identity) (s : Store) : Outcome (Option User) :=
  createUserCatch <|
    if notAdmin user then (.error (.plain accessDenied), s)
    else if s.users.any (fun u => decide (u.email = toLowerCase input.email)) then
      (.error (.plain "User with this email already exists"), s)
    else
      let newUser : User :=
        { id := fresh, name := input.name, email := toLowerCase input.email,
          password := pw.hash input.password, phone := input.phone }
      match User.insert now newUser s with
      | (.error e, s1) => (.error e, s1)
      | (.ok _, s1) => (.ok (findById User.id fresh s1.users), s1)

/-- Resolver `updateUser`. -/
def updateUser (now : Nat) (id : Id) (input : AdminUpdateUserInput) (user : Option Identity)
    (s : Store) : Outcome User :=
  plainCatch "Error updating user: " <|
    if notAdmin user then (.error (.plain accessDenied), s)
    else
      let emailTaken : Bool :=
        match input.email with
        | some e =>
          decide (e ≠ "") && s.users.any (fun u => decide (u.email = toLowerCase e ∧ u.id ≠ id))
        | none => false
      if emailTaken then (.error (.plain "Email already exists"), s)
      else
        match (input.role.map roleErrors).getD [] with
        | e :: es => (.error (.plain ("Validation failed: " ++ ", ".intercalate (e :: es))), s)
        | [] =>
          match findById User.id id s.users with
          | none => (.error (.plain "User not found"), s)
          | some target =>
            let doc := input.apply now target
            match User.duplicateKey (some target) doc s.users with
            | some err => (.error err, s)
            | none =>
              let s1 : Store := { s with users := updateById User.id id (fun _ => doc) s.users }
              match findById User.id id s1.users with
              | none => (.error (.plain "User not found"), s1)
              | some updatedUser => (.ok updatedUser, s1)

/-- Resolver `deleteUser`. -/
def deleteUser (id : Id) (user : Option Identity) (s : Store) : Outcome Bool :=
  rethrow "Error deleting user: " <|
    match user with
    | none => (.error accessDenied, s)
    | some me =>
      if me.role ≠ "admin" then (.error accessDenied, s)
      else if me.id = id then (.error "Cannot delete your own account", s)
      else
        match findById User.id id s.users with
        | none => (.error "User not found", s)
        | some _ => (.ok true, { s with users := deleteById User.id id s.users })

/-- Resolver `toggleUserStatus`. -/
def toggleUserStatus (now : Nat) (id : Id) (user : Option Identity) (s : Store) :
    Outcome (Option User) :=
  plainCatch "Error toggling user status: " <|
    match user with
    | none => (.error (.plain accessDenied), s)
    | some me =>
      if me.role ≠ "admin" then (.error (.plain accessDenied), s)
      else if me.id = id then (.error (.plain "Cannot change your own account status"), s)
      else
        match findById User.id id s.users with
        | none => (.error (.plain "User not found"), s)
        | some targetUser =>
          match User.save now targetUser { targetUser with isActive := !targetUser.isActive } s with
          | (.error e, s1) => (.error e, s1)
          | (.ok _, s1) => (.ok (findById User.id id s1.users), s1)

/-- Resolver `bulkDeleteUsers`. -/
def bulkDeleteUsers (ids : List Id) (user : Option Identity) (s : Store) : Outcome Bool :=
  rethrow "Error bulk deleting users: " <|
    match user with
    | none => (.error accessDenied, s)
    | some me =>
      if me.role ≠ "admin" then (.error accessDenied, s)
      else if ids.contains me.id then (.error "Cannot delete your own account", s)
      else (.ok true, { s with users := deleteMany User.id ids s.users })

/-- The write `User.updateMany` of `bulkUpdateUsers`, document by document over
the ids that match: a unique-index violation stops it and keeps the writes
already done.  No validators run. -/
def bulkApplyUsers (now : Nat) (input : AdminUpdateUserInput) : List Id → Store → Attempt Unit
  | [], s => (.ok (), s)
  | t :: ts, s =>
    match findById User.id t s.users with
    | none => bulkApplyUsers now input ts s
    | some u =>
      let doc := input.apply now u
      match User.duplicateKey (some u) doc s.users with
      | some err => (.error err, s)
      | none =>
        let written := updateById User.id t (fun _ => doc) s.users
        bulkApplyUsers now input ts { s with users := written }

/-- Resolver `bulkUpdateUsers`. -/
def bulkUpdateUsers (now : Nat) (ids : List Id) (input : AdminUpdateUserInput)
    (user : Option Identity) (s : Store) : Outcome (List User) :=
  plainCatch "Error bulk updating users: " <|
    if notAdmin user then (.error (.plain accessDenied), s)
    else
      let targets := (findMany User.id ids s.users).map User.id
      match bulkApplyUsers now input targets s with
      | (.error e, s1) => (.error e, s1)
      | (.ok _, s1) => (.ok (findMany User.id ids s1.users), s1)

/-- The object `userStats` returns. -/
structure UserStats where
  totalUsers : Nat
  activeUsers : Nat
  inactiveUsers : Nat
  verifiedUsers : Nat
  unverifiedUsers : Nat
  customers : Nat
  admins : Nat
  newUsersThisMonth : Nat
  deriving DecidableEq

/-- Query `userStats` (admin only); `startOfMonth` is the first instant of the
current month. -/
def userStats (startOfMonth : Nat) (user : Option Identity) (s : Store) :
    Except String UserStats :=
  if notAdmin user then .error ("Error fetching user stats: " ++ accessDenied)
  else
    let count : (User → Bool) → Nat := fun f => (s.users.filter f).length
    let totalUsers := s.users.length
    let activeUsers := count (fun x => x.isActive)
    let verifiedUsers := count (fun x => x.isEmailVerified)
    .ok { totalUsers := totalUsers, activeUsers := activeUsers,
          inactiveUsers := totalUsers - activeUsers, verifiedUsers := verifiedUsers,
          unverifiedUsers := totalUsers - verifiedUsers,
          customers := count (fun x => decide (x.role = "customer")),
          admins := count (fun x => decide (x.role = "admin")),
          newUsersThisMonth := count (fun x => decide (startOfMonth ≤ x.createdAt)) }

/-! ## Authorization gates (`middleware/auth.js`) -/

/-- The argument `resourceUserId` of `requireOwnershipOrAdmin`: an ObjectId or a
string, each with its `toString()`. -/
inductive OwnerRef where
  | objectId (hex : String)
  | text (value : String)
  deriving DecidableEq

/-- The call `resourceUserId.toString()`. -/
def OwnerRef.toString : OwnerRef → String
  | .objectId hex => hex
  | .text value => value

/-- Gate `requireAuth`. -/
def requireAuth (user : Option Identity) : Except String Identity :=
  match user with
  | none => .error "Authentication required. Please log in."
  | some u => .ok u

/-- Gate `requireAdmin`. -/
def requireAdmin (user : Option Identity) : Except String Identity :=
  match requireAuth user with
  | .error e => .error e
  | .ok u => if u.role ≠ "admin" then .error accessDenied else .ok u

/-- Gate `requireOwnershipOrAdmin`. -/
def requireOwnershipOrAdmin (user : Option Identity) (resourceUserId : OwnerRef) :
    Except String Identity :=
  match requireAuth user with
  | .error e => .error e
  | .ok u =>
    if u.role ≠ "admin" ∧ u.id ≠ resourceUserId.toString then
      .error "Access denied. You can only access your own resources."
    else .ok u

/-! ## Identity resolution (`getUser`, `middleware/auth.js`) -/

/-- The request as far as `getUser` reads it: the `authorization` header. -/
structure Request where
  authorization : Option String
  deriving DecidableEq

/-- The library call `jwt.verify(token, process.env.JWT_SECRET)`: the `userId` of
the decoded payload (absent when the payload has none), or the message of the
error thrown for a token that is malformed, expired or wrongly signed. -/
abbrev Verifier := String → Except String (Option Id)

/-- The token taken from the header:
`authHeader.startsWith('Bearer ') ? authHeader.slice(7) : authHeader`. -/
def bearerToken (authHeader : String) : String :=
  if "Bearer ".toList.isPrefixOf authHeader.toList then String.mk (authHeader.toList.drop 7)
  else authHeader

/-- The `try` block of `getUser`: `.ok none` is a `return null`, `.ok (some i)`
the returned identity, `.error` an exception thrown inside the block. -/
def getUserBody (verify : Verifier) (req : Request) (s : Store) :
    Except String (Option Identity) :=
  match req.authorization with
  | none => .ok none
  | some authHeader =>
    if authHeader = "" then .ok none
    else
      let token := bearerToken authHeader
      if token = "" then .ok none
      else
        match verify token with
        | .error e => .error e
        | .ok userId =>
          match userId.bind (fun i => findById User.id i s.users) with
          | none => .error "User not found"
          | some user =>
            if user.isActive = false then .error "Account is deactivated"
            else
              .ok (some { id := user.id, email := user.email, name := user.name,
                          role := user.role, isActive := user.isActive,
                          isEmailVerified := user.isEmailVerified })

/-- Function `getUser`: the `try` block, and the `catch` that logs the error and
returns `null`. -/
def getUser (verify : Verifier) (req : Request) (s : Store) : Option Identity :=
  match getUserBody verify req s with
  | .error _ => none
  | .ok r => r

/-! ## Queries: filter, sort, pagination -/

/-- A JavaScript number as far as `Math.ceil(totalCount / limit)` needs it. -/
inductive JsNumber where
  | finite (q : ℚ)
  | posInf
  | negInf
  | nan
  deriving DecidableEq

/-- The quotient `a / b` of two integers in JavaScript. -/
def jsDiv (a b : Int) : JsNumber :=
  if b = 0 then (if a = 0 then .nan else if 0 < a then .posInf else .negInf)
  else .finite ((a : ℚ) / (b : ℚ))

/-- The function `Math.ceil`. -/
def jsCeil : JsNumber → JsNumber
  | .finite q => .finite (⌈q⌉ : Int)
  | x => x

/-- The comparison `a < b` of an integer with a JavaScript number. -/
def jsLt (a : Int) : JsNumber → Bool
  | .finite q => decide ((a : ℚ) < q)
  | .posInf => true
  | .negInf => false
  | .nan => false

/-- A scalar in a query object. -/
inductive Value where
  | str (s : String)
  | num (q : ℚ)
  | bool (b : Bool)
  | null
  deriving DecidableEq

/-- One operator of a condition object: `$gte`, `$lte`, `$gt`, `$eq`, `$exists`, `$ne`. -/
inductive Op where
  | gte (q : ℚ)
  | lte (q : ℚ)
  | gt (q : ℚ)
  | eq (q : ℚ)
  | present (b : Bool)
  | ne (v : Value)
  deriving DecidableEq

/-- The condition a query puts on one key: a value, `new RegExp(pattern, 'i')`,
an object of operators, `$text` with its `$search`, or `$or` over regular
expressions on several paths. -/
inductive Cond where
  | is (v : Value)
  | regex (pattern : String)
  | ops (l : List Op)
  | text (search : String)
  | anyRegex (paths : List String) (pattern : String)
  deriving DecidableEq

/-- A query object: keys in insertion order, each key once. -/
abbrev Query := List (String × Cond)

/-- The assignment `query[key] = cond`. -/
def Query.set (q : Query) (key : String) (cond : Cond) : Query :=
  if q.any (fun e => decide (e.1 = key)) then
    q.map (fun e => if e.1 = key then (key, cond) else e)
  else q ++ [(key, cond)]

/-- The operators already under `query[key]`, for the spread `...query[key]`. -/
def Query.opsAt (q : Query) (key : String) : List Op :=
  match q.find? (fun e => decide (e.1 = key)) with
  | some (_, .ops l) => l
  | _ => []

/-- A truthy string: present and not empty. -/
def truthy (v : Option String) : Option String :=
  match v with
  | some x => if x = "" then none else some x
  | none => none

/-- One key of a sort object: a direction, or `$meta: 'textScore'`. -/
inductive SortKey where
  | dir (d : Int)
  | textScore
  deriving DecidableEq

/-- A sort object, keys in order. -/
abbrev SortSpec := List (String × SortKey)

/-- The database on one collection: the documents that match a query, all of
them, in the order of the sort; or the error of a query that cannot run. -/
abbrev Engine (α : Type) := Query → SortSpec → Except String (List α)

/-- Cursor methods `.skip(skip).limit(limit)` applied to the matching documents:
the server rejects a negative skip, `limit(0)` is no limit, a negative limit
counts as its absolute value. -/
def skipLimit {α : Type} (skip limit : Int) (matching : List α) : Except String (List α) :=
  if skip < 0 then .error "Skip value must be non-negative"
  else
    let rest := matching.drop skip.toNat
    .ok (if limit = 0 then rest else rest.take limit.natAbs)

/-- The connection object a paginated listing returns. -/
structure Connection (α : Type) where
  items : List α
  totalCount : Nat
  hasNextPage : Bool
  hasPreviousPage : Bool
  currentPage : Int
  totalPages : JsNumber

/-- The tail shared by the paginated listings, from `find` to the `return`:
`matching` is what the query matches, in sort order. -/
def connection {α : Type} (page limit skip : Int) (matching : List α) :
    Except String (Connection α) :=
  match skipLimit skip limit matching with
  | .error e => .error e
  | .ok items =>
    let totalCount := matching.length
    let totalPages := jsCeil (jsDiv totalCount limit)
    .ok { items := items, totalCount := totalCount, hasNextPage := jsLt page totalPages,
          hasPreviousPage := decide (1 < page), currentPage := page, totalPages := totalPages }

/-- The `try` body of a listing after the query and the sort are built, and its
`catch` clause. -/
def listing {α : Type} (label : String) (db : Engine α) (query : Query) (sort : SortSpec)
    (page limit skip : Int) : Except String (Connection α) :=
  match db query sort with
  | .error e => .error (label ++ e)
  | .ok matching =>
    match connection page limit skip matching with
    | .error e => .error (label ++ e)
    | .ok c => .ok c

/-- Filter argument of the book listings; `none` is an absent field. -/
structure BookFilter where
  categoryId : Option String := none
  minPrice : Option ℚ := none
  maxPrice : Option ℚ := none
  author : Option String := none
  publisher : Option String := none
  language : Option String := none
  format : Option String := none
  inStock : Option Bool := none
  isActive : Option Bool := none
  isFeatured : Option Bool := none
  isOnSale : Option Bool := none
  rating : Option ℚ := none
  deriving DecidableEq

/-- Filter argument of the category listings (GraphQL `CategoryFilterInput`). -/
structure CategoryFilter where
  isActive : Option Bool := none
  isFeatured : Option Bool := none
  parentCategoryId : Option String := none
  hasParent : Option Bool := none
  deriving DecidableEq

/-- Filter argument of the user listing (GraphQL `UserFilterInput`). -/
structure UserFilter where
  role : Option String := none
  isActive : Option Bool := none
  isEmailVerified : Option Bool := none
  gender : Option String := none
  deriving DecidableEq

/-- Apply `f` to the query when the optional value is there. -/
def Query.whenSome {β : Type} (q : Query) (v : Option β) (f : Query → β → Query) : Query :=
  match v with
  | some x => f q x
  | none => q

/-- The lookup `sortMap[key]` when `key` is not an own key of the object literal:
the literal inherits from `Object.prototype`, so the twelve property names of the
prototype yield a truthy function or object, and the computed key
`[sortField]` of the sort object is its string form.  `none` is `undefined`. -/
def inheritedProperty (key : String) : Option String :=
  if key = "constructor" then some "function Object() \x7b [native code] \x7d"
  else if key = "__proto__" then some "[object Object]"
  else if key ∈ ["hasOwnProperty", "isPrototypeOf", "propertyIsEnumerable", "toLocaleString",
      "toString", "valueOf", "__defineGetter__", "__defineSetter__", "__lookupGetter__",
      "__lookupSetter__"] then
    some ("function " ++ key ++ "() \x7b [native code] \x7d")
  else none

/-- The `sortMap` of `books` and `allBooks`, with the fallback `|| 'createdAt'`. -/
def bookSortField (sortBy : String) : String :=
  if sortBy = "CREATED_AT" then "createdAt"
  else if sortBy = "UPDATED_AT" then "updatedAt"
  else if sortBy = "TITLE" then "title"
  else if sortBy = "AUTHOR" then "author"
  else if sortBy = "PRICE" then "price"
  else if sortBy = "RATING" then "rating"
  else if sortBy = "SOLD" then "sold"
  else if sortBy = "VIEW_COUNT" then "viewCount"
  else (inheritedProperty sortBy).getD "createdAt"

/-- The `sortMap` of `booksByCategory`, with the fallback `|| 'createdAt'`. -/
def categoryBookSortField (sortBy : String) : String :=
  if sortBy = "CREATED_AT" then "createdAt"
  else if sortBy = "TITLE" then "title"
  else if sortBy = "PRICE" then "price"
  else if sortBy = "RATING" then "rating"
  else if sortBy = "SOLD" then "sold"
  else (inheritedProperty sortBy).getD "createdAt"

/-- The query object that `books` builds. -/
def booksQuery (filter : BookFilter) (search : Option String) : Query :=
  let q : Query := [("isActive", .is (.bool true))]
  let q := q.whenSome (truthy filter.categoryId) (fun q c => q.set "category" (.is (.str c)))
  let q := q.whenSome filter.minPrice
    (fun q m => q.set "price" (.ops (q.opsAt "price" ++ [.gte m])))
  let q := q.whenSome filter.maxPrice
    (fun q m => q.set "price" (.ops (q.opsAt "price" ++ [.lte m])))
  let q := q.whenSome (truthy filter.author) (fun q a => q.set "author" (.regex a))
  let q := q.whenSome (truthy filter.publisher) (fun q a => q.set "publisher" (.regex a))
  let q := q.whenSome (truthy filter.language) (fun q a => q.set "language" (.is (.str a)))
  let q := q.whenSome (truthy filter.format) (fun q a => q.set "format" (.is (.str a)))
  let q := q.whenSome filter.inStock
    (fun q b => q.set "stock" (.ops [if b then .gt 0 else .eq 0]))
  let q := q.whenSome filter.isFeatured (fun q b => q.set "isFeatured" (.is (.bool b)))
  let q := q.whenSome filter.isOnSale (fun q b => q.set "isOnSale" (.is (.bool b)))
  let q := q.whenSome filter.rating (fun q r => q.set "rating" (.ops [.gte r]))
  q.whenSome (truthy search) (fun q t => q.set "$text" (.text t))

/-- Listing `books`. -/
def books (db : Engine Book) (page : Int := 1) (limit : Int := 12) (filter : BookFilter := {})
    (search : Option String := none) (sortBy : String := "CREATED_AT")
    (sortOrder : String := "DESC") : Except String (Connection Book) :=
  let skip := (page - 1) * limit
  let query := booksQuery filter search
  let sortField := bookSortField sortBy
  let sortDirection : Int := if sortOrder = "ASC" then 1 else -1
  let sort : SortSpec := [(sortField, .dir sortDirection)]
  let sort : SortSpec :=
    match truthy search with
    | some _ => ("score", .textScore) :: sort
    | none => sort
  listing "Error fetching books: " db query sort page limit skip

/-- Listing `booksByCategory`. -/
def booksByCategory (db : Engine Book) (categoryId : Id) (page : Int := 1) (limit : Int := 12)
    (sortBy : String := "CREATED_AT") (sortOrder : String := "DESC") :
    Except String (Connection Book) :=
  let skip := (page - 1) * limit
  let sortField := categoryBookSortField sortBy
  let sortDirection : Int := if sortOrder = "ASC" then 1 else -1
  let sort : SortSpec := [(sortField, .dir sortDirection)]
  let query : Query := [("category", .is (.str categoryId)), ("isActive", .is (.bool true))]
  listing "Error fetching books by category: " db query sort page limit skip

/-- The query object of `searchBooks`: `$text`, `isActive: true`, then the spread
of the raw filter, each present field under its own name. -/
def searchBooksQuery (query : String) (filter : BookFilter) : Query :=
  let q : Query := [("$text", .text query), ("isActive", .is (.bool true))]
  let q := q.whenSome filter.categoryId (fun q v => q.set "categoryId" (.is (.str v)))
  let q := q.whenSome filter.minPrice (fun q v => q.set "minPrice" (.is (.num v)))
  let q := q.whenSome filter.maxPrice (fun q v => q.set "maxPrice" (.is (.num v)))
  let q := q.whenSome filter.author (fun q v => q.set "author" (.is (.str v)))
  let q := q.whenSome filter.publisher (fun q v => q.set "publisher" (.is (.str v)))
  let q := q.whenSome filter.language (fun q v => q.set "language" (.is (.str v)))
  let q := q.whenSome filter.format (fun q v => q.set "format" (.is (.str v)))
  let q := q.whenSome filter.inStock (fun q v => q.set "inStock" (.is (.bool v)))
  let q := q.whenSome filter.isActive (fun q v => q.set "isActive" (.is (.bool v)))
  let q := q.whenSome filter.isFeatured (fun q v => q.set "isFeatured" (.is (.bool v)))
  let q := q.whenSome filter.isOnSale (fun q v => q.set "isOnSale" (.is (.bool v)))
  q.whenSome filter.rating (fun q v => q.set "rating" (.is (.num v)))

/-- Listing `searchBooks`. -/
def searchBooks (db : Engine Book) (query : String) (page : Int := 1) (limit : Int := 12)
    (filter : BookFilter := {}) : Except String (Connection Book) :=
  let skip := (page - 1) * limit
  let searchQuery := searchBooksQuery query filter
  listing "Error searching books: " db searchQuery [("score", .textScore)] page limit skip

/-- The query object that `allBooks` builds. -/
def allBooksQuery (filter : BookFilter) (search : Option String) : Query :=
  let q : Query := []
  let q := q.whenSome (truthy filter.categoryId) (fun q c => q.set "category" (.is (.str c)))
  let q := q.whenSome filter.isActive (fun q b => q.set "isActive" (.is (.bool b)))
  let q := q.whenSome filter.isFeatured (fun q b => q.set "isFeatured" (.is (.bool b)))
  let q := q.whenSome (truthy filter.author) (fun q a => q.set "author" (.regex a))
  let q := q.whenSome (truthy filter.publisher) (fun q a => q.set "publisher" (.regex a))
  q.whenSome (truthy search)
    (fun q t => q.set "$or" (.anyRegex ["title", "author", "isbn", "publisher"] t))

/-- Listing `allBooks`. -/
def allBooks (db : Engine Book) (page : Int := 1) (limit : Int := 20) (filter : BookFilter := {})
    (search : Option String := none) (sortBy : String := "CREATED_AT")
    (sortOrder : String := "DESC") : Except String (Connection Book) :=
  let skip := (page - 1) * limit
  let query := allBooksQuery filter search
  let sortField := bookSortField sortBy
  let sortDirection : Int := if sortOrder = "ASC" then 1 else -1
  let sort : SortSpec := [(sortField, .dir sortDirection)]
  listing "Error fetching all books: " db query sort page limit skip

/-- The filter part of the query object of `categories` and `allCategories`. -/
def categoryQuery (filter : CategoryFilter) : Query :=
  let q : Query := []
  let q := q.whenSome filter.isActive (fun q b => q.set "isActive" (.is (.bool b)))
  let q := q.whenSome filter.isFeatured (fun q b => q.set "isFeatured" (.is (.bool b)))
  let q := q.whenSome (truthy filter.parentCategoryId)
    (fun q c => q.set "parentCategory" (.is (.str c)))
  q.whenSome filter.hasParent
    (fun q b => q.set "parentCategory"
      (.ops (if b then [.present true, .ne .null] else [.present false])))

/-- Listing `categories` (not paginated). -/
def categories (db : Engine Category) (filter : CategoryFilter := {}) :
    Except String (List Category) :=
  match db (categoryQuery filter) [("sortOrder", .dir 1), ("name", .dir 1)] with
  | .error e => .error ("Error fetching categories: " ++ e)
  | .ok found => .ok found

/-- Listing `allCategories`. -/
def allCategories (db : Engine Category) (page : Int := 1) (limit : Int := 20)
    (filter : CategoryFilter := {}) (search : Option String := none) :
    Except String (Connection Category) :=
  let skip := (page - 1) * limit
  let query := categoryQuery filter
  let query := query.whenSome (truthy search)
    (fun q t => q.set "$or" (.anyRegex ["name", "description", "slug"] t))
  let sort : SortSpec := [("sortOrder", .dir 1), ("createdAt", .dir (-1))]
  listing "Error fetching all categories: " db query sort page limit skip

/-- The query object that `users` builds. -/
def usersQuery (filter : UserFilter) (search : Option String) : Query :=
  let q : Query := []
  let q := q.whenSome (truthy filter.role) (fun q r => q.set "role" (.is (.str r)))
  let q := q.whenSome filter.isActive (fun q b => q.set "isActive" (.is (.bool b)))
  let q := q.whenSome filter.isEmailVerified
    (fun q b => q.set "isEmailVerified" (.is (.bool b)))
  let q := q.whenSome (truthy filter.gender) (fun q g => q.set "gender" (.is (.str g)))
  q.whenSome (truthy search) (fun q t => q.set "$or" (.anyRegex ["name", "email", "phone"] t))

/-- Listing `users` (admin only). -/
def users (db : Engine User) (user : Option Identity) (page : Int := 1) (limit : Int := 20)
    (filter : UserFilter := {}) (search : Option String := none)
    (sortBy : String := "createdAt") (sortOrder : String := "desc") :
    Except String (Connection User) :=
  if notAdmin user then .error ("Error fetching users: " ++ accessDenied)
  else
    let skip := (page - 1) * limit
    let query := usersQuery filter search
    let sortDirection : Int := if sortOrder = "asc" then 1 else -1
    let sort : SortSpec := [(sortBy, .dir sortDirection)]
    listing "Error fetching users: " db query sort page limit skip

/-! ## What a query selects, and in which order -/

/-- The value the database holds at a path of a category document.  Every path
with a schema default is present; `parentCategory` holds `null` when the
category has no parent (schema default `null`).  Dates are their instants. -/
def Category.field (c : Category) (path : String) : Option Value :=
  if path = "_id" then some (.str c.id)
  else if path = "name" then some (.str c.name)
  else if path = "description" then c.description.map Value.str
  else if path = "slug" then some (.str c.slug)
  else if path = "parentCategory" then
    some (match c.parentCategory with | some p => .str p | none => .null)
  else if path = "bookCount" then some (.num c.bookCount)
  else if path = "isActive" then some (.bool c.isActive)
  else if path = "isFeatured" then some (.bool c.isFeatured)
  else if path = "sortOrder" then some (.num c.sortOrder)
  else if path = "createdAt" then some (.num c.createdAt)
  else if path = "updatedAt" then some (.num c.updatedAt)
  else none

/-- Whether the value at a path (`none` when the path is missing) satisfies one
query operator. -/
def Op.holds (v : Option Value) : Op → Bool
  | .gte q => match v with | some (.num n) => decide (q ≤ n) | _ => false
  | .lte q => match v with | some (.num n) => decide (n ≤ q) | _ => false
  | .gt q => match v with | some (.num n) => decide (q < n) | _ => false
  | .eq q => decide (v = some (.num q))
  | .present b => v.isSome == b
  | .ne x =>
    if x = .null then decide (v ≠ none ∧ v ≠ some .null) else decide (v ≠ some x)

/-- Whether a document, given by its paths, satisfies the condition a query puts
on a key; `rx pattern text` is the match of `new RegExp(pattern, 'i')`.  A
`$text` condition selects nothing here: the database refuses it on a collection
without a text index, see `categoryDb`. -/
def Cond.holds (rx : String → String → Bool) (field : String → Option Value) (key : String) :
    Cond → Bool
  | .is x =>
    if x = .null then decide (field key = none ∨ field key = some .null)
    else decide (field key = some x)
  | .regex pattern => match field key with | some (.str t) => rx pattern t | _ => false
  | .ops l => l.all (Op.holds (field key))
  | .text _ => false
  | .anyRegex paths pattern =>
    paths.any (fun f => match field f with | some (.str t) => rx pattern t | _ => false)

/-- Whether a document satisfies every key of a query. -/
def Query.selects (rx : String → String → Bool) (q : Query) (field : String → Option Value) :
    Bool :=
  q.all (fun e => e.2.holds rx field e.1)

/-- Rank of a value in the comparison order of the database: missing and null,
then numbers, then strings, then booleans. -/
def valueRank : Option Value → Nat
  | none => 0
  | some .null => 0
  | some (.num _) => 1
  | some (.str _) => 2
  | some (.bool _) => 3

/-- Whether value `a` sorts before or with value `b` in ascending order; strings
compare character by character. -/
def valueLe (a b : Option Value) : Bool :=
  match a, b with
  | some (.num x), some (.num y) => decide (x ≤ y)
  | some (.str x), some (.str y) => decide (x.toList ≤ y.toList)
  | some (.bool x), some (.bool y) => !x || y
  | _, _ => decide (valueRank a ≤ valueRank b)

/-- Whether document `a` may stand before document `b` under a sort object: the
first key on which they differ decides, by its direction. -/
def sortLe {α : Type} (field : α → String → Option Value) : SortSpec → α → α → Bool
  | [], _, _ => true
  | (_, .textScore) :: rest, a, b => sortLe field rest a b
  | (key, .dir d) :: rest, a, b =>
    let x := field a key
    let y := field b key
    if valueLe x y && valueLe y x then sortLe field rest a b
    else if 0 ≤ d then valueLe x y else valueLe y x

/-- The method `.sort(sort)`. -/
def sortDocs {α : Type} (field : α → String → Option Value) (st : SortSpec) (docs : List α) :
    List α :=
  docs.insertionSort (fun a b => sortLe field st a b = true)

/-- The category collection of a store as a database. -/
def categoryDb (rx : String → String → Bool) (s : Store) : Engine Category :=
  fun q st =>
    if q.any (fun e => match e.2 with | .text _ => true | _ => false) then
      .error "text index required for $text query"
    else
      .ok (sortDocs Category.field st (s.categories.filter (fun c => q.selects rx c.field)))

/-- The value the database holds at a path of a book document, for the paths of
the model; `isbn` is missing when the book has none. -/
def Book.field (b : Book) (path : String) : Option Value :=
  if path = "_id" then some (.str b.id)
  else if path = "title" then some (.str b.title)
  else if path = "author" then some (.str b.author)
  else if path = "isbn" then b.isbn.map Value.str
  else if path = "price" then some (.num b.price)
  else if path = "category" then some (.str b.category)
  else if path = "stock" then some (.num b.stock)
  else if path = "sold" then some (.num b.sold)
  else if path = "rating" then some (.num b.rating)
  else if path = "reviewCount" then some (.num b.reviewCount)
  else if path = "isActive" then some (.bool b.isActive)
  else if path = "isFeatured" then some (.bool b.isFeatured)
  else if path = "slug" then some (.str b.slug)
  else if path = "viewCount" then some (.num b.viewCount)
  else if path = "createdAt" then some (.num b.createdAt)
  else if path = "updatedAt" then some (.num b.updatedAt)
  else none

/-- The book collection of a store as a database; `tx search book` is the match
of the text index on title, author and description.  The relevance score of a
text search is not modelled: the key `score` leaves the order to the next key. -/
def bookDb (rx : String → String → Bool) (tx : String → Book → Bool) (s : Store) :
    Engine Book :=
  fun q st =>
    let selected := s.books.filter (fun b =>
      q.all (fun e => match e.2 with
        | .text search => tx search b
        | cond => cond.holds rx b.field e.1))
    .ok (sortDocs Book.field st selected)

/-- The value the database holds at a path of a user document, for the paths of
the model. -/
def User.field (u : User) (path : String) : Option Value :=
  if path = "_id" then some (.str u.id)
  else if path = "name" then some (.str u.name)
  else if path = "email" then some (.str u.email)
  else if path = "password" then some (.str u.password)
  else if path = "role" then some (.str u.role)
  else if path = "phone" then u.phone.map Value.str
  else if path = "isActive" then some (.bool u.isActive)
  else if path = "isEmailVerified" then some (.bool u.isEmailVerified)
  else if path = "lastLogin" then u.lastLogin.map (fun t => Value.num t)
  else if path = "createdAt" then some (.num u.createdAt)
  else if path = "updatedAt" then some (.num u.updatedAt)
  else none

/-- The user collection of a store as a database. -/
def userDb (rx : String → String → Bool) (s : Store) : Engine User :=
  fun q st =>
    if q.any (fun e => match e.2 with | .text _ => true | _ => false) then
      .error "text index required for $text query"
    else
      .ok (sortDocs User.field st (s.users.filter (fun u => q.selects rx u.field)))

/-! ## Statement of the pagination contract (spec, section 4.1 and section 8) -/

/-- The database answered the listing with `matching`: some query and sort it
was asked returned that list. -/
def Answers {α : Type} (db : Engine α) (matching : List α) : Prop :=
  ∃ q st, db q st = .ok matching

/-- The pagination contract in the words of the spec: the page skips
`(page - 1) * limit` of the matching documents and holds at most `limit`,
`totalCount` counts the matching documents, `totalPages` is
`ceil(totalCount / limit)`, that is the integer `T` with
`(T - 1) * limit < totalCount ≤ T * limit`, `hasNextPage` is `page < totalPages`,
`hasPreviousPage` is `page > 1`, and `currentPage` echoes `page`. -/
def IsPageOf {α : Type} (page limit : Int) (matching : List α) (c : Connection α) : Prop :=
  c.items = (matching.drop ((page - 1) * limit).toNat).take limit.toNat ∧
  c.totalCount = matching.length ∧
  (∃ T : Int, c.totalPages = .finite T ∧ T = ⌈((matching.length : Int) : ℚ) / (limit : ℚ)⌉ ∧
      (T - 1) * limit < matching.length ∧ (matching.length : Int) ≤ T * limit ∧
      c.hasNextPage = decide (page < T)) ∧
  c.hasPreviousPage = decide (1 < page) ∧
  c.currentPage = page

/-- The connection of an empty result set as the code returns it: no items,
`totalCount = 0`, `totalPages = 0`, `hasNextPage = false`, and
`hasPreviousPage = (page > 1)`. -/
def IsEmptyPage {α : Type} (page : Int) (c : Connection α) : Prop :=
  c.items = [] ∧ c.totalCount = 0 ∧ c.totalPages = .finite 0 ∧ c.hasNextPage = false ∧
  c.hasPreviousPage = decide (1 < page) ∧ c.currentPage = page

/-- What a listing does with a limit that is not positive, `m` being the matching
documents and `r` the result.  With `limit = 0` it returns every matching
document and `totalPages` is not a finite number; with `limit < 0` on page 1 it
returns the first `|limit|` documents and a `totalPages ≤ 0`; with `limit < 0`
on a later page it fails, the skip being negative. -/
def NonPositiveLimitOutcome {α : Type} (page limit : Int) (m : List α)
    (r : Except String (Connection α)) : Prop :=
  (limit = 0 → ∃ c, r = .ok c ∧ c.items = m ∧ c.totalCount = m.length ∧
      c.totalPages = (if m.length = 0 then JsNumber.nan else JsNumber.posInf)) ∧
  (limit < 0 → page = 1 → ∃ c, r = .ok c ∧ c.items = m.take limit.natAbs ∧
      c.totalCount = m.length ∧ (∃ T : Int, c.totalPages = .finite T ∧ T ≤ 0) ∧
      c.hasNextPage = false) ∧
  (limit < 0 → 1 < page → ∃ e, r = .error e)

/-- The items of the page `page` of the matching documents `m`, as the shared
tail of the listings returns them (none when it fails). -/
def pageItems {α : Type} (page limit : Int) (m : List α) : List α :=
  match connection page limit ((page - 1) * limit) m with
  | .ok c => c.items
  | .error _ => []

/-! ## Statement of the generated book slug (spec, section 3) -/

/-- The slug the book hook is said to generate: the title lowercased, stripped of
every character other than a-z, 0-9, white space and the hyphen, with white-space
runs and hyphen runs each collapsed to one hyphen, followed by a hyphen and the
current timestamp. -/
def claimedBookSlug (title : String) (now : Nat) : String :=
  String.mk (replaceRuns (fun c => c = '-') '-'
    (replaceRuns isSpace '-' ((toLowerCase title).toList.filter slugKeep)))
    ++ "-" ++ toString now

/-! ## Statement of the counter invariant (spec, section 4.3) -/

/-- Every category's `bookCount` equals the number of books whose category is
that category. -/
def countersInSync (s : Store) : Bool :=
  s.categories.all (fun c => decide (c.bookCount = (countBooksIn c.id s : Int)))

/-! ## Statement of the back-reference invariant (spec, section 3) -/

/-- The parent/child back-references are in sync: every category that has a
parent is listed in the `subCategories` of a category with that id, and every id
listed in the `subCategories` of a category is the id of a category whose
`parentCategory` is that category. -/
def backRefsInSync (cats : List Category) : Bool :=
  cats.all (fun c =>
    match c.parentCategory with
    | none => true
    | some p => cats.any (fun pc => decide (pc.id = p) && pc.subCategories.contains c.id)) &&
  cats.all (fun pc =>
    pc.subCategories.all (fun k =>
      cats.any (fun c => decide (c.id = k) && decide (c.parentCategory = some pc.id))))

/-! ## Sample data used by the concrete evaluations -/

/-- An administrator identity. -/
def sampleAdmin : Identity :=
  { id := "u1", email := "admin@bookstore.com", name := "Admin", role := "admin",
    isActive := true, isEmailVerified := true }

/-- A customer identity. -/
def sampleCustomer : Identity :=
  { id := "u2", email := "customer@bookstore.com", name := "Customer", role := "customer",
    isActive := true, isEmailVerified := true }

/-- A store with one category, one book with 3 copies in stock, and two users. -/
def sampleStore : Store :=
  { books := [{ id := "b1", title := "Foo", author := "Ann", price := 5, category := "c1",
                stock := 3, sold := 0, slug := "foo-1" }],
    categories := [{ id := "c1", name := "Fiction", slug := "fiction", bookCount := 1 }],
    users := [{ id := "u1", name := "Admin", email := "admin@bookstore.com", password := "h1",
                role := "admin" },
              { id := "u2", name := "Customer", email := "customer@bookstore.com",
                password := "h2" }] }

/-- A database that matches the same three users whatever the query. -/
def sampleUserDb : Engine User :=
  fun _ _ => .ok [{ id := "u1", name := "A", email := "a@x.com", password := "h" },
                  { id := "u2", name := "B", email := "b@x.com", password := "h" },
                  { id := "u3", name := "C", email := "c@x.com", password := "h" }]

/-- A database that matches every book of `sampleStore` whatever the query. -/
def sampleBookDb : Engine Book := fun _ _ => .ok sampleStore.books

/-- A database that matches every category of `sampleStore` whatever the query. -/
def sampleCategoryDb : Engine Category := fun _ _ => .ok sampleStore.categories

/-- A stand-in for the hash of the User model in the concrete evaluations. -/
def samplePasswords : Passwords :=
  { hash := fun p => "hashed:" ++ p, compare := fun p h => decide ("hashed:" ++ p = h) }

/-- A store whose only category has a drifted counter: `bookCount = 2`, no book
refers to it, no subcategories, no parent. -/
def driftStore : Store :=
  { books := [],
    categories := [{ id := "c2", name := "Drift", slug := "drift", bookCount := 2 }],
    users := [] }

/-- A store with a parent category `p1`, its child `k1`, and one book in `p1`. -/
def familyStore : Store :=
  { books := [{ id := "b1", title := "Foo", author := "Ann", price := 5, category := "p1",
                stock := 3, slug := "foo-1" }],
    categories := [{ id := "p1", name := "Parent", slug := "parent", subCategories := ["k1"],
                     bookCount := 1 },
                   { id := "k1", name := "Child", slug := "child", parentCategory := some "p1" }],
    users := [] }

/-- A database in which no book matches, whatever the query. -/
def emptyBookDb : Engine Book := fun _ _ => .ok []

/-- A database in which no category matches, whatever the query. -/
def emptyCategoryDb : Engine Category := fun _ _ => .ok []

/-- A database in which no user matches, whatever the query. -/
def emptyUserDb : Engine User := fun _ _ => .ok []

/-- A store with two parents `p1`, `p2` and one child of each, `k1` and `k2`. -/
def twoFamilies : Store :=
  { books := [],
    categories :=
      [{ id := "p1", name := "P1", slug := "p1", subCategories := ["k1"], sortOrder := 1 },
       { id := "k1", name := "K1", slug := "k1", parentCategory := some "p1", sortOrder := 2 },
       { id := "p2", name := "P2", slug := "p2", subCategories := ["k2"], sortOrder := 3 },
       { id := "k2", name := "K2", slug := "k2", parentCategory := some "p2", sortOrder := 4 }],
    users := [] }

/-- A regular-expression matcher for evaluations that use no pattern. -/
def noRegex : String → String → Bool := fun _ _ => false

/-- A store with three books: `s1` with 3 copies, `s2` out of stock, and `s3`
with 5 copies, older than the others. -/
def stockShelf : Store :=
  { books := [{ id := "s1", title := "One", author := "Ann", price := 5, category := "c1",
                stock := 3, slug := "one-1", createdAt := 30 },
              { id := "s2", title := "Two", author := "Bob", price := 7, category := "c1",
                stock := 0, slug := "two-2", createdAt := 20 },
              { id := "s3", title := "Three", author := "Cy", price := 9, category := "c1",
                stock := 5, slug := "three-3", createdAt := 10 }],
    categories := [{ id := "c1", name := "Fiction", slug := "fiction", bookCount := 3 }],
    users := [] }

/-- A text index that matches nothing, for evaluations that do not search. -/
def noText : String → Book → Bool := fun _ _ => false

/-- A store with an administrator and a customer whose order by creation time
differs from their order by password hash. -/
def hashedUsers : Store :=
  { books := [], categories := [],
    users := [{ id := "u1", name := "Admin", email := "admin@bookstore.com", password := "zz",
                role := "admin", createdAt := 10 },
              { id := "u2", name := "Customer", email := "customer@bookstore.com",
                password := "aa", createdAt := 20 }] }

/-- An input of `createBook`: a second book, for the category `k1`. -/
def secondBookInput : BookInput :=
  { title := "Bar", author := "Bob", price := 7, categoryId := "k1", stock := 2 }

/-- An input of `createBook` for the category `c1`, with blanks around the title
and after the author. -/
def paddedBookInput : BookInput :=
  { title := "  Bar ", author := "Bob ", price := 3, categoryId := "c1", stock := 2 }

/-- An input of `createBook` whose title consists of blanks. -/
def blankTitleInput : BookInput :=
  { title := "   ", author := "Bob", price := 3, categoryId := "c1", stock := 2 }

/-- An input of `createCategory` that gives a name and no slug. -/
def noSlugInput : CategoryInput := { name := "Hello World !" }

/-- An input of `createCategory` whose name is that of the category `c1` of
`sampleStore` with a blank before it. -/
def paddedNameInput : CategoryInput := { name := " Fiction", slug := some "fiction-2" }

/-- The book of `sampleStore`. -/
def sampleBook : Book :=
  { id := "b1", title := "Foo", author := "Ann", price := 5, category := "c1",
    stock := 3, sold := 0, slug := "foo-1" }

/-! ## Lemmas on the collection primitives -/

section CollectionLemmas
variable {α : Type}

theorem findById_key {key : α → Id} {id : Id} {xs : List α} {x : α}
    (h : findById key id xs = some x) : key x = id := by
  have := List.find?_some h
  simpa using this

theorem findById_mem {key : α → Id} {id : Id} {xs : List α} {x : α}
    (h : findById key id xs = some x) : x ∈ xs :=
  List.mem_of_find?_eq_some h

theorem findById_updateById (key : α → Id) (id : Id) (f : α → α) (xs : List α)
    (hf : ∀ x, key x = id → key (f x) = id) :
    findById key id (updateById key id f xs) = (findById key id xs).map f := by
  induction xs with
  | nil => rfl
  | cons x xs ih =>
    unfold findById updateById at *
    by_cases hx : key x = id
    · simp [List.find?, hx, hf x hx]
    · simp [List.find?, hx, ih]

theorem findById_updateById_ne (key : α → Id) (id other : Id) (f : α → α) (xs : List α)
    (hf : ∀ x, key (f x) = key x) (hne : other ≠ id) :
    findById key other (updateById key id f xs) = findById key other xs := by
  induction xs with
  | nil => rfl
  | cons x xs ih =>
    simp only [findById, updateById, List.map_cons, List.find?_cons] at ih ⊢
    by_cases hx : key x = id
    · have hxo : ¬ key x = other := fun h => hne (h ▸ hx)
      have hfo : ¬ key (f x) = other := by rw [hf x]; exact hxo
      rw [if_pos hx, decide_eq_false hfo, decide_eq_false hxo]
      exact ih
    · rw [if_neg hx]
      by_cases hxo : key x = other
      · rw [decide_eq_true hxo]
      · rw [decide_eq_false hxo]
        exact ih

theorem findById_deleteById_self (key : α → Id) (id : Id) (xs : List α) :
    findById key id (deleteById key id xs) = none := by
  unfold findById deleteById
  simp [List.find?_eq_none]

theorem findById_deleteById_ne (key : α → Id) (id other : Id) (xs : List α) (hne : other ≠ id) :
    findById key other (deleteById key id xs) = findById key other xs := by
  induction xs with
  | nil => rfl
  | cons x xs ih =>
    simp only [findById, deleteById, List.filter_cons, List.find?_cons] at ih ⊢
    by_cases hx : key x = id
    · have hxo : ¬ key x = other := fun h => hne (h ▸ hx)
      have hd : decide (key x ≠ id) = false := decide_eq_false (not_not.mpr hx)
      rw [hd, decide_eq_false hxo]
      exact ih
    · have hd : decide (key x ≠ id) = true := decide_eq_true hx
      rw [hd]
      simp only [if_true, List.find?_cons]
      by_cases hxo : key x = other
      · rw [decide_eq_true hxo]
      · rw [decide_eq_false hxo]
        exact ih

end CollectionLemmas

/-! ## Stock adjustment -/

theorem Book.validationErrors_nil_iff (b : Book) :
    b.validationErrors = [] ↔
      titleErrors b.title = [] ∧ authorErrors b.author = [] ∧ isbnErrors b.isbn = [] ∧
      priceErrors b.price = [] ∧ 0 ≤ b.stock ∧ 0 ≤ b.sold ∧ ratingErrors b.rating = [] := by
  simp [Book.validationErrors, stockErrors, soldErrors, List.append_eq_nil, and_assoc]

theorem notAdmin_admin (u : Identity) (h : u.role = "admin") : notAdmin (some u) = false := by
  simp [notAdmin, h]

/-- A save that leaves title, slug and isbn alone passes the hook and the unique
indexes: it writes the document, or nothing when nothing changed. -/
theorem Book.save_keeping_keys (now : Nat) (old doc : Book) (s : Store)
    (hv : doc.validationErrors = []) (ht : doc.title = old.title) (hs : doc.slug = old.slug)
    (hi : doc.isbn = old.isbn) (hslug : old.slug ≠ "") :
    Book.save now old doc s =
      if doc = old then (.ok (), s)
      else (.ok (),
        { s with books := updateById Book.id old.id (fun _ => { doc with updatedAt := now }) s.books }) := by
  have hslug2 : doc.slug ≠ "" := by rw [hs]; exact hslug
  have hpre : Book.preSaveSlug now (decide (doc.title ≠ old.title)) doc = doc := by
    simp [Book.preSaveSlug, ht, hslug2]
  have hdup : Book.duplicateKey (some old) doc s.books = none := by
    simp [Book.duplicateKey, hi, hs]
  unfold Book.save
  rw [hv]
  simp only [hpre, hdup]

theorem adjustStock_keeps (b doc : Book) (q : Int) (op : String)
    (h : adjustStock b q op = .ok doc) :
    doc.id = b.id ∧ doc.title = b.title ∧ doc.slug = b.slug ∧ doc.isbn = b.isbn ∧
      doc.author = b.author ∧ doc.price = b.price ∧ doc.rating = b.rating := by
  unfold adjustStock at h
  split_ifs at h <;> simp at h <;> subst h <;> simp

/-- What `updateBookStock` does for an admin on a stored, schema-valid book when
the adjusted document is schema-valid too. -/
theorem updateBookStock_run (now : Nat) (id : Id) (q : Int) (op : String) (u : Identity)
    (s : Store) (b doc : Book) (hadmin : u.role = "admin")
    (hfind : findById Book.id id s.books = some b) (hslug : b.slug ≠ "")
    (hadj : adjustStock b q op = .ok doc) (hv : doc.validationErrors = []) :
    ∃ s1 b1, updateBookStock now id q op (some u) s = (.ok (some b1), s1) ∧
      findById Book.id id s1.books = some b1 ∧
      b1.stock = doc.stock ∧ b1.sold = doc.sold := by
  obtain ⟨hid, ht, hs, hi, -, -, -⟩ := adjustStock_keeps b doc q op hadj
  have hkey : b.id = id := findById_key hfind
  have hsave := Book.save_keeping_keys now b doc s hv ht hs hi hslug
  by_cases hsame : doc = b
  · subst hsame
    refine ⟨s, doc, ?_, hfind, rfl, rfl⟩
    simp [updateBookStock, notAdmin_admin u hadmin, hfind, hadj, hsave, rethrow]
  · have hfind2 : findById Book.id id
        (updateById Book.id b.id (fun _ => { doc with updatedAt := now }) s.books)
          = some { doc with updatedAt := now } := by
      rw [hkey, findById_updateById _ _ _ _ (by intro x _; simp [hid, hkey]), hfind]; rfl
    refine ⟨⟨updateById Book.id b.id (fun _ => { doc with updatedAt := now }) s.books,
      s.categories, s.users⟩, { doc with updatedAt := now }, ?_, hfind2, rfl, rfl⟩
    simp [updateBookStock, notAdmin_admin u hadmin, hfind, hadj, hsave, hsame, rethrow, hfind2]

theorem adjustStock_subtract (b : Book) (q : Int) :
    adjustStock b q "subtract" =
      .ok { b with stock := max 0 (b.stock - q),
                   sold := b.sold + min (max 0 (b.stock - q) + q) q } := by
  simp [adjustStock]

theorem adjustStock_add (b : Book) (q : Int) :
    adjustStock b q "add" = .ok { b with stock := b.stock + q } := by
  simp [adjustStock]

/-- In the `subtract` branch the amount added to `sold` is the whole quantity,
because `book.stock + quantity` is computed from the stock already floored. -/
theorem subtract_sold_amount (st q : Int) : min (max 0 (st - q) + q) q = q := by
  apply min_eq_right
  have : 0 ≤ max 0 (st - q) := le_max_left _ _
  omega

/-- C2. For an admin, a stored book that satisfies its schema (so stock `s ≥ 0`)
and has its slug, as every book written through `save()` has, and a quantity
`q ≥ 0`: `updateBookStock` with `subtract` stores the stock `max 0 (s - q)`, and
with `add` stores `s + q` and leaves `sold` as it was; in both cases the call
returns the stored book. -/
theorem updateBookStock_stock (now : Nat) (id : Id) (q : Int) (u : Identity) (s : Store)
    (b : Book) (hadmin : u.role = "admin") (hfind : findById Book.id id s.books = some b)
    (hvalid : b.validationErrors = []) (hslug : b.slug ≠ "") (hq : 0 ≤ q) :
    (∃ s1 b1, updateBookStock now id q "subtract" (some u) s = (.ok (some b1), s1) ∧
        findById Book.id id s1.books = some b1 ∧ b1.stock = max 0 (b.stock - q)) ∧
    (∃ s1 b1, updateBookStock now id q "add" (some u) s = (.ok (some b1), s1) ∧
        findById Book.id id s1.books = some b1 ∧ b1.stock = b.stock + q ∧ b1.sold = b.sold) := by
  obtain ⟨h1, h2, h3, h4, h5, h6, h7⟩ := (Book.validationErrors_nil_iff b).mp hvalid
  constructor
  · have hv : ({ b with stock := max 0 (b.stock - q),
                        sold := b.sold + min (max 0 (b.stock - q) + q) q } :
        Book).validationErrors = [] := by
      rw [Book.validationErrors_nil_iff]
      refine ⟨h1, h2, h3, h4, le_max_left _ _, ?_, h7⟩
      show 0 ≤ b.sold + min (max 0 (b.stock - q) + q) q
      rw [subtract_sold_amount]; omega
    obtain ⟨s1, b1, hrun, hstored, hstock, -⟩ :=
      updateBookStock_run now id q "subtract" u s b _ hadmin hfind hslug
        (adjustStock_subtract b q) hv
    exact ⟨s1, b1, hrun, hstored, hstock⟩
  · have hv : ({ b with stock := b.stock + q } : Book).validationErrors = [] := by
      rw [Book.validationErrors_nil_iff]
      refine ⟨h1, h2, h3, h4, ?_, h6, h7⟩
      show 0 ≤ b.stock + q
      omega
    obtain ⟨s1, b1, hrun, hstored, hstock, hsold⟩ :=
      updateBookStock_run now id q "add" u s b _ hadmin hfind hslug (adjustStock_add b q) hv
    exact ⟨s1, b1, hrun, hstored, hstock, hsold⟩

/-- Witness of C2: the sample book has 3 copies; subtracting 5 and adding 5. -/
theorem updateBookStock_stock_witness :
    (∃ s1 b1, updateBookStock 9 "b1" 5 "subtract" (some sampleAdmin) sampleStore
          = (.ok (some b1), s1) ∧
        findById Book.id "b1" s1.books = some b1 ∧ b1.stock = max 0 (sampleBook.stock - 5)) ∧
    (∃ s1 b1, updateBookStock 9 "b1" 5 "add" (some sampleAdmin) sampleStore
          = (.ok (some b1), s1) ∧
        findById Book.id "b1" s1.books = some b1 ∧ b1.stock = sampleBook.stock + 5 ∧
        b1.sold = sampleBook.sold) :=
  updateBookStock_stock 9 "b1" 5 sampleAdmin sampleStore sampleBook rfl (by decide)
    (by decide) (by decide) (by decide)

/-- The amount `updateBookStock` adds to `sold` on `subtract`, for every admin,
stored schema-valid book and quantity `q ≥ 0`: it is `q`, whatever the stock. -/
theorem updateBookStock_subtract_sold (now : Nat) (id : Id) (q : Int) (u : Identity)
    (s : Store) (b : Book) (hadmin : u.role = "admin")
    (hfind : findById Book.id id s.books = some b)
    (hvalid : b.validationErrors = []) (hslug : b.slug ≠ "") (hq : 0 ≤ q) :
    ∃ s1 b1, updateBookStock now id q "subtract" (some u) s = (.ok (some b1), s1) ∧
      findById Book.id id s1.books = some b1 ∧ b1.sold = b.sold + q := by
  obtain ⟨h1, h2, h3, h4, h5, h6, h7⟩ := (Book.validationErrors_nil_iff b).mp hvalid
  have hv : ({ b with stock := max 0 (b.stock - q),
                      sold := b.sold + min (max 0 (b.stock - q) + q) q } :
      Book).validationErrors = [] := by
    rw [Book.validationErrors_nil_iff]
    refine ⟨h1, h2, h3, h4, le_max_left _ _, ?_, h7⟩
    show 0 ≤ b.sold + min (max 0 (b.stock - q) + q) q
    rw [subtract_sold_amount]; omega
  obtain ⟨s1, b1, hrun, hstored, -, hsold⟩ :=
    updateBookStock_run now id q "subtract" u s b _ hadmin hfind hslug
      (adjustStock_subtract b q) hv
  refine ⟨s1, b1, hrun, hstored, ?_⟩
  rw [hsold]
  show b.sold + min (max 0 (b.stock - q) + q) q = b.sold + q
  rw [subtract_sold_amount]

/-- C1 (evaluation at the failing input). The sample book has stock 3 and sold 0;
`updateBookStock` with `subtract` and quantity 5 stores stock 0 and sold 5: the
increase of `sold` is 5, not `min 3 5 = 3`. -/
theorem updateBookStock_subtract_overcounts :
    ∃ s1 b1, updateBookStock 9 "b1" 5 "subtract" (some sampleAdmin) sampleStore
        = (.ok (some b1), s1) ∧
      findById Book.id "b1" s1.books = some b1 ∧
      b1.stock = 0 ∧ b1.sold - sampleBook.sold = 5 ∧ b1.sold - sampleBook.sold ≠ min 3 5 := by
  refine ⟨⟨[{ sampleBook with stock := 0, sold := 5, updatedAt := 9 }],
    sampleStore.categories, sampleStore.users⟩,
    { sampleBook with stock := 0, sold := 5, updatedAt := 9 }, rfl, ?_, ?_, ?_, ?_⟩ <;> decide

/-! ## Pagination -/

theorem ceil_div_bounds (len : Nat) (limit : Int) (hl : 0 < limit) :
    ((⌈((len : Int) : ℚ) / (limit : ℚ)⌉ - 1) * limit < len) ∧
    ((len : Int) ≤ ⌈((len : Int) : ℚ) / (limit : ℚ)⌉ * limit) := by
  have hlq : (0 : ℚ) < (limit : ℚ) := by exact_mod_cast hl
  constructor
  · have h := Int.ceil_lt_add_one (((len : Int) : ℚ) / (limit : ℚ))
    have h2 : ((⌈((len : Int) : ℚ) / (limit : ℚ)⌉ : ℚ) - 1) * limit < ((len : Int) : ℚ) := by
      rw [← lt_div_iff₀ hlq]; linarith
    exact_mod_cast h2
  · have h := Int.le_ceil (((len : Int) : ℚ) / (limit : ℚ))
    have h2 : ((len : Int) : ℚ) ≤ (⌈((len : Int) : ℚ) / (limit : ℚ)⌉ : ℚ) * limit := by
      rw [← div_le_iff₀ hlq]; exact h
    exact_mod_cast h2

/-- The shared tail of the listings meets the pagination contract when the
database answers. -/
theorem listing_isPage {α : Type} (label : String) (db : Engine α) (q : Query) (st : SortSpec)
    (page limit : Int) (matching : List α) (hp : 1 ≤ page) (hl : 0 < limit)
    (hdb : db q st = .ok matching) :
    ∃ c, listing label db q st page limit ((page - 1) * limit) = .ok c ∧
      IsPageOf page limit matching c := by
  have hskip : ¬ (page - 1) * limit < 0 := by
    have : 0 ≤ (page - 1) * limit := Int.mul_nonneg (by omega) (le_of_lt hl)
    omega
  have hl0 : limit ≠ 0 := ne_of_gt hl
  have hnat : limit.natAbs = limit.toNat := by omega
  obtain ⟨hb1, hb2⟩ := ceil_div_bounds matching.length limit hl
  refine ⟨{ items := (matching.drop ((page - 1) * limit).toNat).take limit.natAbs,
            totalCount := matching.length,
            hasNextPage := jsLt page (jsCeil (jsDiv matching.length limit)),
            hasPreviousPage := decide (1 < page), currentPage := page,
            totalPages := jsCeil (jsDiv matching.length limit) }, ?_, ?_⟩
  · simp only [listing, hdb, connection, skipLimit, if_neg hskip, if_neg hl0]
  · refine ⟨?_, rfl, ⟨⌈((matching.length : Int) : ℚ) / (limit : ℚ)⌉, ?_, rfl, hb1, hb2, ?_⟩,
      rfl, rfl⟩
    · simp only [hnat]
    · simp only [jsDiv, if_neg hl0, jsCeil]
    · simp only [jsDiv, if_neg hl0, jsCeil, jsLt, Int.cast_lt]

theorem listing_total {α : Type} (label : String) (db : Engine α)
    (hdb : ∀ q st, ∃ m, db q st = .ok m) (q : Query) (st : SortSpec)
    (page limit : Int) (hp : 1 ≤ page) (hl : 0 < limit) :
    ∃ m c, listing label db q st page limit ((page - 1) * limit) = .ok c ∧
      Answers db m ∧ IsPageOf page limit m c := by
  obtain ⟨m, hm⟩ := hdb q st
  obtain ⟨c, hc, hpg⟩ := listing_isPage label db q st page limit m hp hl hm
  exact ⟨m, c, hc, ⟨q, st, hm⟩, hpg⟩

/-- C3. For every `page ≥ 1` and `limit > 0`, whatever the other arguments, each
of the six paginated listings (`books`, `allBooks`, `booksByCategory`,
`searchBooks`, `allCategories`, and `users` called by an admin), run on a
database that answers its queries, returns a connection that meets the
pagination contract `IsPageOf` for the list `m` of matching documents the
database answered: the page skips `(page - 1) * limit` documents,
`totalCount = |m|`, `totalPages = ceil(totalCount / limit)`,
`hasNextPage = (page < totalPages)`, `hasPreviousPage = (page > 1)` and
`currentPage = page`. -/
theorem listings_paginate (page limit : Int) (hp : 1 ≤ page) (hl : 0 < limit)
    (bookDb : Engine Book) (categoryDb : Engine Category) (userDb : Engine User)
    (hbooks : ∀ q st, ∃ m, bookDb q st = .ok m)
    (hcats : ∀ q st, ∃ m, categoryDb q st = .ok m)
    (husers : ∀ q st, ∃ m, userDb q st = .ok m)
    (u : Identity) (hadmin : u.role = "admin")
    (filter : BookFilter) (search : Option String) (sortBy sortOrder : String)
    (categoryId : Id) (text : String) (cfilter : CategoryFilter) (ufilter : UserFilter) :
    (∃ m c, books bookDb page limit filter search sortBy sortOrder = .ok c ∧
        Answers bookDb m ∧ IsPageOf page limit m c) ∧
    (∃ m c, allBooks bookDb page limit filter search sortBy sortOrder = .ok c ∧
        Answers bookDb m ∧ IsPageOf page limit m c) ∧
    (∃ m c, booksByCategory bookDb categoryId page limit sortBy sortOrder = .ok c ∧
        Answers bookDb m ∧ IsPageOf page limit m c) ∧
    (∃ m c, searchBooks bookDb text page limit filter = .ok c ∧
        Answers bookDb m ∧ IsPageOf page limit m c) ∧
    (∃ m c, allCategories categoryDb page limit cfilter search = .ok c ∧
        Answers categoryDb m ∧ IsPageOf page limit m c) ∧
    (∃ m c, users userDb (some u) page limit ufilter search sortBy sortOrder = .ok c ∧
        Answers userDb m ∧ IsPageOf page limit m c) := by
  refine ⟨?_, ?_, ?_, ?_, ?_, ?_⟩
  · exact listing_total _ bookDb hbooks _ _ page limit hp hl
  · exact listing_total _ bookDb hbooks _ _ page limit hp hl
  · exact listing_total _ bookDb hbooks _ _ page limit hp hl
  · exact listing_total _ bookDb hbooks _ _ page limit hp hl
  · exact listing_total _ categoryDb hcats _ _ page limit hp hl
  · simp only [users, notAdmin_admin u hadmin]
    exact listing_total _ userDb husers _ _ page limit hp hl

/-- Witness of C3: page 2 with limit 2 of three users; one book and one category. -/
theorem listings_paginate_witness :
    (∃ m c, books sampleBookDb 2 2 {} none "TITLE" "ASC" = .ok c ∧
        Answers sampleBookDb m ∧ IsPageOf 2 2 m c) ∧
    (∃ m c, allBooks sampleBookDb 2 2 {} none "TITLE" "ASC" = .ok c ∧
        Answers sampleBookDb m ∧ IsPageOf 2 2 m c) ∧
    (∃ m c, booksByCategory sampleBookDb "c1" 2 2 "TITLE" "ASC" = .ok c ∧
        Answers sampleBookDb m ∧ IsPageOf 2 2 m c) ∧
    (∃ m c, searchBooks sampleBookDb "foo" 2 2 {} = .ok c ∧
        Answers sampleBookDb m ∧ IsPageOf 2 2 m c) ∧
    (∃ m c, allCategories sampleCategoryDb 2 2 {} none = .ok c ∧
        Answers sampleCategoryDb m ∧ IsPageOf 2 2 m c) ∧
    (∃ m c, users sampleUserDb (some sampleAdmin) 2 2 {} none "TITLE" "ASC" = .ok c ∧
        Answers sampleUserDb m ∧ IsPageOf 2 2 m c) :=
  listings_paginate 2 2 (by decide) (by decide) sampleBookDb sampleCategoryDb sampleUserDb
    (fun _ _ => ⟨_, rfl⟩) (fun _ _ => ⟨_, rfl⟩) (fun _ _ => ⟨_, rfl⟩) sampleAdmin rfl
    {} none "TITLE" "ASC" "c1" "foo" {} {}

/-! ## Running average of the rating -/

theorem updateRating_step (d : Book) (r : ℚ) :
    (d.updateRating r).reviewCount = d.reviewCount + 1 ∧
    (d.updateRating r).rating = (d.rating * d.reviewCount + r) / (d.reviewCount + 1) := by
  simp [Book.updateRating]

theorem applyRatings_total (rs : List ℚ) :
    ∀ d : Book, (d.applyRatings rs).reviewCount = d.reviewCount + rs.length ∧
      (d.applyRatings rs).rating * ((d.applyRatings rs).reviewCount : ℚ) =
        (if rs = [] then d.rating * d.reviewCount else d.rating * d.reviewCount + rs.sum) := by
  induction rs with
  | nil => intro d; simp [Book.applyRatings]
  | cons r rs ih =>
    intro d
    obtain ⟨hc, hr⟩ := updateRating_step d r
    have hpos : ((d.reviewCount : ℚ) + 1) ≠ 0 := by positivity
    have hstep : (d.updateRating r).rating * ((d.updateRating r).reviewCount : ℚ)
        = d.rating * d.reviewCount + r := by
      rw [hr, hc]; push_cast; field_simp
    obtain ⟨ih1, ih2⟩ := ih (d.updateRating r)
    have hfold : d.applyRatings (r :: rs) = (d.updateRating r).applyRatings rs := rfl
    rw [hfold]
    refine ⟨by rw [ih1, hc]; simp; omega, ?_⟩
    rw [ih2, hstep]
    by_cases hrs : rs = []
    · simp [hrs]
    · simp [hrs]; ring

theorem sum_bounds (rs : List ℚ) (h : ∀ r ∈ rs, 0 ≤ r ∧ r ≤ 5) :
    0 ≤ rs.sum ∧ rs.sum ≤ 5 * rs.length := by
  induction rs with
  | nil => simp
  | cons r rs ih =>
    obtain ⟨h0, h5⟩ := h r (List.mem_cons_self _ _)
    obtain ⟨i0, i5⟩ := ih (fun x hx => h x (List.mem_cons_of_mem _ hx))
    simp only [List.sum_cons, List.length_cons]
    push_cast
    constructor <;> linarith

theorem applyRatings_mean (b : Book) (hr : b.rating = 0) (hc : b.reviewCount = 0)
    (rs : List ℚ) (hn : rs ≠ []) :
    (b.applyRatings rs).reviewCount = rs.length ∧
      (b.applyRatings rs).rating = rs.sum / rs.length := by
  obtain ⟨h1, h2⟩ := applyRatings_total rs b
  rw [hc, Nat.zero_add] at h1
  have hlen : (rs.length : ℚ) ≠ 0 := by
    have : rs.length ≠ 0 := fun h => hn (List.length_eq_zero.mp h)
    exact_mod_cast this
  refine ⟨h1, ?_⟩
  rw [h1, if_neg hn, hr, zero_mul, zero_add] at h2
  rw [eq_div_iff hlen, h2]

/-- C4. Starting from a book with `rating = 0` and `reviewCount = 0`, after
`updateRating` has been applied as a new review with the ratings `r1..rn`
(`n ≥ 1`), `reviewCount` is `n` and `rating` is `(r1 + ... + rn) / n` in exact
rational arithmetic; a single step replaces `rating` by
`(oldRating * reviewCount + newRating) / (reviewCount + 1)` and adds one to
`reviewCount`; and when every rating lies in `[0, 5]` the rating after each
prefix of the sequence passes the schema validators `min 0` and `max 5`, so no
`save()` of the sequence is rejected on account of the rating. -/
theorem updateRating_running_mean (b : Book) (hr : b.rating = 0) (hc : b.reviewCount = 0)
    (rs : List ℚ) (hn : rs ≠ []) :
    (b.applyRatings rs).reviewCount = rs.length ∧
    (b.applyRatings rs).rating = rs.sum / rs.length ∧
    (∀ (d : Book) (r : ℚ),
      (d.updateRating r).rating = (d.rating * d.reviewCount + r) / (d.reviewCount + 1) ∧
      (d.updateRating r).reviewCount = d.reviewCount + 1) ∧
    ((∀ r ∈ rs, 0 ≤ r ∧ r ≤ 5) →
      ∀ k, ratingErrors (b.applyRatings (rs.take k)).rating = []) := by
  obtain ⟨h1, h2⟩ := applyRatings_mean b hr hc rs hn
  refine ⟨h1, h2, fun d r => ⟨(updateRating_step d r).2, (updateRating_step d r).1⟩, ?_⟩
  intro hrange k
  by_cases hk : rs.take k = []
  · rw [hk]
    simp [Book.applyRatings, hr, ratingErrors]
  · obtain ⟨-, hm⟩ := applyRatings_mean b hr hc (rs.take k) hk
    obtain ⟨s0, s5⟩ := sum_bounds (rs.take k) (fun r hmem => hrange r (List.mem_of_mem_take hmem))
    have hlen : (0 : ℚ) < ((rs.take k).length : ℚ) := by
      have : 0 < (rs.take k).length := List.length_pos.mpr hk
      exact_mod_cast this
    have hlo : 0 ≤ (rs.take k).sum / ((rs.take k).length : ℚ) := div_nonneg s0 (le_of_lt hlen)
    have hhi : (rs.take k).sum / ((rs.take k).length : ℚ) ≤ 5 := by
      rw [div_le_iff₀ hlen]; exact s5
    rw [hm]
    simp only [ratingErrors, if_neg (not_lt.mpr hlo), if_neg (not_lt.mpr hhi), List.append_nil]

/-- Witness of C4: the ratings 4, 5 and 3 on the sample book give three reviews
with mean 4. -/
theorem updateRating_running_mean_witness :
    (sampleBook.applyRatings [4, 5, 3]).reviewCount = [(4 : ℚ), 5, 3].length ∧
    (sampleBook.applyRatings [4, 5, 3]).rating
      = [(4 : ℚ), 5, 3].sum / ([(4 : ℚ), 5, 3].length : ℚ) ∧
    (∀ (d : Book) (r : ℚ),
      (d.updateRating r).rating = (d.rating * d.reviewCount + r) / (d.reviewCount + 1) ∧
      (d.updateRating r).reviewCount = d.reviewCount + 1) ∧
    ((∀ r ∈ [(4 : ℚ), 5, 3], 0 ≤ r ∧ r ≤ 5) →
      ∀ k, ratingErrors (sampleBook.applyRatings ([(4 : ℚ), 5, 3].take k)).rating = []) :=
  updateRating_running_mean sampleBook rfl rfl [4, 5, 3] (by simp)

/-! ## Self-protection of the administrator -/

/-- C5. For every identity `u`, whatever its role, and every store:
`deleteUser(u.id)`, `toggleUserStatus(u.id)`, and `bulkDeleteUsers(ids)` with
`u.id` among `ids` raise, and the store they leave is the store they found, so
no user is deleted and no `isActive` is changed. -/
theorem self_management_refused (now : Nat) (u : Identity) (s : Store) (ids : List Id)
    (hmem : u.id ∈ ids) :
    (∃ e, deleteUser u.id (some u) s = (.error e, s)) ∧
    (∃ e, toggleUserStatus now u.id (some u) s = (.error e, s)) ∧
    (∃ e, bulkDeleteUsers ids (some u) s = (.error e, s)) := by
  have hc : ids.contains u.id = true := by simpa using hmem
  by_cases hrole : u.role = "admin"
  · refine ⟨?_, ?_, ?_⟩
    · simp only [deleteUser, hrole, ne_eq, not_true_eq_false, if_false, if_true, rethrow]
      exact ⟨_, rfl⟩
    · simp only [toggleUserStatus, hrole, ne_eq, not_true_eq_false, if_false, if_true,
        plainCatch]
      exact ⟨_, rfl⟩
    · simp only [bulkDeleteUsers, hrole, ne_eq, not_true_eq_false, if_false, hc, if_true,
        rethrow]
      exact ⟨_, rfl⟩
  · refine ⟨?_, ?_, ?_⟩
    · simp only [deleteUser, ne_eq, hrole, not_false_eq_true, if_true, rethrow]
      exact ⟨_, rfl⟩
    · simp only [toggleUserStatus, ne_eq, hrole, not_false_eq_true, if_true, plainCatch]
      exact ⟨_, rfl⟩
    · simp only [bulkDeleteUsers, ne_eq, hrole, not_false_eq_true, if_true, rethrow]
      exact ⟨_, rfl⟩

/-- Witness of C5: the sample administrator acting on its own id. -/
theorem self_management_refused_witness :
    (∃ e, deleteUser sampleAdmin.id (some sampleAdmin) sampleStore = (.error e, sampleStore)) ∧
    (∃ e, toggleUserStatus 9 sampleAdmin.id (some sampleAdmin) sampleStore
        = (.error e, sampleStore)) ∧
    (∃ e, bulkDeleteUsers ["u2", "u1"] (some sampleAdmin) sampleStore
        = (.error e, sampleStore)) :=
  self_management_refused 9 sampleAdmin sampleStore ["u2", "u1"] (by decide)

/-- C6 (evaluation at the failing input). The sample administrator `u1` is an
active user of the sample store.  `updateUser("u1", isActive: false)` called
by `u1` returns the updated user and leaves `u1` inactive in the store, and so
does `bulkUpdateUsers(["u1"], isActive: false)`: neither resolver has the
self-protection guard of `deleteUser`, `toggleUserStatus` and `bulkDeleteUsers`. -/
theorem updateUser_deactivates_self :
    (findById User.id "u1" sampleStore.users).map (fun x => x.isActive) = some true ∧
    (∃ s1 x, updateUser 9 "u1" { isActive := some false } (some sampleAdmin) sampleStore
        = (.ok x, s1) ∧ x.id = sampleAdmin.id ∧ x.isActive = false ∧
        (findById User.id "u1" s1.users).map (fun y => y.isActive) = some false) ∧
    (∃ s1 xs, bulkUpdateUsers 9 ["u1"] { isActive := some false } (some sampleAdmin) sampleStore
        = (.ok xs, s1) ∧
        (findById User.id "u1" s1.users).map (fun y => y.isActive) = some false) := by
  refine ⟨by decide, ⟨_, _, rfl, by decide, by decide, by decide⟩, ⟨_, _, rfl, by decide⟩⟩

/-! ## Authorization gates -/

/-- C7. `requireAuth(user)` raises exactly when `user` is absent;
`requireAdmin(user)` raises exactly when `user` is absent or its role is not
`admin`; `requireOwnershipOrAdmin(user, resourceUserId)` raises exactly when
`user` is absent or (its role is not `admin` and `user.id` differs from
`resourceUserId.toString()`); and a gate that does not raise returns the very
user it was given. -/
theorem gates_spec (user : Option Identity) (r : OwnerRef) :
    ((∃ e, requireAuth user = .error e) ↔ user = none) ∧
    ((∃ e, requireAdmin user = .error e) ↔
      (user = none ∨ ∃ u, user = some u ∧ u.role ≠ "admin")) ∧
    ((∃ e, requireOwnershipOrAdmin user r = .error e) ↔
      (user = none ∨ ∃ u, user = some u ∧ u.role ≠ "admin" ∧ u.id ≠ r.toString)) ∧
    (∀ u, requireAuth user = .ok u ↔ user = some u) ∧
    (∀ u, requireAdmin user = .ok u ↔ (user = some u ∧ u.role = "admin")) ∧
    (∀ u, requireOwnershipOrAdmin user r = .ok u ↔
      (user = some u ∧ (u.role = "admin" ∨ u.id = r.toString))) := by
  cases user with
  | none => simp [requireAuth, requireAdmin, requireOwnershipOrAdmin]
  | some v =>
    refine ⟨?_, ?_, ?_, ?_, ?_, ?_⟩
    · simp [requireAuth]
    · by_cases h : v.role = "admin" <;> simp [requireAuth, requireAdmin, h]
    · by_cases h : v.role = "admin" <;> by_cases h2 : v.id = r.toString <;>
        simp [requireAuth, requireOwnershipOrAdmin, h, h2]
    · intro u; simp [requireAuth]
    · intro u
      by_cases h : v.role = "admin"
      · simp only [requireAuth, requireAdmin, h, ne_eq, not_true_eq_false, if_false,
          Except.ok.injEq, Option.some.injEq]
        constructor
        · intro e; subst e; exact ⟨rfl, h⟩
        · intro e; exact e.1
      · simp only [requireAuth, requireAdmin, ne_eq, h, not_false_eq_true, if_true,
          Option.some.injEq]
        constructor
        · intro e; cases e
        · intro e; obtain ⟨e1, e2⟩ := e; subst e1; exact absurd e2 h
    · intro u
      by_cases h : v.role = "admin"
      · simp only [requireAuth, requireOwnershipOrAdmin, h, ne_eq, not_true_eq_false,
          false_and, if_false, Except.ok.injEq, Option.some.injEq]
        constructor
        · intro e; subst e; exact ⟨rfl, Or.inl h⟩
        · intro e; exact e.1
      · by_cases h2 : v.id = r.toString
        · simp only [requireAuth, requireOwnershipOrAdmin, ne_eq, h, not_false_eq_true, h2,
            not_true_eq_false, and_false, if_false, Except.ok.injEq, Option.some.injEq]
          constructor
          · intro e; subst e; exact ⟨rfl, Or.inr h2⟩
          · intro e; exact e.1
        · simp only [requireAuth, requireOwnershipOrAdmin, ne_eq, h, not_false_eq_true, h2,
            and_self, if_true, Option.some.injEq]
          constructor
          · intro e; cases e
          · intro e
            obtain ⟨e1, e2⟩ := e
            subst e1
            rcases e2 with e2 | e2
            · exact absurd e2 h
            · exact absurd e2 h2

/-! ## Every mutation checks the caller first -/

theorem notAdmin_of_no_admin (user : Option Identity)
    (hna : ∀ u, user = some u → u.role ≠ "admin") : notAdmin user = true := by
  cases user with
  | none => rfl
  | some u => simpa [notAdmin] using hna u rfl

/-- C8. Let `user` be no identity, or an identity whose role is not `admin`.
Then each admin mutation of the book, category and user resolvers, whatever its
arguments and whatever the store, raises the access-denied error of its guard
and returns the store it was given: the outcome does not depend on the store
and nothing is written.  `updateProfile` and `changePassword`, the two
mutations open to every authenticated user, do the same with
`Authentication required` when there is no identity. -/
theorem mutations_check_caller_first (pw : Passwords) (now : Nat) (fresh id : Id)
    (ids : List Id) (orders : List (Id × Int)) (q : Int) (op : String)
    (bi : BookInput) (bu : BookUpdateInput) (ci : CategoryInput) (cu : CategoryUpdateInput)
    (ri : RegisterInput) (au : AdminUpdateUserInput) (up : UpdateProfileInput)
    (cp : ChangePasswordInput) (user : Option Identity)
    (hna : ∀ u, user = some u → u.role ≠ "admin") (s : Store) :
    createBook now fresh bi user s = (.error ("Error creating book: " ++ accessDenied), s) ∧
    updateBook now id bu user s = (.error ("Error updating book: " ++ accessDenied), s) ∧
    deleteBook now id user s = (.error ("Error deleting book: " ++ accessDenied), s) ∧
    toggleBookStatus now id user s
      = (.error ("Error toggling book status: " ++ accessDenied), s) ∧
    toggleFeaturedStatus now id user s
      = (.error ("Error toggling featured status: " ++ accessDenied), s) ∧
    updateBookStock now id q op user s
      = (.error ("Error updating stock: " ++ accessDenied), s) ∧
    createCategory now fresh ci user s
      = (.error ("Error creating category: " ++ accessDenied), s) ∧
    updateCategory now id cu user s
      = (.error ("Error updating category: " ++ accessDenied), s) ∧
    deleteCategory now id user s
      = (.error ("Error deleting category: " ++ accessDenied), s) ∧
    toggleCategoryStatus now id user s
      = (.error ("Error toggling category status: " ++ accessDenied), s) ∧
    toggleCategoryFeatured now id user s
      = (.error ("Error toggling featured status: " ++ accessDenied), s) ∧
    bulkUpdateCategories now ids cu user s
      = (.error ("Error bulk updating categories: " ++ accessDenied), s) ∧
    bulkDeleteCategories ids user s
      = (.error ("Error bulk deleting categories: " ++ accessDenied), s) ∧
    reorderCategories now orders user s
      = (.error ("Error reordering categories: " ++ accessDenied), s) ∧
    createUser pw now fresh ri user s = (.error ("Error creating user: " ++ accessDenied), s) ∧
    updateUser now id au user s = (.error ("Error updating user: " ++ accessDenied), s) ∧
    deleteUser id user s = (.error ("Error deleting user: " ++ accessDenied), s) ∧
    toggleUserStatus now id user s
      = (.error ("Error toggling user status: " ++ accessDenied), s) ∧
    bulkDeleteUsers ids user s
      = (.error ("Error bulk deleting users: " ++ accessDenied), s) ∧
    bulkUpdateUsers now ids au user s
      = (.error ("Error bulk updating users: " ++ accessDenied), s) ∧
    updateProfile now up none s
      = (.error "Error updating profile: Authentication required", s) ∧
    changePassword pw now cp none s
      = (.error "Error changing password: Authentication required", s) := by
  have h := notAdmin_of_no_admin user hna
  refine ⟨?_, ?_, ?_, ?_, ?_, ?_, ?_, ?_, ?_, ?_, ?_, ?_, ?_, ?_, ?_, ?_, ?_, ?_, ?_, ?_, ?_, ?_⟩
  · simp only [createBook, h, if_true, rethrow]
  · simp only [updateBook, h, if_true, rethrow]
  · simp only [deleteBook, h, if_true, rethrow]
  · simp only [toggleBookStatus, h, if_true, rethrow]
  · simp only [toggleFeaturedStatus, h, if_true, rethrow]
  · simp only [updateBookStock, h, if_true, rethrow]
  · simp only [createCategory, h, if_true, categoryCatch, Raised.message]
  · simp only [updateCategory, h, if_true, categoryCatch, Raised.message]
  · simp only [deleteCategory, h, if_true, rethrow]
  · simp only [toggleCategoryStatus, h, if_true, plainCatch, Raised.message]
  · simp only [toggleCategoryFeatured, h, if_true, plainCatch, Raised.message]
  · simp only [bulkUpdateCategories, h, if_true, plainCatch, Raised.message]
  · simp only [bulkDeleteCategories, h, if_true, rethrow]
  · simp only [reorderCategories, h, if_true, rethrow]
  · simp only [createUser, h, if_true, createUserCatch]
  · simp only [updateUser, h, if_true, plainCatch, Raised.message]
  · cases user with
    | none => rfl
    | some u => simp only [deleteUser, if_pos (hna u rfl), rethrow]
  · cases user with
    | none => rfl
    | some u => simp only [toggleUserStatus, if_pos (hna u rfl), plainCatch, Raised.message]
  · cases user with
    | none => rfl
    | some u => simp only [bulkDeleteUsers, if_pos (hna u rfl), rethrow]
  · simp only [bulkUpdateUsers, h, if_true, plainCatch, Raised.message]
  · rfl
  · rfl

/-- Witness of C8: a customer calls every admin mutation on the sample store. -/
theorem mutations_check_caller_first_witness :
    createBook 9 "x9" { title := "T", author := "A", price := 1, categoryId := "c1", stock := 1 } (some sampleCustomer) sampleStore
      = (.error ("Error creating book: " ++ accessDenied), sampleStore) ∧
    updateBook 9 "b1" { price := some 2 } (some sampleCustomer) sampleStore
      = (.error ("Error updating book: " ++ accessDenied), sampleStore) ∧
    deleteBook 9 "b1" (some sampleCustomer) sampleStore
      = (.error ("Error deleting book: " ++ accessDenied), sampleStore) ∧
    toggleBookStatus 9 "b1" (some sampleCustomer) sampleStore
      = (.error ("Error toggling book status: " ++ accessDenied), sampleStore) ∧
    toggleFeaturedStatus 9 "b1" (some sampleCustomer) sampleStore
      = (.error ("Error toggling featured status: " ++ accessDenied), sampleStore) ∧
    updateBookStock 9 "b1" 1 "add" (some sampleCustomer) sampleStore
      = (.error ("Error updating stock: " ++ accessDenied), sampleStore) ∧
    createCategory 9 "x9" { name := "Poetry" } (some sampleCustomer) sampleStore
      = (.error ("Error creating category: " ++ accessDenied), sampleStore) ∧
    updateCategory 9 "b1" { name := some "Prose" } (some sampleCustomer) sampleStore
      = (.error ("Error updating category: " ++ accessDenied), sampleStore) ∧
    deleteCategory 9 "b1" (some sampleCustomer) sampleStore
      = (.error ("Error deleting category: " ++ accessDenied), sampleStore) ∧
    toggleCategoryStatus 9 "b1" (some sampleCustomer) sampleStore
      = (.error ("Error toggling category status: " ++ accessDenied), sampleStore) ∧
    toggleCategoryFeatured 9 "b1" (some sampleCustomer) sampleStore
      = (.error ("Error toggling featured status: " ++ accessDenied), sampleStore) ∧
    bulkUpdateCategories 9 ["u1", "c1"] { name := some "Prose" } (some sampleCustomer) sampleStore
      = (.error ("Error bulk updating categories: " ++ accessDenied), sampleStore) ∧
    bulkDeleteCategories ["u1", "c1"] (some sampleCustomer) sampleStore
      = (.error ("Error bulk deleting categories: " ++ accessDenied), sampleStore) ∧
    reorderCategories 9 [("c1", 3)] (some sampleCustomer) sampleStore
      = (.error ("Error reordering categories: " ++ accessDenied), sampleStore) ∧
    createUser samplePasswords 9 "x9" { name := "N", email := "n@x.com", password := "p" } (some sampleCustomer) sampleStore
      = (.error ("Error creating user: " ++ accessDenied), sampleStore) ∧
    updateUser 9 "b1" { isActive := some false } (some sampleCustomer) sampleStore
      = (.error ("Error updating user: " ++ accessDenied), sampleStore) ∧
    deleteUser "b1" (some sampleCustomer) sampleStore
      = (.error ("Error deleting user: " ++ accessDenied), sampleStore) ∧
    toggleUserStatus 9 "b1" (some sampleCustomer) sampleStore
      = (.error ("Error toggling user status: " ++ accessDenied), sampleStore) ∧
    bulkDeleteUsers ["u1", "c1"] (some sampleCustomer) sampleStore
      = (.error ("Error bulk deleting users: " ++ accessDenied), sampleStore) ∧
    bulkUpdateUsers 9 ["u1", "c1"] { isActive := some false } (some sampleCustomer) sampleStore
      = (.error ("Error bulk updating users: " ++ accessDenied), sampleStore) ∧
    updateProfile 9 { name := some "Z" } none sampleStore
      = (.error "Error updating profile: Authentication required", sampleStore) ∧
    changePassword samplePasswords 9 { currentPassword := "a", newPassword := "b", confirmPassword := "b" } none sampleStore
      = (.error "Error changing password: Authentication required", sampleStore) :=
  mutations_check_caller_first samplePasswords 9 "x9" "b1" ["u1", "c1"] [("c1", 3)] 1 "add"
    { title := "T", author := "A", price := 1, categoryId := "c1", stock := 1 }
    { price := some 2 } { name := "Poetry" } { name := some "Prose" }
    { name := "N", email := "n@x.com", password := "p" } { isActive := some false }
    { name := some "Z" } { currentPassword := "a", newPassword := "b", confirmPassword := "b" }
    (some sampleCustomer) (by intro u hu; cases hu; decide) sampleStore

/-! ## Deleting a category -/

section CollectionLemmas2
variable {α : Type}

theorem mem_deleteById (key : α → Id) (id : Id) (xs : List α) (x : α) :
    x ∈ deleteById key id xs ↔ x ∈ xs ∧ key x ≠ id := by
  simp [deleteById]

theorem mem_updateById (key : α → Id) (id : Id) (f : α → α) (xs : List α) (x : α) :
    x ∈ updateById key id f xs ↔ ∃ y ∈ xs, (if key y = id then f y else y) = x := by
  simp [updateById]

end CollectionLemmas2

/-- C9 (counterexample). The guard of `deleteCategory` reads the live number of
books, not the stored counter: the only category of `driftStore` exists and has
`bookCount = 2 > 0`, yet `deleteCategory` called by an admin returns `true` and
leaves a store without it. -/
theorem deleteCategory_ignores_counter :
    sampleAdmin.role = "admin" ∧
    (∃ c, findById Category.id "c2" driftStore.categories = some c ∧ 0 < c.bookCount) ∧
    deleteCategory 9 "c2" (some sampleAdmin) driftStore
      = (.ok true, { driftStore with categories := [] }) := by
  refine ⟨rfl, ⟨_, rfl, by decide⟩, rfl⟩

/-- The resolver `deleteCategory` of `simpleResolvers.js` has no subcategory
guard: on the store that holds only the two categories of `familyStore` an
admin deletes the parent `p1` and the child `k1` keeps pointing to it. -/
theorem simpleDeleteCategory_orphans_child :
    ∃ s1, simpleDeleteCategory "p1" (some sampleAdmin) { familyStore with books := [] }
        = (.ok true, s1) ∧
      findById Category.id "p1" s1.categories = none ∧
      (findById Category.id "k1" s1.categories).map (fun c => c.parentCategory)
        = some (some "p1") :=
  ⟨_, rfl, by decide, by decide⟩

/-- C9 (amended). For every admin identity and every existing category that at
least one book refers to, or whose `subCategories` list is not empty,
`deleteCategory` of the category resolvers raises and leaves the whole store,
so every category, as it was; the error names the reason: the number of books
that refer to the category when there is one, otherwise the presence of
subcategories.  When a book refers to the category, `deleteCategory` of
`simpleResolvers.js` raises the same error and leaves the store as it was. -/
theorem deleteCategory_guard (now : Nat) (id : Id) (u : Identity) (s : Store) (c : Category)
    (hadmin : u.role = "admin") (hfind : findById Category.id id s.categories = some c)
    (h : 0 < countBooksIn id s ∨ c.subCategories ≠ []) :
    (∃ e, deleteCategory now id (some u) s = (.error e, s) ∧
      (0 < countBooksIn id s →
        e = "Error deleting category: " ++ ("Cannot delete category. It has "
          ++ toString (countBooksIn id s) ++ " books associated with it.")) ∧
      (countBooksIn id s = 0 →
        e = "Error deleting category: " ++ ("Cannot delete category. It has subcategories. "
          ++ "Please delete or move subcategories first."))) ∧
    (0 < countBooksIn id s →
      simpleDeleteCategory id (some u) s
        = (.error ("Error deleting category: " ++ ("Cannot delete category. It has "
            ++ toString (countBooksIn id s) ++ " books associated with it.")), s)) := by
  have hna := notAdmin_admin u hadmin
  constructor
  · by_cases hb : 0 < countBooksIn id s
    · refine ⟨_, ?_, fun _ => rfl, fun h0 => absurd hb (by omega)⟩
      simp only [deleteCategory, hna, hfind, if_pos hb, rethrow]
      simp
    · have hsub : c.subCategories ≠ [] := h.resolve_left hb
      have hlen : 0 < c.subCategories.length := List.length_pos.mpr hsub
      refine ⟨_, ?_, fun h0 => absurd h0 hb, fun _ => rfl⟩
      simp only [deleteCategory, hna, hfind, if_neg hb, if_pos hlen, rethrow]
      simp
  · intro hb
    simp only [simpleDeleteCategory, hna, if_pos hb, rethrow]
    simp

/-- Witness of C9: in `familyStore` the parent `p1` has a book and a
subcategory. -/
theorem deleteCategory_guard_witness :
    (∃ e, deleteCategory 9 "p1" (some sampleAdmin) familyStore = (.error e, familyStore) ∧
      (0 < countBooksIn "p1" familyStore →
        e = "Error deleting category: " ++ ("Cannot delete category. It has "
          ++ toString (countBooksIn "p1" familyStore) ++ " books associated with it.")) ∧
      (countBooksIn "p1" familyStore = 0 →
        e = "Error deleting category: " ++ ("Cannot delete category. It has subcategories. "
          ++ "Please delete or move subcategories first."))) ∧
    (0 < countBooksIn "p1" familyStore →
      simpleDeleteCategory "p1" (some sampleAdmin) familyStore
        = (.error ("Error deleting category: " ++ ("Cannot delete category. It has "
            ++ toString (countBooksIn "p1" familyStore) ++ " books associated with it.")),
           familyStore)) :=
  deleteCategory_guard 9 "p1" sampleAdmin familyStore
    { id := "p1", name := "Parent", slug := "parent", subCategories := ["k1"], bookCount := 1 }
    rfl rfl (Or.inl (by decide))

/-- C10. For every admin identity and every existing category that no book
refers to and whose `subCategories` list is empty, `deleteCategory` returns
`true`; afterwards no category has the deleted id, the parent (when the
category had one) no longer lists the id in its `subCategories`, every category
other than the deleted one and its parent is in the store exactly as before and
no other category has appeared, and books and users are untouched. -/
theorem deleteCategory_succeeds (now : Nat) (id : Id) (u : Identity) (s : Store) (c : Category)
    (hadmin : u.role = "admin") (hfind : findById Category.id id s.categories = some c)
    (hbooks : countBooksIn id s = 0) (hsubs : c.subCategories = []) :
    ∃ s1, deleteCategory now id (some u) s = (.ok true, s1) ∧
      findById Category.id id s1.categories = none ∧
      (∀ x ∈ s1.categories, x.id ≠ id) ∧
      (∀ x ∈ s1.categories, c.parentCategory = some x.id → id ∉ x.subCategories) ∧
      (∀ x ∈ s.categories, x.id ≠ id → c.parentCategory ≠ some x.id → x ∈ s1.categories) ∧
      (∀ x ∈ s1.categories, c.parentCategory ≠ some x.id → x ∈ s.categories) ∧
      s1.books = s.books ∧ s1.users = s.users := by
  have hna := notAdmin_admin u hadmin
  have hkey : c.id = id := findById_key hfind
  have hb : ¬ 0 < countBooksIn id s := by omega
  have hl : ¬ 0 < c.subCategories.length := by simp [hsubs]
  cases hpar : c.parentCategory with
  | none =>
    refine ⟨⟨s.books, deleteById Category.id id s.categories, s.users⟩, ?_, ?_, ?_, ?_, ?_, ?_,
      rfl, rfl⟩
    · simp only [deleteCategory, hna, hfind, if_neg hb, if_neg hl, hpar, rethrow]
      simp
    · exact findById_deleteById_self _ _ _
    · intro x hx; exact ((mem_deleteById _ _ _ _).mp hx).2
    · intro x _ h; cases h
    · intro x hx hne _; exact (mem_deleteById _ _ _ _).mpr ⟨hx, hne⟩
    · intro x hx _; exact ((mem_deleteById _ _ _ _).mp hx).1
  | some p =>
    refine ⟨⟨s.books, deleteById Category.id id (pullSubCategory now p c.id s).categories,
      s.users⟩, ?_, ?_, ?_, ?_, ?_, ?_, rfl, rfl⟩
    · simp only [deleteCategory, hna, hfind, if_neg hb, if_neg hl, hpar, rethrow]
      simp [pullSubCategory]
    · exact findById_deleteById_self _ _ _
    · intro x hx; exact ((mem_deleteById _ _ _ _).mp hx).2
    · intro x hx hp
      have hxp : x.id = p := by injection hp with hp; exact hp.symm
      obtain ⟨hx1, -⟩ := (mem_deleteById _ _ _ _).mp hx
      obtain ⟨y, -, hy⟩ := (mem_updateById _ _ _ _ _).mp hx1
      by_cases hyp : y.id = p
      · rw [if_pos hyp] at hy
        subst hy
        simp [hkey]
      · rw [if_neg hyp] at hy
        subst hy
        exact absurd hxp hyp
    · intro x hx hne hnp
      have hxp : ¬ x.id = p := fun h => hnp (by rw [h])
      refine (mem_deleteById _ _ _ _).mpr ⟨?_, hne⟩
      exact (mem_updateById _ _ _ _ _).mpr ⟨x, hx, by rw [if_neg hxp]⟩
    · intro x hx hnp
      have hxp : ¬ x.id = p := fun h => hnp (by rw [h])
      obtain ⟨hx1, -⟩ := (mem_deleteById _ _ _ _).mp hx
      obtain ⟨y, hymem, hy⟩ := (mem_updateById _ _ _ _ _).mp hx1
      by_cases hyp : y.id = p
      · rw [if_pos hyp] at hy
        subst hy
        exact absurd hyp hxp
      · rw [if_neg hyp] at hy
        subst hy
        exact hymem

/-- Witness of C10: in `familyStore` the child `k1` has no book and no
subcategory, and its parent is `p1`. -/
theorem deleteCategory_succeeds_witness :
    ∃ s1, deleteCategory 9 "k1" (some sampleAdmin) familyStore = (.ok true, s1) ∧
      findById Category.id "k1" s1.categories = none ∧
      (∀ x ∈ s1.categories, x.id ≠ "k1") ∧
      (∀ x ∈ s1.categories, (some "p1" : Option Id) = some x.id → "k1" ∉ x.subCategories) ∧
      (∀ x ∈ familyStore.categories, x.id ≠ "k1" → (some "p1" : Option Id) ≠ some x.id →
        x ∈ s1.categories) ∧
      (∀ x ∈ s1.categories, (some "p1" : Option Id) ≠ some x.id → x ∈ familyStore.categories) ∧
      s1.books = familyStore.books ∧ s1.users = familyStore.users :=
  deleteCategory_succeeds 9 "k1" sampleAdmin familyStore
    { id := "k1", name := "Child", slug := "child", parentCategory := some "p1" }
    rfl rfl (by decide) rfl

/-! ## Back-references of categories -/

/-- C11 (evaluation at the failing input). In `familyStore` the back-references
are in sync: `k1` has parent `p1` and `p1` lists `k1`.  An admin calls
`updateCategory("k1", parentCategoryId: "zz")`, where no category has the id
`zz`: the resolver first pulls `k1` out of `p1.subCategories`, then finds no new
parent and raises.  The store it leaves has `k1` still pointing to `p1` while
`p1` no longer lists it; the same happens when `k1` is named as its own
parent. -/
theorem updateCategory_raise_breaks_backRefs :
    backRefsInSync familyStore.categories = true ∧
    (∃ s1, updateCategory 9 "k1" { parentCategoryId := some (some "zz") } (some sampleAdmin)
        familyStore = (.error "Error updating category: New parent category not found", s1) ∧
      (findById Category.id "k1" s1.categories).map (fun c => c.parentCategory)
        = some (some "p1") ∧
      (findById Category.id "p1" s1.categories).map (fun c => c.subCategories) = some [] ∧
      backRefsInSync s1.categories = false) ∧
    (∃ s1, updateCategory 9 "k1" { parentCategoryId := some (some "k1") } (some sampleAdmin)
        familyStore = (.error "Error updating category: Category cannot be its own parent", s1) ∧
      backRefsInSync s1.categories = false) := by
  refine ⟨by decide, ⟨_, rfl, by decide, by decide, by decide⟩, ⟨_, rfl, by decide⟩⟩

/-- C12 (evaluation at the failing input). The store holds the parent `p1`, that
lists `k1`, and the child `k1`, and no book.  `bulkDeleteCategories(["k1"])`
called by an admin returns `true` and deletes `k1`, and the remaining category
`p1` still lists the deleted id in its `subCategories`; `deleteCategory("k1")`
on the same store pulls the id out of `p1`. -/
theorem bulkDeleteCategories_keeps_stale_child :
    (∃ s1, bulkDeleteCategories ["k1"] (some sampleAdmin) { familyStore with books := [] }
        = (.ok true, s1) ∧
      findById Category.id "k1" s1.categories = none ∧
      (findById Category.id "p1" s1.categories).map (fun c => c.subCategories)
        = some ["k1"]) ∧
    (∃ s1, deleteCategory 9 "k1" (some sampleAdmin) { familyStore with books := [] }
        = (.ok true, s1) ∧
      (findById Category.id "p1" s1.categories).map (fun c => c.subCategories) = some []) := by
  refine ⟨⟨_, rfl, by decide, by decide⟩, ⟨_, rfl, by decide⟩⟩

/-! ## Moving and creating books: the category counters -/

theorem incBookCount_books (now : Nat) (k : Id) (d : Int) (s : Store) :
    (incBookCount now k d s).books = s.books := rfl

theorem incBookCount_users (now : Nat) (k : Id) (d : Int) (s : Store) :
    (incBookCount now k d s).users = s.users := rfl

theorem findById_incBookCount_self (now : Nat) (k : Id) (d : Int) (s : Store) :
    findById Category.id k (incBookCount now k d s).categories =
      (findById Category.id k s.categories).map
        (fun c => { c with bookCount := c.bookCount + d, updatedAt := now }) := by
  simp only [incBookCount]
  exact findById_updateById _ _ _ _ (fun x hx => hx)

theorem findById_incBookCount_ne (now : Nat) (k j : Id) (d : Int) (s : Store) (h : j ≠ k) :
    findById Category.id j (incBookCount now k d s).categories
      = findById Category.id j s.categories := by
  simp only [incBookCount]
  exact findById_updateById_ne _ _ _ _ _ (fun _ => rfl) h

/-- C13 (counterexample). In `familyStore` the book `b1` is in category `p1`
and `k1` exists.  `updateBook("b1", categoryId: "k1", price: -1)` called by an
admin moves the counters (`p1` from 1 to 0, `k1` from 0 to 1) and then fails in
the update validators, so the book stays in `p1`; and
`updateBook("b1", categoryId: "")`, whose category id names no category,
does not fail. -/
theorem updateBook_counts_before_validation :
    (∃ s1, updateBook 9 "b1" { categoryId := some "k1", price := some (-1) } (some sampleAdmin)
        familyStore
          = (.error "Error updating book: Validation failed: price: Price cannot be negative",
             s1) ∧
      (findById Book.id "b1" s1.books).map (fun b => b.category) = some "p1" ∧
      (findById Category.id "p1" s1.categories).map (fun c => c.bookCount) = some 0 ∧
      (findById Category.id "k1" s1.categories).map (fun c => c.bookCount) = some 1) ∧
    findById Category.id "" familyStore.categories = none ∧
    (∃ s1 b1, updateBook 9 "b1" { categoryId := some "" } (some sampleAdmin) familyStore
        = (.ok (some b1), s1)) := by
  refine ⟨⟨_, rfl, by decide, by decide, by decide⟩, by decide, ⟨_, _, rfl⟩⟩

theorem updateInput_apply_id (i : BookUpdateInput) (c : Option Id) (now : Nat) (b : Book) :
    (i.apply c now b).id = b.id := rfl

/-- An update that sets no isbn held by another book passes the unique indexes. -/
theorem updateInput_no_duplicate (i : BookUpdateInput) (c : Option Id) (now : Nat) (b : Book)
    (books : List Book)
    (hisbn : ∀ x ∈ books, x.id ≠ b.id → i.isbn = none ∨ x.isbn ≠ i.isbn.map trimSetter) :
    Book.duplicateKey (some b) (i.apply c now b) books = none := by
  have hslug : (i.apply c now b).slug = b.slug := rfl
  cases hi : i.isbn with
  | none =>
    have hsame : (i.apply c now b).isbn = b.isbn := by simp [BookUpdateInput.apply, hi]
    simp [Book.duplicateKey, hsame, hslug]
  | some v =>
    have hval : (i.apply c now b).isbn = some (trimSetter v) := by
      simp [BookUpdateInput.apply, hi]
    have hfree : ∀ x ∈ books, x.id ≠ b.id → x.isbn ≠ some (trimSetter v) := by
      intro x hx hne
      rcases hisbn x hx hne with h | h
      · rw [hi] at h; cases h
      · rw [hi] at h; exact h
    have hnone : ¬ ∃ x ∈ books, ¬ x.id = b.id ∧ x.isbn = some (trimSetter v) := by
      rintro ⟨x, hx, hne, he⟩
      exact hfree x hx hne he
    simp [Book.duplicateKey, hval, hslug, updateInput_apply_id, hnone]

/-- C13 (amended). For every admin identity, every existing book `b` in category
`A`, and every input whose `categoryId` is a non-empty `B` different from `A`,
whose other fields, as the cast of the update leaves them (title, author and
isbn trimmed), pass the update validators and whose isbn, if it sets one, is
held by no other book: if `B` exists, `updateBook` returns the stored book,
now in category `B`, the `bookCount` of `A` (when `A` is in the store) is
lower by 1, that of `B` is higher by 1, and every other category is as it was;
if `B` does not exist, `updateBook` fails with `New category not found` and the
store, so `b`'s category and every `bookCount`, is as it was. -/
theorem updateBook_move (now : Nat) (id : Id) (u : Identity) (s : Store) (b : Book) (B : Id)
    (input : BookUpdateInput) (hadmin : u.role = "admin")
    (hfind : findById Book.id id s.books = some b)
    (hcat : input.categoryId = some B) (hB : B ≠ "") (hne : B ≠ b.category)
    (hvalid : input.validationErrors = [])
    (hisbn : ∀ x ∈ s.books, x.id ≠ id →
      input.isbn = none ∨ x.isbn ≠ input.isbn.map trimSetter) :
    ((∃ cB, findById Category.id B s.categories = some cB) →
      ∃ s1 b1, updateBook now id input (some u) s = (.ok (some b1), s1) ∧
        findById Book.id id s1.books = some b1 ∧ b1.category = B ∧
        (∀ cA, findById Category.id b.category s.categories = some cA →
          ∃ cA1, findById Category.id b.category s1.categories = some cA1 ∧
            cA1.bookCount = cA.bookCount - 1) ∧
        (∀ cB, findById Category.id B s.categories = some cB →
          ∃ cB1, findById Category.id B s1.categories = some cB1 ∧
            cB1.bookCount = cB.bookCount + 1) ∧
        (∀ j, j ≠ b.category → j ≠ B →
          findById Category.id j s1.categories = findById Category.id j s.categories)) ∧
    (findById Category.id B s.categories = none →
      updateBook now id input (some u) s
        = (.error "Error updating book: New category not found", s)) := by
  have hna := notAdmin_admin u hadmin
  have hkey : b.id = id := findById_key hfind
  have hmoved : (if B ≠ "" ∧ B ≠ b.category then some B else (none : Option Id)) = some B :=
    if_pos ⟨hB, hne⟩
  constructor
  · rintro ⟨cB, hcB⟩
    have hdup := updateInput_no_duplicate input (some B) now b s.books
      (by rw [hkey]; exact hisbn)
    have hstored : findById Book.id id
        (updateById Book.id id (fun _ => input.apply (some B) now b) s.books)
          = some (input.apply (some B) now b) := by
      rw [findById_updateById _ _ _ _ (by intro x _; rw [updateInput_apply_id]; exact hkey),
        hfind]
      rfl
    refine ⟨⟨updateById Book.id id (fun _ => input.apply (some B) now b) s.books,
      (incBookCount now B 1 (incBookCount now b.category (-1) s)).categories, s.users⟩,
      input.apply (some B) now b, ?_, hstored, ?_, ?_, ?_, ?_⟩
    · simp only [updateBook, hna, hfind, hcat, hmoved, hcB, hvalid, incBookCount_books, hdup,
        hstored, rethrow]
      simp [incBookCount]
    · simp [BookUpdateInput.apply]
    · intro cA hcA
      refine ⟨{ cA with bookCount := cA.bookCount + -1, updatedAt := now }, ?_, ?_⟩
      · show findById Category.id b.category
          (incBookCount now B 1 (incBookCount now b.category (-1) s)).categories = _
        rw [findById_incBookCount_ne _ _ _ _ _ (Ne.symm hne), findById_incBookCount_self, hcA]
        rfl
      · show cA.bookCount + -1 = cA.bookCount - 1
        omega
    · intro cB2 hcB2
      refine ⟨{ cB2 with bookCount := cB2.bookCount + 1, updatedAt := now }, ?_, rfl⟩
      show findById Category.id B
        (incBookCount now B 1 (incBookCount now b.category (-1) s)).categories = _
      rw [findById_incBookCount_self, findById_incBookCount_ne _ _ _ _ _ hne, hcB2]
      rfl
    · intro j hjA hjB
      show findById Category.id j
        (incBookCount now B 1 (incBookCount now b.category (-1) s)).categories = _
      rw [findById_incBookCount_ne _ _ _ _ _ hjB, findById_incBookCount_ne _ _ _ _ _ hjA]
  · intro hnoB
    simp only [updateBook, hna, hfind, hcat, hmoved, hnoB, rethrow]
    simp

/-- Witness of C13: the book `b1` of `familyStore` moves from `p1` to `k1`, with a
new title that comes with blanks around it. -/
theorem updateBook_move_witness :
    ((∃ cB, findById Category.id "k1" familyStore.categories = some cB) →
      ∃ s1 b1, updateBook 9 "b1" { categoryId := some "k1", title := some " Moved " }
          (some sampleAdmin) familyStore = (.ok (some b1), s1) ∧
        findById Book.id "b1" s1.books = some b1 ∧ b1.category = "k1" ∧
        (∀ cA, findById Category.id "p1" familyStore.categories = some cA →
          ∃ cA1, findById Category.id "p1" s1.categories = some cA1 ∧
            cA1.bookCount = cA.bookCount - 1) ∧
        (∀ cB, findById Category.id "k1" familyStore.categories = some cB →
          ∃ cB1, findById Category.id "k1" s1.categories = some cB1 ∧
            cB1.bookCount = cB.bookCount + 1) ∧
        (∀ j, j ≠ "p1" → j ≠ "k1" →
          findById Category.id j s1.categories = findById Category.id j familyStore.categories)) ∧
    (findById Category.id "k1" familyStore.categories = none →
      updateBook 9 "b1" { categoryId := some "k1", title := some " Moved " } (some sampleAdmin)
          familyStore
        = (.error "Error updating book: New category not found", familyStore)) :=
  updateBook_move 9 "b1" sampleAdmin familyStore
    { id := "b1", title := "Foo", author := "Ann", price := 5, category := "p1", stock := 3,
      slug := "foo-1" }
    "k1" { categoryId := some "k1", title := some " Moved " } rfl rfl rfl (by decide) (by decide) rfl
    (fun _ _ _ => Or.inl rfl)

theorem findById_append_fresh {α : Type} (key : α → Id) (id : Id) (xs : List α) (x : α)
    (hfresh : ∀ y ∈ xs, key y ≠ id) (hx : key x = id) :
    findById key id (xs ++ [x]) = some x := by
  unfold findById
  rw [List.find?_append]
  have hnone : List.find? (fun y => decide (key y = id)) xs = none := by
    rw [List.find?_eq_none]
    intro y hy
    simpa using hfresh y hy
  simp [hnone, hx]

/-- A new, schema-valid book whose id, isbn and generated slug are not taken is
inserted with its slug and its timestamps. -/
theorem Book.insert_valid (now : Nat) (doc : Book) (s : Store)
    (hv : doc.validationErrors = []) (hfresh : ∀ x ∈ s.books, x.id ≠ doc.id)
    (hisbn : ∀ x ∈ s.books, doc.isbn = none ∨ x.isbn ≠ doc.isbn)
    (hslug : ∀ x ∈ s.books, x.slug ≠ slugify doc.title ++ "-" ++ toString now) :
    Book.insert now doc s =
      (.ok (), { s with books := s.books ++
        [{ doc with slug := slugify doc.title ++ "-" ++ toString now,
                    createdAt := now, updatedAt := now }] }) := by
  have hpre : Book.preSaveSlug now true doc
      = { doc with slug := slugify doc.title ++ "-" ++ toString now } := by
    simp [Book.preSaveSlug]
  have hid : ¬ ∃ x ∈ s.books, x.id = doc.id := by
    rintro ⟨x, hx, he⟩; exact hfresh x hx he
  have hdup : Book.duplicateKey none
      { doc with slug := slugify doc.title ++ "-" ++ toString now } s.books = none := by
    have h1 : ¬ (¬ doc.isbn = none ∧ ∃ x ∈ s.books, ¬ x.id = doc.id ∧ x.isbn = doc.isbn) := by
      rintro ⟨hn, x, hx, -, he⟩
      rcases hisbn x hx with h | h
      · exact hn h
      · exact h he
    have h2 : ¬ ∃ x ∈ s.books, ¬ x.id = doc.id ∧ x.slug = slugify doc.title ++ "-" ++ toString now := by
      rintro ⟨x, hx, -, he⟩
      exact hslug x hx he
    simp [Book.duplicateKey, h1, h2]
  unfold Book.insert
  rw [hv]
  simp only [hpre, hdup]
  simp [hid]

/-- C14. For every admin identity and every valid book input (the document built
from it, with title, author and isbn trimmed, passes the schema validators, the
new id is unused, its isbn and the slug generated for it are held by no book):
when `categoryId` names an existing category `C`, `createBook` returns the
stored book, whose category reference is `C` and whose title is the trimmed one,
the `bookCount` of `C` is exactly 1 higher than before and every other category
is as it was; when `categoryId` names no category, `createBook` fails with
`Category not found` (under the prefix of its `catch`) and the store is as it
was: no book is created and no `bookCount` changes. -/
theorem createBook_counts (now : Nat) (fresh : Id) (u : Identity) (s : Store)
    (input : BookInput) (hadmin : u.role = "admin")
    (hvalid : (input.document fresh).validationErrors = [])
    (hfresh : ∀ x ∈ s.books, x.id ≠ fresh)
    (hisbn : ∀ x ∈ s.books, input.isbn = none ∨ x.isbn ≠ input.isbn.map trimSetter)
    (hslug : ∀ x ∈ s.books,
      x.slug ≠ slugify (trimSetter input.title) ++ "-" ++ toString now) :
    (∀ cC, findById Category.id input.categoryId s.categories = some cC →
      ∃ s1 b1, createBook now fresh input (some u) s = (.ok (some b1), s1) ∧
        findById Book.id fresh s1.books = some b1 ∧ b1.category = input.categoryId ∧
        b1.title = trimSetter input.title ∧
        (∃ cC1, findById Category.id input.categoryId s1.categories = some cC1 ∧
          cC1.bookCount = cC.bookCount + 1) ∧
        (∀ j, j ≠ input.categoryId →
          findById Category.id j s1.categories = findById Category.id j s.categories) ∧
        (∀ x ∈ s.books, x ∈ s1.books)) ∧
    (findById Category.id input.categoryId s.categories = none →
      createBook now fresh input (some u) s
        = (.error "Error creating book: Category not found", s)) := by
  have hna := notAdmin_admin u hadmin
  constructor
  · intro cC hcC
    have hisbn2 : ∀ x ∈ s.books,
        (input.document fresh).isbn = none ∨ x.isbn ≠ (input.document fresh).isbn := by
      intro x hx
      rcases hisbn x hx with h | h
      · left
        show input.isbn.map trimSetter = none
        rw [h]; rfl
      · exact Or.inr h
    have hins := Book.insert_valid now (input.document fresh) s hvalid hfresh hisbn2 hslug
    have hstored := findById_append_fresh Book.id fresh s.books
      ({ input.document fresh with
         slug := slugify (trimSetter input.title) ++ "-" ++ toString now,
         createdAt := now, updatedAt := now } : Book) hfresh rfl
    refine ⟨⟨s.books ++ [_], (incBookCount now input.categoryId 1 s).categories, s.users⟩, _,
      ?_, hstored, rfl, rfl,
      ⟨{ cC with bookCount := cC.bookCount + 1, updatedAt := now }, ?_, rfl⟩, ?_, ?_⟩
    · simp only [createBook, hna, hcC, rethrow]
      simp only [Bool.false_eq_true, if_false]
      rw [hins]
      simp only [incBookCount]
      exact congrArg (fun r => (Except.ok r, _)) hstored
    · show findById Category.id input.categoryId
        (incBookCount now input.categoryId 1 s).categories = _
      rw [findById_incBookCount_self, hcC]
      rfl
    · intro j hj
      exact findById_incBookCount_ne _ _ _ _ _ hj
    · intro x hx
      exact List.mem_append_left _ hx
  · intro hnone
    simp only [createBook, hna, hnone, rethrow]
    simp

/-- Witness of C14: a second book, whose title comes with blanks around it, is
created in the category `c1` of the sample store. -/
theorem createBook_counts_witness :
    (∀ cC, findById Category.id paddedBookInput.categoryId sampleStore.categories = some cC →
      ∃ s1 b1, createBook 9 "b2" paddedBookInput (some sampleAdmin) sampleStore = (.ok (some b1), s1) ∧
        findById Book.id "b2" s1.books = some b1 ∧ b1.category = paddedBookInput.categoryId ∧
        b1.title = trimSetter paddedBookInput.title ∧
        (∃ cC1, findById Category.id paddedBookInput.categoryId s1.categories = some cC1 ∧
          cC1.bookCount = cC.bookCount + 1) ∧
        (∀ j, j ≠ paddedBookInput.categoryId →
          findById Category.id j s1.categories = findById Category.id j sampleStore.categories) ∧
        (∀ x ∈ sampleStore.books, x ∈ s1.books)) ∧
    (findById Category.id paddedBookInput.categoryId sampleStore.categories = none →
      createBook 9 "b2" paddedBookInput (some sampleAdmin) sampleStore
        = (.error "Error creating book: Category not found", sampleStore)) :=
  createBook_counts 9 "b2" sampleAdmin sampleStore paddedBookInput rfl
    (by decide) (by decide) (fun _ _ => Or.inl rfl) (by decide)

/-- The setter `trim` and the length in UTF-16 units at work: a title of blanks
is trimmed to the empty string and `createBook` fails on the validator
`required`, writing nothing; the slug of a title with blanks around it is that
of the trimmed title; one character above U+FFFF has length 2. -/
theorem createBook_blank_title_fails :
    trimSetter "   " = "" ∧
    (trimSetter "  Bar ").toList = "Bar".toList ∧
    (slugify (trimSetter " Foo Bar ") ++ "-" ++ toString 9).toList = "foo-bar-9".toList ∧
    createBook 9 "b2" blankTitleInput (some sampleAdmin) sampleStore
      = (.error "Error creating book: Book validation failed: title: Book title is required",
          sampleStore) ∧
    jsLength (String.mk [Char.ofNat 0x1F600]) = 2 := by
  refine ⟨by decide, by decide, by decide, rfl, by decide⟩

/-! ## Stock never negative -/

theorem rethrow_snd {α : Type} (label : String) (r : Outcome α) : (rethrow label r).2 = r.2 := by
  obtain ⟨a, s⟩ := r
  cases a <;> rfl

/-- A `save()` either writes nothing, or the document passed validation and
what is written has the stock and the id of the document saved. -/
theorem Book.save_cases (now : Nat) (old doc : Book) (s : Store) :
    (Book.save now old doc s).2 = s ∨
    (doc.validationErrors = [] ∧ ∃ d1 : Book, d1.stock = doc.stock ∧ d1.id = doc.id ∧
      (Book.save now old doc s).2.books = updateById Book.id old.id (fun _ => d1) s.books) := by
  unfold Book.save
  cases hv : doc.validationErrors with
  | cons e es => left; rfl
  | nil =>
    simp only
    by_cases hsame : Book.preSaveSlug now (decide (doc.title ≠ old.title)) doc = old
    · left; rw [if_pos hsame]
    · rw [if_neg hsame]
      cases hdup : Book.duplicateKey (some old)
          (Book.preSaveSlug now (decide (doc.title ≠ old.title)) doc) s.books with
      | some msg => left; rfl
      | none =>
        right
        refine ⟨by first | rfl | trivial,
          { Book.preSaveSlug now (decide (doc.title ≠ old.title)) doc with updatedAt := now },
          ?_, ?_, rfl⟩
        · show (Book.preSaveSlug now (decide (doc.title ≠ old.title)) doc).stock = doc.stock
          unfold Book.preSaveSlug; split_ifs <;> rfl
        · show (Book.preSaveSlug now (decide (doc.title ≠ old.title)) doc).id = doc.id
          unfold Book.preSaveSlug; split_ifs <;> rfl

theorem adjustStock_id (b doc : Book) (q : Int) (op : String)
    (h : adjustStock b q op = .ok doc) : doc.id = b.id :=
  (adjustStock_keeps b doc q op h).1

/-- The store `updateBookStock` leaves: the one it found, or the one left by the
`save()` of the adjusted book. -/
theorem updateBookStock_store (now : Nat) (id : Id) (q : Int) (op : String)
    (user : Option Identity) (s : Store) :
    (updateBookStock now id q op user s).2 = s ∨
    ∃ b doc, findById Book.id id s.books = some b ∧ adjustStock b q op = .ok doc ∧
      (updateBookStock now id q op user s).2 = (Book.save now b doc s).2 := by
  unfold updateBookStock
  rw [rethrow_snd]
  by_cases hna : notAdmin user = true
  · left; rw [if_pos hna]
  · rw [if_neg hna]
    cases hfind : findById Book.id id s.books with
    | none => left; rfl
    | some b =>
      cases hadj : adjustStock b q op with
      | error e => left; simp only [hadj]
      | ok doc =>
        right
        refine ⟨b, doc, rfl, hadj, ?_⟩
        simp only [hadj]
        generalize Book.save now b doc s = X
        rcases X with ⟨r, s1⟩
        cases r <;> rfl

/-- C15. Stock is never negative: for every store, every caller, every book of
the store with `stock ≥ 0`, every integer quantity and every operation (`add`,
`subtract` or any other string), after `updateBookStock` the book is still
stored and its stored stock is `≥ 0`. -/
theorem updateBookStock_stock_nonneg (now : Nat) (id : Id) (q : Int) (op : String)
    (user : Option Identity) (s : Store) (b : Book)
    (hfind : findById Book.id id s.books = some b) (hstock : 0 ≤ b.stock) :
    ∃ b1, findById Book.id id (updateBookStock now id q op user s).2.books = some b1 ∧
      0 ≤ b1.stock := by
  rcases updateBookStock_store now id q op user s with h | ⟨b', doc, hf, hadj, h⟩
  · rw [h]; exact ⟨b, hfind, hstock⟩
  · rw [hfind] at hf
    cases hf
    rw [h]
    rcases Book.save_cases now b doc s with hs | ⟨hv, d1, hd1, hid, hs⟩
    · rw [hs]; exact ⟨b, hfind, hstock⟩
    · have hkey : b.id = id := findById_key hfind
      have hdoc : 0 ≤ doc.stock := ((Book.validationErrors_nil_iff doc).mp hv).2.2.2.2.1
      refine ⟨d1, ?_, by rw [hd1]; exact hdoc⟩
      rw [hs, hkey, findById_updateById _ _ _ _
        (by intro x _; rw [hid, adjustStock_id b doc q op hadj, hkey]), hfind]
      rfl

/-- Witness of C15: 10 copies are taken from the 3 of the sample book, and then
10 copies are added with a negative sign. -/
theorem updateBookStock_stock_nonneg_witness :
    (∃ b1, findById Book.id "b1"
        (updateBookStock 9 "b1" 10 "subtract" (some sampleAdmin) sampleStore).2.books = some b1 ∧
      0 ≤ b1.stock) ∧
    (∃ b1, findById Book.id "b1"
        (updateBookStock 9 "b1" (-10) "add" (some sampleAdmin) sampleStore).2.books = some b1 ∧
      0 ≤ b1.stock) :=
  ⟨updateBookStock_stock_nonneg 9 "b1" 10 "subtract" (some sampleAdmin) sampleStore sampleBook
      rfl (by decide),
   updateBookStock_stock_nonneg 9 "b1" (-10) "add" (some sampleAdmin) sampleStore sampleBook
      rfl (by decide)⟩

/-! ## Identity resolution -/

/-- C16. `getUser` never raises: every exception of its `try` block is turned
into `null`, so for every request, verifier and store it returns `null` or an
identity.  It returns `null` when the `Authorization` header is absent, when
the token is empty after the `Bearer ` prefix is removed, when `jwt.verify`
throws, when the decoded user id is absent or names no user, and when that user
is inactive; and an identity it returns has the id and the role of a user that
is in the store and active. -/
theorem getUser_spec (verify : Verifier) (req : Request) (s : Store) :
    getUser verify req s = (getUserBody verify req s).toOption.join ∧
    (req.authorization = none → getUser verify req s = none) ∧
    (∀ h, req.authorization = some h → bearerToken h = "" → getUser verify req s = none) ∧
    (∀ h e, req.authorization = some h → verify (bearerToken h) = .error e →
      getUser verify req s = none) ∧
    (∀ h uid, req.authorization = some h → verify (bearerToken h) = .ok uid →
      uid.bind (fun i => findById User.id i s.users) = none → getUser verify req s = none) ∧
    (∀ h uid user, req.authorization = some h → verify (bearerToken h) = .ok uid →
      uid.bind (fun i => findById User.id i s.users) = some user → user.isActive = false →
      getUser verify req s = none) ∧
    (∀ i, getUser verify req s = some i →
      ∃ user, findById User.id i.id s.users = some user ∧ user ∈ s.users ∧
        user.id = i.id ∧ user.role = i.role ∧ user.isActive = true) := by
  refine ⟨?_, ?_, ?_, ?_, ?_, ?_, ?_⟩
  · unfold getUser
    cases getUserBody verify req s with
    | error e => rfl
    | ok r => cases r <;> rfl
  · intro h
    simp [getUser, getUserBody, h]
  · intro h hreq htok
    by_cases h0 : h = "" <;> simp [getUser, getUserBody, hreq, htok, h0]
  · intro h e hreq hver
    by_cases h0 : h = "" <;> by_cases h1 : bearerToken h = "" <;>
      simp [getUser, getUserBody, hreq, hver, h0, h1]
  · intro h uid hreq hver hnone
    by_cases h0 : h = "" <;> by_cases h1 : bearerToken h = "" <;>
      simp [getUser, getUserBody, hreq, hver, hnone, h0, h1]
  · intro h uid user hreq hver hsome hinactive
    by_cases h0 : h = "" <;> by_cases h1 : bearerToken h = "" <;>
      simp [getUser, getUserBody, hreq, hver, hsome, hinactive, h0, h1]
  · intro i hi
    unfold getUser getUserBody at hi
    cases hreq : req.authorization with
    | none => simp [hreq] at hi
    | some h =>
      simp only [hreq] at hi
      by_cases h0 : h = ""
      · simp [h0] at hi
      · by_cases h1 : bearerToken h = ""
        · simp [h0, h1] at hi
        · simp only [if_neg h0, if_neg h1] at hi
          cases hver : verify (bearerToken h) with
          | error e => simp [hver] at hi
          | ok uid =>
            simp only [hver] at hi
            cases hfind : uid.bind (fun i => findById User.id i s.users) with
            | none => simp [hfind] at hi
            | some user =>
              simp only [hfind] at hi
              by_cases hact : user.isActive = false
              · simp [hact] at hi
              · simp only [if_neg hact, Option.some.injEq] at hi
                have hact2 : user.isActive = true := by
                  cases hb : user.isActive
                  · exact absurd hb hact
                  · rfl
                obtain ⟨j, hj, hfj⟩ := Option.bind_eq_some.mp hfind
                have hid : user.id = j := findById_key hfj
                subst hi
                refine ⟨user, ?_, findById_mem hfj, rfl, rfl, hact2⟩
                show findById User.id user.id s.users = some user
                rw [hid]; exact hfj

/-! ## Messages of the admin guard -/

/-- C17 (counterexample). `createBook` invoked with no identity fails with
`Access denied. Admin privileges required.`, a message in which `authentication
required` does not occur in either spelling; the gate `requireAdmin` of
`middleware/auth.js`, which no resolver calls, is the one that answers a missing
identity with `Authentication required`. -/
theorem createBook_anonymous_message :
    (createBook 9 "b9" { title := "T", author := "A", price := 1, categoryId := "c1", stock := 1 }
      none sampleStore).1 = .error "Error creating book: Access denied. Admin privileges required." ∧
    ¬ ("uthentication required".toList <:+:
        "Error creating book: Access denied. Admin privileges required.".toList) ∧
    requireAdmin none = .error "Authentication required. Please log in." := by
  refine ⟨rfl, by decide, rfl⟩

/-- C17 (amended). Every admin mutation of the book, category and user resolvers
and the admin queries `users` and `userStats`, invoked with no identity or with
an identity whose role is not `admin`, fail with the message
`Access denied. Admin privileges required.` under the prefix of the operation:
the guard `!user || user.role !== 'admin'` gives both callers the same
message. -/
theorem admin_guard_message (pw : Passwords) (now : Nat) (fresh id : Id)
    (ids : List Id) (orders : List (Id × Int)) (q : Int) (op : String)
    (bi : BookInput) (bu : BookUpdateInput) (ci : CategoryInput) (cu : CategoryUpdateInput)
    (ri : RegisterInput) (au : AdminUpdateUserInput) (db : Engine User) (page limit : Int)
    (uf : UserFilter) (search : Option String) (sortBy sortOrder : String) (startOfMonth : Nat)
    (user : Option Identity) (hna : ∀ u, user = some u → u.role ≠ "admin") (s : Store) :
    (createBook now fresh bi user s).1
      = .error ("Error creating book: " ++ accessDenied) ∧
    (updateBook now id bu user s).1
      = .error ("Error updating book: " ++ accessDenied) ∧
    (deleteBook now id user s).1
      = .error ("Error deleting book: " ++ accessDenied) ∧
    (toggleBookStatus now id user s).1
      = .error ("Error toggling book status: " ++ accessDenied) ∧
    (toggleFeaturedStatus now id user s).1
      = .error ("Error toggling featured status: " ++ accessDenied) ∧
    (updateBookStock now id q op user s).1
      = .error ("Error updating stock: " ++ accessDenied) ∧
    (createCategory now fresh ci user s).1
      = .error ("Error creating category: " ++ accessDenied) ∧
    (updateCategory now id cu user s).1
      = .error ("Error updating category: " ++ accessDenied) ∧
    (deleteCategory now id user s).1
      = .error ("Error deleting category: " ++ accessDenied) ∧
    (toggleCategoryStatus now id user s).1
      = .error ("Error toggling category status: " ++ accessDenied) ∧
    (toggleCategoryFeatured now id user s).1
      = .error ("Error toggling featured status: " ++ accessDenied) ∧
    (bulkUpdateCategories now ids cu user s).1
      = .error ("Error bulk updating categories: " ++ accessDenied) ∧
    (bulkDeleteCategories ids user s).1
      = .error ("Error bulk deleting categories: " ++ accessDenied) ∧
    (reorderCategories now orders user s).1
      = .error ("Error reordering categories: " ++ accessDenied) ∧
    (createUser pw now fresh ri user s).1
      = .error ("Error creating user: " ++ accessDenied) ∧
    (updateUser now id au user s).1
      = .error ("Error updating user: " ++ accessDenied) ∧
    (deleteUser id user s).1
      = .error ("Error deleting user: " ++ accessDenied) ∧
    (toggleUserStatus now id user s).1
      = .error ("Error toggling user status: " ++ accessDenied) ∧
    (bulkDeleteUsers ids user s).1
      = .error ("Error bulk deleting users: " ++ accessDenied) ∧
    (bulkUpdateUsers now ids au user s).1
      = .error ("Error bulk updating users: " ++ accessDenied) ∧
    users db user page limit uf search sortBy sortOrder
      = .error ("Error fetching users: " ++ accessDenied) ∧
    userStats startOfMonth user s = .error ("Error fetching user stats: " ++ accessDenied) := by
  have h := notAdmin_of_no_admin user hna
  refine ⟨?_, ?_, ?_, ?_, ?_, ?_, ?_, ?_, ?_, ?_, ?_, ?_, ?_, ?_, ?_, ?_, ?_, ?_, ?_, ?_, ?_, ?_⟩
  · simp only [createBook, h, if_true, rethrow]
  · simp only [updateBook, h, if_true, rethrow]
  · simp only [deleteBook, h, if_true, rethrow]
  · simp only [toggleBookStatus, h, if_true, rethrow]
  · simp only [toggleFeaturedStatus, h, if_true, rethrow]
  · simp only [updateBookStock, h, if_true, rethrow]
  · simp only [createCategory, h, if_true, categoryCatch, Raised.message]
  · simp only [updateCategory, h, if_true, categoryCatch, Raised.message]
  · simp only [deleteCategory, h, if_true, rethrow]
  · simp only [toggleCategoryStatus, h, if_true, plainCatch, Raised.message]
  · simp only [toggleCategoryFeatured, h, if_true, plainCatch, Raised.message]
  · simp only [bulkUpdateCategories, h, if_true, plainCatch, Raised.message]
  · simp only [bulkDeleteCategories, h, if_true, rethrow]
  · simp only [reorderCategories, h, if_true, rethrow]
  · simp only [createUser, h, if_true, createUserCatch]
  · simp only [updateUser, h, if_true, plainCatch, Raised.message]
  · cases user with
    | none => rfl
    | some u => simp only [deleteUser, if_pos (hna u rfl), rethrow]
  · cases user with
    | none => rfl
    | some u => simp only [toggleUserStatus, if_pos (hna u rfl), plainCatch, Raised.message]
  · cases user with
    | none => rfl
    | some u => simp only [bulkDeleteUsers, if_pos (hna u rfl), rethrow]
  · simp only [bulkUpdateUsers, h, if_true, plainCatch, Raised.message]
  · simp only [users, h, if_true]
  · simp only [userStats, h, if_true]

/-- Witness of C17: every admin operation is invoked with no identity on the
sample store. -/
theorem admin_guard_message_witness :
    (createBook 9 "x9" { title := "T", author := "A", price := 1, categoryId := "c1", stock := 1 } none sampleStore).1
      = .error ("Error creating book: " ++ accessDenied) ∧
    (updateBook 9 "b1" { price := some 2 } none sampleStore).1
      = .error ("Error updating book: " ++ accessDenied) ∧
    (deleteBook 9 "b1" none sampleStore).1
      = .error ("Error deleting book: " ++ accessDenied) ∧
    (toggleBookStatus 9 "b1" none sampleStore).1
      = .error ("Error toggling book status: " ++ accessDenied) ∧
    (toggleFeaturedStatus 9 "b1" none sampleStore).1
      = .error ("Error toggling featured status: " ++ accessDenied) ∧
    (updateBookStock 9 "b1" 1 "add" none sampleStore).1
      = .error ("Error updating stock: " ++ accessDenied) ∧
    (createCategory 9 "x9" { name := "Poetry" } none sampleStore).1
      = .error ("Error creating category: " ++ accessDenied) ∧
    (updateCategory 9 "b1" { name := some "Prose" } none sampleStore).1
      = .error ("Error updating category: " ++ accessDenied) ∧
    (deleteCategory 9 "b1" none sampleStore).1
      = .error ("Error deleting category: " ++ accessDenied) ∧
    (toggleCategoryStatus 9 "b1" none sampleStore).1
      = .error ("Error toggling category status: " ++ accessDenied) ∧
    (toggleCategoryFeatured 9 "b1" none sampleStore).1
      = .error ("Error toggling featured status: " ++ accessDenied) ∧
    (bulkUpdateCategories 9 ["u1", "c1"] { name := some "Prose" } none sampleStore).1
      = .error ("Error bulk updating categories: " ++ accessDenied) ∧
    (bulkDeleteCategories ["u1", "c1"] none sampleStore).1
      = .error ("Error bulk deleting categories: " ++ accessDenied) ∧
    (reorderCategories 9 [("c1", 3)] none sampleStore).1
      = .error ("Error reordering categories: " ++ accessDenied) ∧
    (createUser samplePasswords 9 "x9" { name := "N", email := "n@x.com", password := "p" } none sampleStore).1
      = .error ("Error creating user: " ++ accessDenied) ∧
    (updateUser 9 "b1" { isActive := some false } none sampleStore).1
      = .error ("Error updating user: " ++ accessDenied) ∧
    (deleteUser "b1" none sampleStore).1
      = .error ("Error deleting user: " ++ accessDenied) ∧
    (toggleUserStatus 9 "b1" none sampleStore).1
      = .error ("Error toggling user status: " ++ accessDenied) ∧
    (bulkDeleteUsers ["u1", "c1"] none sampleStore).1
      = .error ("Error bulk deleting users: " ++ accessDenied) ∧
    (bulkUpdateUsers 9 ["u1", "c1"] { isActive := some false } none sampleStore).1
      = .error ("Error bulk updating users: " ++ accessDenied) ∧
    users sampleUserDb none 1 20 {} none "createdAt" "desc"
      = .error ("Error fetching users: " ++ accessDenied) ∧
    userStats 0 none sampleStore
      = .error ("Error fetching user stats: " ++ accessDenied) :=
  admin_guard_message samplePasswords 9 "x9" "b1" ["u1", "c1"] [("c1", 3)] 1 "add"
    { title := "T", author := "A", price := 1, categoryId := "c1", stock := 1 }
    { price := some 2 } { name := "Poetry" } { name := some "Prose" }
    { name := "N", email := "n@x.com", password := "p" } { isActive := some false }
    sampleUserDb 1 20 {} none "createdAt" "desc" 0 none (by intro u hu; cases hu) sampleStore

/-! ## Pagination: empty result sets and limits that are not positive -/

/-- C18 (counterexample). When nothing matches, page 2 of `books` with limit 12
has `totalCount = 0` and `hasPreviousPage = true`. -/
theorem empty_second_page_has_previous :
    ∃ c, books emptyBookDb 2 12 = .ok c ∧ c.totalCount = 0 ∧ c.hasPreviousPage = true :=
  ⟨_, rfl, rfl, by decide⟩

theorem listing_empty {α : Type} (label : String) (db : Engine α)
    (hdb : ∀ q st, db q st = .ok []) (q : Query) (st : SortSpec)
    (page limit : Int) (hp : 1 ≤ page) (hl : 0 < limit) :
    ∃ c, listing label db q st page limit ((page - 1) * limit) = .ok c ∧ IsEmptyPage page c := by
  obtain ⟨c, hc, hitems, hcount, ⟨T, hT, hTdef, -, -, hnext⟩, hprev, hcur⟩ :=
    listing_isPage label db q st page limit [] hp hl (hdb q st)
  have hT0 : T = 0 := by rw [hTdef]; simp
  refine ⟨c, hc, ?_, hcount, ?_, ?_, hprev, hcur⟩
  · rw [hitems]; simp
  · rw [hT, hT0]; simp
  · rw [hnext, hT0]; simp; omega

/-- C18 (amended). For every `page ≥ 1` and `limit > 0`, when no document
matches, each paginated listing returns `totalCount = 0`, `totalPages = 0`,
`hasNextPage = false` and `hasPreviousPage = (page > 1)`, which is `false` on
page 1 and `true` on every later page. -/
theorem listings_empty (page limit : Int) (hp : 1 ≤ page) (hl : 0 < limit)
    (bookDb : Engine Book) (categoryDb : Engine Category) (userDb : Engine User)
    (hbooks : ∀ q st, bookDb q st = .ok [])
    (hcats : ∀ q st, categoryDb q st = .ok [])
    (husers : ∀ q st, userDb q st = .ok [])
    (u : Identity) (hadmin : u.role = "admin")
    (filter : BookFilter) (search : Option String) (sortBy sortOrder : String)
    (categoryId : Id) (text : String) (cfilter : CategoryFilter) (ufilter : UserFilter) :
    (∃ c, books bookDb page limit filter search sortBy sortOrder = .ok c ∧ IsEmptyPage page c) ∧
    (∃ c, allBooks bookDb page limit filter search sortBy sortOrder = .ok c ∧
      IsEmptyPage page c) ∧
    (∃ c, booksByCategory bookDb categoryId page limit sortBy sortOrder = .ok c ∧
      IsEmptyPage page c) ∧
    (∃ c, searchBooks bookDb text page limit filter = .ok c ∧ IsEmptyPage page c) ∧
    (∃ c, allCategories categoryDb page limit cfilter search = .ok c ∧ IsEmptyPage page c) ∧
    (∃ c, users userDb (some u) page limit ufilter search sortBy sortOrder = .ok c ∧
      IsEmptyPage page c) := by
  refine ⟨?_, ?_, ?_, ?_, ?_, ?_⟩
  · exact listing_empty _ bookDb hbooks _ _ page limit hp hl
  · exact listing_empty _ bookDb hbooks _ _ page limit hp hl
  · exact listing_empty _ bookDb hbooks _ _ page limit hp hl
  · exact listing_empty _ bookDb hbooks _ _ page limit hp hl
  · exact listing_empty _ categoryDb hcats _ _ page limit hp hl
  · simp only [users, notAdmin_admin u hadmin]
    exact listing_empty _ userDb husers _ _ page limit hp hl

/-- Witness of C18: page 2 with limit 12 on databases in which nothing matches. -/
theorem listings_empty_witness :
    (∃ c, books emptyBookDb 2 12 {} none "TITLE" "ASC" = .ok c ∧ IsEmptyPage 2 c) ∧
    (∃ c, allBooks emptyBookDb 2 12 {} none "TITLE" "ASC" = .ok c ∧ IsEmptyPage 2 c) ∧
    (∃ c, booksByCategory emptyBookDb "c1" 2 12 "TITLE" "ASC" = .ok c ∧ IsEmptyPage 2 c) ∧
    (∃ c, searchBooks emptyBookDb "foo" 2 12 {} = .ok c ∧ IsEmptyPage 2 c) ∧
    (∃ c, allCategories emptyCategoryDb 2 12 {} none = .ok c ∧ IsEmptyPage 2 c) ∧
    (∃ c, users emptyUserDb (some sampleAdmin) 2 12 {} none "TITLE" "ASC" = .ok c ∧
      IsEmptyPage 2 c) :=
  listings_empty 2 12 (by decide) (by decide) emptyBookDb emptyCategoryDb emptyUserDb
    (fun _ _ => rfl) (fun _ _ => rfl) (fun _ _ => rfl) sampleAdmin rfl
    {} none "TITLE" "ASC" "c1" "foo" {} {}

/-- C19 (counterexample). With `limit = -2` on page 1 the admin listing `users`
does not fail: of the three matching users it returns the first two, with
`totalCount = 3`, `totalPages = -1` and `hasNextPage = false`; and with
`limit = 0` the listing `books` returns its page with an infinite
`totalPages`. -/
theorem negative_limit_returns_page :
    (∃ c, users sampleUserDb (some sampleAdmin) 1 (-2) = .ok c ∧
      c.items.map User.id = ["u1", "u2"] ∧ c.totalCount = 3 ∧
      c.totalPages = .finite (-1) ∧ c.hasNextPage = false) ∧
    (∃ c, books sampleBookDb 1 0 = .ok c ∧ c.items.map Book.id = ["b1"] ∧
      c.totalPages = .posInf) := by
  have hceil : ⌈((3 : ℤ) : ℚ) / ((-2 : ℤ) : ℚ)⌉ = -1 := by
    rw [Int.ceil_eq_iff]; norm_num
  refine ⟨⟨_, rfl, rfl, rfl, ?_, ?_⟩, ⟨_, rfl, rfl, rfl⟩⟩
  · show JsNumber.finite ((⌈((3 : ℤ) : ℚ) / ((-2 : ℤ) : ℚ)⌉ : ℤ) : ℚ) = JsNumber.finite (-1)
    rw [hceil]; norm_num
  · show decide (((1 : ℤ) : ℚ) < ((⌈((3 : ℤ) : ℚ) / ((-2 : ℤ) : ℚ)⌉ : ℤ) : ℚ)) = false
    rw [hceil]; norm_num

theorem listing_nonpositive {α : Type} (label : String) (db : Engine α) (q : Query)
    (st : SortSpec) (page limit : Int) (m : List α) (hp : 1 ≤ page)
    (hdb : db q st = .ok m) :
    NonPositiveLimitOutcome page limit m
      (listing label db q st page limit ((page - 1) * limit)) := by
  refine ⟨?_, ?_, ?_⟩
  · intro hl
    subst hl
    refine ⟨{ items := m, totalCount := m.length,
              hasNextPage := jsLt page (jsCeil (jsDiv m.length 0)),
              hasPreviousPage := decide (1 < page), currentPage := page,
              totalPages := jsCeil (jsDiv m.length 0) }, ?_, rfl, rfl, ?_⟩
    · simp only [listing, hdb, connection, skipLimit]
      simp
    · show jsCeil (jsDiv m.length 0) = _
      by_cases hm : m.length = 0
      · simp [jsDiv, jsCeil, hm]
      · have hpos : (0 : Int) < (m.length : Int) := by omega
        simp [jsDiv, jsCeil, hm, hpos]
  · intro hl hpage
    subst hpage
    have hl0 : limit ≠ 0 := ne_of_lt hl
    have hq : ((m.length : Int) : ℚ) / (limit : ℚ) ≤ 0 := by
      apply div_nonpos_of_nonneg_of_nonpos
      · exact_mod_cast Int.natCast_nonneg _
      · exact_mod_cast le_of_lt hl
    have hT : ⌈((m.length : Int) : ℚ) / (limit : ℚ)⌉ ≤ 0 := by
      rw [Int.ceil_le]; exact_mod_cast hq
    refine ⟨{ items := m.take limit.natAbs, totalCount := m.length,
              hasNextPage := jsLt 1 (jsCeil (jsDiv m.length limit)),
              hasPreviousPage := decide ((1 : Int) < 1), currentPage := 1,
              totalPages := jsCeil (jsDiv m.length limit) }, ?_, rfl, rfl,
      ⟨⌈((m.length : Int) : ℚ) / (limit : ℚ)⌉, ?_, hT⟩, ?_⟩
    · simp only [listing, hdb, connection, skipLimit]
      simp [hl0]
    · show jsCeil (jsDiv m.length limit) = _
      simp [jsDiv, jsCeil, hl0]
    · show jsLt 1 (jsCeil (jsDiv m.length limit)) = false
      simp only [jsDiv, if_neg hl0, jsCeil, jsLt, decide_eq_false_iff_not]
      have : ((1 : Int) : ℚ) < ((⌈((m.length : Int) : ℚ) / (limit : ℚ)⌉ : Int) : ℚ)
          ↔ (1 : Int) < ⌈((m.length : Int) : ℚ) / (limit : ℚ)⌉ := Int.cast_lt
      rw [this]
      omega
  · intro hl hpage
    have hneg : (page - 1) * limit < 0 := Int.mul_neg_of_pos_of_neg (by omega) hl
    refine ⟨label ++ "Skip value must be non-negative", ?_⟩
    simp only [listing, hdb, connection, skipLimit, if_pos hneg]

theorem listing_nonpositive_total {α : Type} (label : String) (db : Engine α)
    (hdb : ∀ q st, ∃ m, db q st = .ok m) (q : Query) (st : SortSpec)
    (page limit : Int) (hp : 1 ≤ page) :
    ∃ m, Answers db m ∧
      NonPositiveLimitOutcome page limit m
        (listing label db q st page limit ((page - 1) * limit)) := by
  obtain ⟨m, hm⟩ := hdb q st
  exact ⟨m, ⟨q, st, hm⟩, listing_nonpositive label db q st page limit m hp hm⟩

/-- C19 (amended). The listings do not validate the limit.  For every
`limit ≤ 0` and `page ≥ 1`, each of the six paginated listings, on a database
that answers with the matching documents `m`, behaves as
`NonPositiveLimitOutcome` says: with `limit = 0` it returns all of `m` and a
`totalPages` that is `Infinity` (`NaN` when `m` is empty); with `limit < 0` on
page 1 it returns the first `|limit|` documents of `m`, `totalPages ≤ 0` and
`hasNextPage = false`; it fails only with `limit < 0` on a page after the first,
where the skip `(page - 1) * limit` is negative. -/
theorem listings_nonpositive_limit (page limit : Int) (hp : 1 ≤ page) (hl : limit ≤ 0)
    (bookDb : Engine Book) (categoryDb : Engine Category) (userDb : Engine User)
    (hbooks : ∀ q st, ∃ m, bookDb q st = .ok m)
    (hcats : ∀ q st, ∃ m, categoryDb q st = .ok m)
    (husers : ∀ q st, ∃ m, userDb q st = .ok m)
    (u : Identity) (hadmin : u.role = "admin")
    (filter : BookFilter) (search : Option String) (sortBy sortOrder : String)
    (categoryId : Id) (text : String) (cfilter : CategoryFilter) (ufilter : UserFilter) :
    (limit = 0 ∨ limit < 0) ∧
    (∃ m, Answers bookDb m ∧ NonPositiveLimitOutcome page limit m
      (books bookDb page limit filter search sortBy sortOrder)) ∧
    (∃ m, Answers bookDb m ∧ NonPositiveLimitOutcome page limit m
      (allBooks bookDb page limit filter search sortBy sortOrder)) ∧
    (∃ m, Answers bookDb m ∧ NonPositiveLimitOutcome page limit m
      (booksByCategory bookDb categoryId page limit sortBy sortOrder)) ∧
    (∃ m, Answers bookDb m ∧ NonPositiveLimitOutcome page limit m
      (searchBooks bookDb text page limit filter)) ∧
    (∃ m, Answers categoryDb m ∧ NonPositiveLimitOutcome page limit m
      (allCategories categoryDb page limit cfilter search)) ∧
    (∃ m, Answers userDb m ∧ NonPositiveLimitOutcome page limit m
      (users userDb (some u) page limit ufilter search sortBy sortOrder)) := by
  refine ⟨by omega, ?_, ?_, ?_, ?_, ?_, ?_⟩
  · exact listing_nonpositive_total _ bookDb hbooks _ _ page limit hp
  · exact listing_nonpositive_total _ bookDb hbooks _ _ page limit hp
  · exact listing_nonpositive_total _ bookDb hbooks _ _ page limit hp
  · exact listing_nonpositive_total _ bookDb hbooks _ _ page limit hp
  · exact listing_nonpositive_total _ categoryDb hcats _ _ page limit hp
  · simp only [users, notAdmin_admin u hadmin]
    exact listing_nonpositive_total _ userDb husers _ _ page limit hp

/-- Witness of C19: page 1 with limit -2 on the sample databases. -/
theorem listings_nonpositive_limit_witness :
    ((-2 : Int) = 0 ∨ (-2 : Int) < 0) ∧
    (∃ m, Answers sampleBookDb m ∧ NonPositiveLimitOutcome 1 (-2) m
      (books sampleBookDb 1 (-2) {} none "TITLE" "ASC")) ∧
    (∃ m, Answers sampleBookDb m ∧ NonPositiveLimitOutcome 1 (-2) m
      (allBooks sampleBookDb 1 (-2) {} none "TITLE" "ASC")) ∧
    (∃ m, Answers sampleBookDb m ∧ NonPositiveLimitOutcome 1 (-2) m
      (booksByCategory sampleBookDb "c1" 1 (-2) "TITLE" "ASC")) ∧
    (∃ m, Answers sampleBookDb m ∧ NonPositiveLimitOutcome 1 (-2) m
      (searchBooks sampleBookDb "foo" 1 (-2) {})) ∧
    (∃ m, Answers sampleCategoryDb m ∧ NonPositiveLimitOutcome 1 (-2) m
      (allCategories sampleCategoryDb 1 (-2) {} none)) ∧
    (∃ m, Answers sampleUserDb m ∧ NonPositiveLimitOutcome 1 (-2) m
      (users sampleUserDb (some sampleAdmin) 1 (-2) {} none "TITLE" "ASC")) :=
  listings_nonpositive_limit 1 (-2) (by decide) (by decide) sampleBookDb sampleCategoryDb
    sampleUserDb (fun _ _ => ⟨_, rfl⟩) (fun _ _ => ⟨_, rfl⟩) (fun _ _ => ⟨_, rfl⟩) sampleAdmin rfl
    {} none "TITLE" "ASC" "c1" "foo" {} {}

/-! ## Category filters -/

/-- C20 (evaluation at the failing input). In `twoFamilies` the filter
`parentCategoryId: "p1"` selects the child `k1` of `p1`.  Adding the field
`hasParent: true` to it does not narrow the result: the second assignment to
`query.parentCategory` replaces the first, the query is the one of
`hasParent: true` alone, and both `categories` and `allCategories` now select
`k1` and also `k2`, the child of `p2`. -/
theorem hasParent_overwrites_parentCategoryId :
    categoryQuery { parentCategoryId := some "p1", hasParent := some true }
      = categoryQuery { hasParent := some true } ∧
    (∃ sel sel2,
      categories (categoryDb noRegex twoFamilies) { parentCategoryId := some "p1" } = .ok sel ∧
      categories (categoryDb noRegex twoFamilies)
        { parentCategoryId := some "p1", hasParent := some true } = .ok sel2 ∧
      sel.map Category.id = ["k1"] ∧ sel2.map Category.id = ["k1", "k2"] ∧
      ¬ (∀ c ∈ sel2, c ∈ sel)) ∧
    (∃ c c2,
      allCategories (categoryDb noRegex twoFamilies) 1 20 { parentCategoryId := some "p1" }
        = .ok c ∧
      allCategories (categoryDb noRegex twoFamilies) 1 20
        { parentCategoryId := some "p1", hasParent := some true } = .ok c2 ∧
      c.items.map Category.id = ["k1"] ∧ c2.items.map Category.id = ["k1", "k2"]) := by
  refine ⟨rfl, ⟨_, _, rfl, rfl, by decide, by decide, by decide⟩, ⟨_, _, rfl, rfl, ?_, ?_⟩⟩
  · decide
  · decide

/-! ## The filters `hasParent` and `inStock` -/

theorem mem_sortDocs {α : Type} (field : α → String → Option Value) (st : SortSpec)
    (docs : List α) (x : α) : x ∈ sortDocs field st docs ↔ x ∈ docs :=
  (List.perm_insertionSort _ docs).mem_iff

/-- The filter `hasParent: true` selects exactly the categories that have a
parent, in `categories` and in `allCategories` alike (same query). -/
theorem categories_hasParent_true (rx : String → String → Bool) (s : Store) :
    ∃ sel, categories (categoryDb rx s) { hasParent := some true } = .ok sel ∧
      ∀ c, c ∈ sel ↔ (c ∈ s.categories ∧ c.parentCategory ≠ none) := by
  refine ⟨_, rfl, ?_⟩
  intro c
  rw [mem_sortDocs, List.mem_filter]
  have : Query.selects rx (categoryQuery { hasParent := some true }) c.field = true
      ↔ c.parentCategory ≠ none := by
    cases h : c.parentCategory <;>
      simp [categoryQuery, Query.whenSome, Query.set, truthy, Query.selects, Cond.holds, Op.holds,
        Category.field, h]
  rw [this]

/-- The filter `inStock` of `books`: `true` selects exactly the active books with
`stock > 0`, `false` exactly the active books with `stock = 0`. -/
theorem books_inStock (rx : String → String → Bool) (tx : String → Book → Bool) (s : Store)
    (st : SortSpec) :
    (∃ sel, bookDb rx tx s (booksQuery { inStock := some true } none) st = .ok sel ∧
      ∀ b, b ∈ sel ↔ (b ∈ s.books ∧ b.isActive = true ∧ 0 < b.stock)) ∧
    (∃ sel, bookDb rx tx s (booksQuery { inStock := some false } none) st = .ok sel ∧
      ∀ b, b ∈ sel ↔ (b ∈ s.books ∧ b.isActive = true ∧ b.stock = 0)) := by
  constructor
  · refine ⟨_, rfl, ?_⟩
    intro b
    rw [mem_sortDocs, List.mem_filter]
    simp [booksQuery, Query.whenSome, Query.set, truthy, Cond.holds, Op.holds, Book.field]
  · refine ⟨_, rfl, ?_⟩
    intro b
    rw [mem_sortDocs, List.mem_filter]
    simp [booksQuery, Query.whenSome, Query.set, truthy, Cond.holds, Op.holds, Book.field]

/-- C21 (evaluation at the failing input). In `twoFamilies` the categories `p1`
and `p2` have no parent: they hold the schema default `parentCategory = null`.
The filter `hasParent: false` builds the condition `$exists: false`, which a
field that holds `null` does not meet, and selects none of them, in `categories`
and in `allCategories`; `hasParent: true` selects the two children. -/
theorem hasParent_false_selects_nothing :
    (twoFamilies.categories.filter (fun c => decide (c.parentCategory = none))).map Category.id
      = ["p1", "p2"] ∧
    categoryQuery { hasParent := some false } = [("parentCategory", .ops [.present false])] ∧
    categories (categoryDb noRegex twoFamilies) { hasParent := some false } = .ok [] ∧
    (∃ c, allCategories (categoryDb noRegex twoFamilies) 1 20 { hasParent := some false }
        = .ok c ∧ c.items = [] ∧ c.totalCount = 0) ∧
    (∃ sel, categories (categoryDb noRegex twoFamilies) { hasParent := some true } = .ok sel ∧
      sel.map Category.id = ["k1", "k2"]) := by
  exact ⟨by decide, rfl, rfl, ⟨_, rfl, rfl, rfl⟩, ⟨_, rfl, rfl⟩⟩

/-! ## Sort keys of the listings -/

/-- The sort object of `books` and `allBooks` for every `sortBy` and `sortOrder`:
one key, the image of `sortBy` under `bookSortField`, with the direction of
`sortOrder`; in `books` a search puts the text score first. -/
theorem books_sort_object (db : Engine Book) (page limit : Int) (filter : BookFilter)
    (search : Option String) (sortBy sortOrder : String) :
    allBooks db page limit filter search sortBy sortOrder
      = listing "Error fetching all books: " db (allBooksQuery filter search)
          [(bookSortField sortBy, .dir (if sortOrder = "ASC" then 1 else -1))]
          page limit ((page - 1) * limit) ∧
    books db page limit filter search sortBy sortOrder
      = listing "Error fetching books: " db (booksQuery filter search)
          (match truthy search with
            | some _ => [("score", .textScore),
                (bookSortField sortBy, .dir (if sortOrder = "ASC" then 1 else -1))]
            | none => [(bookSortField sortBy, .dir (if sortOrder = "ASC" then 1 else -1))])
          page limit ((page - 1) * limit) := by
  refine ⟨rfl, ?_⟩
  unfold books
  cases truthy search <;> rfl

/-- A name inherited from `Object.prototype` is found by the lookup
`sortMap[sortBy]`, so the fallback does not apply to it. -/
theorem bookSortField_inherited :
    bookSortField "constructor" = "function Object() \x7b [native code] \x7d" ∧
    bookSortField "toString" = "function toString() \x7b [native code] \x7d" := by
  constructor <;> decide

/-- C22 (counterexample). With `sortBy = "FOO"`, which is none of the eight keys,
and `sortOrder = "ASC"`, `books` and `allBooks` list the three books of
`stockShelf` by creation time ascending (`s3`, `s2`, `s1`), not in the default
ordering, creation time descending (`s1`, `s2`, `s3`). -/
theorem unknown_sortBy_keeps_sortOrder :
    "FOO" ∉ ["CREATED_AT", "UPDATED_AT", "TITLE", "AUTHOR", "PRICE", "RATING", "SOLD",
      "VIEW_COUNT"] ∧
    (∃ c, books (bookDb noRegex noText stockShelf) 1 12 {} none "FOO" "ASC" = .ok c ∧
      c.items.map Book.id = ["s3", "s2", "s1"]) ∧
    (∃ c, allBooks (bookDb noRegex noText stockShelf) 1 20 {} none "FOO" "ASC" = .ok c ∧
      c.items.map Book.id = ["s3", "s2", "s1"]) ∧
    (∃ c, books (bookDb noRegex noText stockShelf) 1 12 {} none "CREATED_AT" "DESC" = .ok c ∧
      c.items.map Book.id = ["s1", "s2", "s3"]) ∧
    (∃ c, allBooks (bookDb noRegex noText stockShelf) 1 20 {} none "CREATED_AT" "DESC" = .ok c ∧
      c.items.map Book.id = ["s1", "s2", "s3"]) := by
  exact ⟨by decide, ⟨_, rfl, rfl⟩, ⟨_, rfl, rfl⟩, ⟨_, rfl, rfl⟩, ⟨_, rfl, rfl⟩⟩

/-- C22 (amended). In `books` and `allBooks` the sort field is the image of
`sortBy` under the allow-list (the eight keys listed); for every `sortBy` that
is none of the eight keys and no property name of `Object.prototype`, the sort
field is `createdAt`; the direction is ascending when `sortOrder` is `ASC` and
descending otherwise, also in the fallback; in `books` a non-empty search puts
the text score before that key. -/
theorem books_sort_fallback (db : Engine Book) (page limit : Int) (filter : BookFilter)
    (search : Option String) (sortBy sortOrder : String)
    (hkey : sortBy ∉ ["CREATED_AT", "UPDATED_AT", "TITLE", "AUTHOR", "PRICE", "RATING", "SOLD",
      "VIEW_COUNT"])
    (hown : inheritedProperty sortBy = none) :
    (bookSortField "CREATED_AT" = "createdAt" ∧ bookSortField "UPDATED_AT" = "updatedAt" ∧
      bookSortField "TITLE" = "title" ∧ bookSortField "AUTHOR" = "author" ∧
      bookSortField "PRICE" = "price" ∧ bookSortField "RATING" = "rating" ∧
      bookSortField "SOLD" = "sold" ∧ bookSortField "VIEW_COUNT" = "viewCount") ∧
    (∀ key, allBooks db page limit filter search key sortOrder
      = listing "Error fetching all books: " db (allBooksQuery filter search)
          [(bookSortField key, .dir (if sortOrder = "ASC" then 1 else -1))]
          page limit ((page - 1) * limit)) ∧
    (∀ key, books db page limit filter search key sortOrder
      = listing "Error fetching books: " db (booksQuery filter search)
          (match truthy search with
            | some _ => [("score", .textScore),
                (bookSortField key, .dir (if sortOrder = "ASC" then 1 else -1))]
            | none => [(bookSortField key, .dir (if sortOrder = "ASC" then 1 else -1))])
          page limit ((page - 1) * limit)) ∧
    bookSortField sortBy = "createdAt" ∧
    allBooks db page limit filter search sortBy sortOrder
      = listing "Error fetching all books: " db (allBooksQuery filter search)
          [("createdAt", .dir (if sortOrder = "ASC" then 1 else -1))]
          page limit ((page - 1) * limit) ∧
    books db page limit filter search sortBy sortOrder
      = listing "Error fetching books: " db (booksQuery filter search)
          (match truthy search with
            | some _ => [("score", .textScore),
                ("createdAt", .dir (if sortOrder = "ASC" then 1 else -1))]
            | none => [("createdAt", .dir (if sortOrder = "ASC" then 1 else -1))])
          page limit ((page - 1) * limit) := by
  have hf : bookSortField sortBy = "createdAt" := by
    simp only [List.mem_cons, List.mem_singleton, List.not_mem_nil, or_false, not_or] at hkey
    obtain ⟨h1, h2, h3, h4, h5, h6, h7, h8⟩ := hkey
    simp only [bookSortField, if_neg h1, if_neg h2, if_neg h3, if_neg h4, if_neg h5, if_neg h6,
      if_neg h7, if_neg h8, hown, Option.getD_none]
  refine ⟨by decide, fun key => (books_sort_object db page limit filter search key sortOrder).1,
    fun key => (books_sort_object db page limit filter search key sortOrder).2, hf, ?_, ?_⟩
  · rw [(books_sort_object db page limit filter search sortBy sortOrder).1, hf]
  · rw [(books_sort_object db page limit filter search sortBy sortOrder).2, hf]

/-- C22 (witness): the unknown key `FOO` with `sortOrder = "ASC"` on the books of
`stockShelf`. -/
theorem books_sort_fallback_witness :
    (bookSortField "CREATED_AT" = "createdAt" ∧ bookSortField "UPDATED_AT" = "updatedAt" ∧
      bookSortField "TITLE" = "title" ∧ bookSortField "AUTHOR" = "author" ∧
      bookSortField "PRICE" = "price" ∧ bookSortField "RATING" = "rating" ∧
      bookSortField "SOLD" = "sold" ∧ bookSortField "VIEW_COUNT" = "viewCount") ∧
    (∀ key, allBooks (bookDb noRegex noText stockShelf) 1 20 {} none key "ASC"
      = listing "Error fetching all books: " (bookDb noRegex noText stockShelf) (allBooksQuery {} none)
          [(bookSortField key, .dir (if "ASC" = "ASC" then 1 else -1))]
          1 20 ((1 - 1) * 20)) ∧
    (∀ key, books (bookDb noRegex noText stockShelf) 1 20 {} none key "ASC"
      = listing "Error fetching books: " (bookDb noRegex noText stockShelf) (booksQuery {} none)
          (match truthy none with
            | some _ => [("score", .textScore),
                (bookSortField key, .dir (if "ASC" = "ASC" then 1 else -1))]
            | none => [(bookSortField key, .dir (if "ASC" = "ASC" then 1 else -1))])
          1 20 ((1 - 1) * 20)) ∧
    bookSortField "FOO" = "createdAt" ∧
    allBooks (bookDb noRegex noText stockShelf) 1 20 {} none "FOO" "ASC"
      = listing "Error fetching all books: " (bookDb noRegex noText stockShelf) (allBooksQuery {} none)
          [("createdAt", .dir (if "ASC" = "ASC" then 1 else -1))]
          1 20 ((1 - 1) * 20) ∧
    books (bookDb noRegex noText stockShelf) 1 20 {} none "FOO" "ASC"
      = listing "Error fetching books: " (bookDb noRegex noText stockShelf) (booksQuery {} none)
          (match truthy none with
            | some _ => [("score", .textScore),
                ("createdAt", .dir (if "ASC" = "ASC" then 1 else -1))]
            | none => [("createdAt", .dir (if "ASC" = "ASC" then 1 else -1))])
          1 20 ((1 - 1) * 20) :=
  books_sort_fallback (bookDb noRegex noText stockShelf) 1 20 {} none "FOO" "ASC"
    (by decide) (by decide)

/-- The sort object of `users` has the caller's `sortBy` as its key, whatever the
string is. -/
theorem users_sort_object (db : Engine User) (admin : Identity) (hadmin : admin.role = "admin")
    (page limit : Int) (filter : UserFilter) (search : Option String)
    (sortBy sortOrder : String) :
    users db (some admin) page limit filter search sortBy sortOrder
      = listing "Error fetching users: " db (usersQuery filter search)
          [(sortBy, .dir (if sortOrder = "asc" then 1 else -1))]
          page limit ((page - 1) * limit) := by
  simp [users, notAdmin_admin admin hadmin]

/-- C23 (evaluation at the failing input). For an administrator, `users` with
`sortBy = "password"` lists the users of `hashedUsers` in the order of their
password hashes (`u1` with hash `zz` before `u2` with hash `aa`, descending),
not by creation time (`u2` is the newer one, and comes first with the default
`sortBy`); the sort object has the caller's string as its key. -/
theorem users_sorts_by_caller_field :
    (∃ c, users (userDb noRegex hashedUsers) (some sampleAdmin) 1 20 {} none "password" "desc"
        = .ok c ∧ c.items.map User.id = ["u1", "u2"]) ∧
    (∃ c, users (userDb noRegex hashedUsers) (some sampleAdmin) 1 20 {} none "createdAt" "desc"
        = .ok c ∧ c.items.map User.id = ["u2", "u1"]) ∧
    users (userDb noRegex hashedUsers) (some sampleAdmin) 1 20 {} none "password" "desc"
      = listing "Error fetching users: " (userDb noRegex hashedUsers) []
          [("password", .dir (-1))] 1 20 0 := by
  exact ⟨⟨_, rfl, rfl⟩, ⟨_, rfl, rfl⟩, rfl⟩

/-! ## Toggling the featured flag -/

/-- One call of `toggleFeaturedStatus` by an admin on a stored, schema-valid book
that has its slug: the book is written with the flag negated and returned. -/
theorem toggleFeaturedStatus_run (now : Nat) (id : Id) (u : Identity) (s : Store) (b : Book)
    (hadmin : u.role = "admin") (hfind : findById Book.id id s.books = some b)
    (hv : b.validationErrors = []) (hslug : b.slug ≠ "") :
    toggleFeaturedStatus now id (some u) s
      = (.ok (some { b with isFeatured := !b.isFeatured, updatedAt := now }),
         { s with books := (updateById Book.id b.id
            (fun _ => { b with isFeatured := !b.isFeatured, updatedAt := now }) s.books) }) ∧
    findById Book.id id
        (updateById Book.id b.id
          (fun _ => { b with isFeatured := !b.isFeatured, updatedAt := now }) s.books)
      = some { b with isFeatured := !b.isFeatured, updatedAt := now } := by
  have hkey : b.id = id := findById_key hfind
  subst hkey
  have hne : ({ b with isFeatured := !b.isFeatured } : Book) ≠ b := by
    intro h
    have h2 := congrArg Book.isFeatured h
    simp at h2
  have hsave := Book.save_keeping_keys now b { b with isFeatured := !b.isFeatured } s hv rfl rfl
    rfl hslug
  rw [if_neg hne] at hsave
  have hfound : findById Book.id b.id
      (updateById Book.id b.id
        (fun _ => { b with isFeatured := !b.isFeatured, updatedAt := now }) s.books)
      = some { b with isFeatured := !b.isFeatured, updatedAt := now } := by
    have h := findById_updateById Book.id b.id
      (fun _ => ({ b with isFeatured := !b.isFeatured, updatedAt := now } : Book)) s.books
      (fun _ _ => rfl)
    rw [h, hfind]
    rfl
  refine ⟨?_, hfound⟩
  unfold toggleFeaturedStatus
  rw [notAdmin_admin u hadmin]
  simp only [Bool.false_eq_true, if_false, hfind, hsave, hfound]
  rfl

/-- C24. For an admin and a stored book that satisfies its schema and has its
slug (as every book written through `save()` has), `toggleFeaturedStatus`
returns the book with `isFeatured` negated (so `false` becomes `true`), and a
second call, on the store the first one left, returns it with the original
value of `isFeatured`. -/
theorem toggleFeaturedStatus_flips (now later : Nat) (id : Id) (u : Identity) (s : Store)
    (b : Book) (hadmin : u.role = "admin") (hfind : findById Book.id id s.books = some b)
    (hv : b.validationErrors = []) (hslug : b.slug ≠ "") :
    ∃ b1 s1, toggleFeaturedStatus now id (some u) s = (.ok (some b1), s1) ∧
      b1.id = b.id ∧ b1.isFeatured = (!b.isFeatured) ∧
      (b.isFeatured = false → b1.isFeatured = true) ∧
      findById Book.id id s1.books = some b1 ∧
      ∃ b2 s2, toggleFeaturedStatus later id (some u) s1 = (.ok (some b2), s2) ∧
        b2.id = b.id ∧ b2.isFeatured = b.isFeatured ∧
        findById Book.id id s2.books = some b2 := by
  obtain ⟨h1, hf1⟩ := toggleFeaturedStatus_run now id u s b hadmin hfind hv hslug
  have hv1 : ({ b with isFeatured := !b.isFeatured, updatedAt := now } : Book).validationErrors
      = [] := hv
  obtain ⟨h2, hf2⟩ := toggleFeaturedStatus_run later id u
    { s with books := (updateById Book.id b.id
      (fun _ => { b with isFeatured := !b.isFeatured, updatedAt := now }) s.books) }
    { b with isFeatured := !b.isFeatured, updatedAt := now } hadmin hf1 hv1 hslug
  refine ⟨_, _, h1, rfl, rfl, ?_, hf1, _, _, h2, rfl, ?_, hf2⟩
  · intro h
    show (!b.isFeatured) = true
    rw [h]; rfl
  · show (!(!b.isFeatured)) = b.isFeatured
    exact Bool.not_not _

/-- Witness of C24: the admin toggles the book `b1` of `sampleStore` twice. -/
theorem toggleFeaturedStatus_flips_witness :
    ∃ b1 s1, toggleFeaturedStatus 100 "b1" (some sampleAdmin) sampleStore = (.ok (some b1), s1) ∧
      b1.id = sampleBook.id ∧ b1.isFeatured = (!sampleBook.isFeatured) ∧
      (sampleBook.isFeatured = false → b1.isFeatured = true) ∧
      findById Book.id "b1" s1.books = some b1 ∧
      ∃ b2 s2, toggleFeaturedStatus 200 "b1" (some sampleAdmin) s1 = (.ok (some b2), s2) ∧
        b2.id = sampleBook.id ∧ b2.isFeatured = sampleBook.isFeatured ∧
        findById Book.id "b1" s2.books = some b2 :=
  toggleFeaturedStatus_flips 100 200 "b1" sampleAdmin sampleStore sampleBook rfl (by decide)
    (by decide) (by decide)

/-! ## Stock adjustment: the operation string -/

/-- C25. For an admin, a stored book and an operation that is neither `add` nor
`subtract`, `updateBookStock` fails with the invalid-operation message under the
prefix of its catch clause and leaves the store as it was: the book is found
again with the same stock and the same sold. -/
theorem updateBookStock_invalid_operation (now : Nat) (id : Id) (q : Int) (op : String)
    (u : Identity) (s : Store) (b : Book) (hadmin : u.role = "admin")
    (hfind : findById Book.id id s.books = some b) (hadd : op ≠ "add")
    (hsub : op ≠ "subtract") :
    updateBookStock now id q op (some u) s
      = (.error "Error updating stock: Invalid operation. Use \"add\" or \"subtract\"", s) ∧
    ∃ b1, findById Book.id id (updateBookStock now id q op (some u) s).2.books = some b1 ∧
      b1.stock = b.stock ∧ b1.sold = b.sold := by
  have hrun : updateBookStock now id q op (some u) s
      = (.error "Error updating stock: Invalid operation. Use \"add\" or \"subtract\"", s) := by
    unfold updateBookStock
    rw [notAdmin_admin u hadmin]
    simp only [Bool.false_eq_true, if_false, hfind, adjustStock, if_neg hadd, if_neg hsub]
    rfl
  refine ⟨hrun, b, ?_, rfl, rfl⟩
  rw [hrun]
  exact hfind

/-- Witness of C25: the admin asks for the operation `set` on the book `b1` of
`sampleStore`. -/
theorem updateBookStock_invalid_operation_witness :
    updateBookStock 100 "b1" 2 "set" (some sampleAdmin) sampleStore
      = (.error "Error updating stock: Invalid operation. Use \"add\" or \"subtract\"",
          sampleStore) ∧
    ∃ b1, findById Book.id "b1"
        (updateBookStock 100 "b1" 2 "set" (some sampleAdmin) sampleStore).2.books = some b1 ∧
      b1.stock = sampleBook.stock ∧ b1.sold = sampleBook.sold :=
  updateBookStock_invalid_operation 100 "b1" 2 "set" sampleAdmin sampleStore sampleBook rfl
    (by decide) (by decide) (by decide)

/-! ## The slug pipeline -/

theorem replaceRuns_nil (p : Char → Bool) (r : Char) : replaceRuns p r [] = [] := rfl

/-- A character outside the class is copied. -/
theorem replaceRuns_cons_keep (p : Char → Bool) (r c : Char) (cs : List Char)
    (h : p c = false) : replaceRuns p r (c :: cs) = c :: replaceRuns p r cs := by
  simp [replaceRuns, replaceRunsAux, h]

theorem replaceRunsAux_inRun (p : Char → Bool) (r : Char) (cs : List Char) :
    replaceRunsAux p r true cs = replaceRunsAux p r false (cs.dropWhile p) := by
  induction cs with
  | nil => rfl
  | cons c cs ih =>
    by_cases h : p c = true
    · simp [replaceRunsAux, List.dropWhile, h, ih]
    · simp [replaceRunsAux, List.dropWhile, h]

/-- A character of the class opens a run: the whole run, up to the first
character outside the class, becomes one `r`. -/
theorem replaceRuns_cons_run (p : Char → Bool) (r c : Char) (cs : List Char)
    (h : p c = true) : replaceRuns p r (c :: cs) = r :: replaceRuns p r (cs.dropWhile p) := by
  simp [replaceRuns, replaceRunsAux, h, replaceRunsAux_inRun]

/-- What `replaceRuns` returns holds `r` and characters of the input that are
outside the class, nothing else. -/
theorem mem_replaceRunsAux (p : Char → Bool) (r : Char) (inRun : Bool) (cs : List Char)
    (x : Char) (hx : x ∈ replaceRunsAux p r inRun cs) : x = r ∨ (x ∈ cs ∧ p x = false) := by
  induction cs generalizing inRun with
  | nil => simp [replaceRunsAux] at hx
  | cons c cs ih =>
    by_cases h : p c = true
    · cases inRun
      · simp only [replaceRunsAux, h, if_true, Bool.false_eq_true, if_false,
          List.mem_cons] at hx
        rcases hx with hx | hx
        · exact Or.inl hx
        · rcases ih true hx with h1 | ⟨h1, h2⟩
          · exact Or.inl h1
          · exact Or.inr ⟨List.mem_cons_of_mem _ h1, h2⟩
      · simp only [replaceRunsAux, h, if_true] at hx
        rcases ih true hx with h1 | ⟨h1, h2⟩
        · exact Or.inl h1
        · exact Or.inr ⟨List.mem_cons_of_mem _ h1, h2⟩
    · simp only [replaceRunsAux, h, Bool.false_eq_true, if_false, List.mem_cons] at hx
      rcases hx with hx | hx
      · subst hx
        exact Or.inr ⟨List.mem_cons_self _ _, by simpa using h⟩
      · rcases ih false hx with h1 | ⟨h1, h2⟩
        · exact Or.inl h1
        · exact Or.inr ⟨List.mem_cons_of_mem _ h1, h2⟩

theorem dropWhile_none (p : Char → Bool) (cs : List Char) (h : ∀ x ∈ cs, p x = false) :
    cs.dropWhile p = cs := by
  cases cs with
  | nil => rfl
  | cons c cs => simp [List.dropWhile, h c (List.mem_cons_self _ _)]

/-- The method `trim` changes nothing in a string without white space. -/
theorem jsTrim_none (cs : List Char) (h : ∀ x ∈ cs, isSpace x = false) : jsTrim cs = cs := by
  unfold jsTrim
  rw [dropWhile_none isSpace cs h,
    dropWhile_none isSpace cs.reverse (fun x hx => h x (List.mem_reverse.mp hx)),
    List.reverse_reverse]

/-- After the two replacements no white space is left, whatever the input. -/
theorem no_space_after_replacements (cs : List Char) :
    ∀ x ∈ replaceRuns (fun c => c = '-') '-' (replaceRuns isSpace '-' cs), isSpace x = false := by
  intro x hx
  rcases mem_replaceRunsAux _ _ _ _ x hx with h1 | ⟨h1, -⟩
  · subst h1; decide
  · rcases mem_replaceRunsAux _ _ _ _ x h1 with h2 | ⟨-, h2⟩
    · subst h2; decide
    · exact h2

/-- The call `.trim('-')` at the end of the chain returns its receiver: the
argument is ignored and there is no white space left to trim. -/
theorem slugify_eq (name : String) :
    slugify name = String.mk (replaceRuns (fun c => c = '-') '-'
      (replaceRuns isSpace '-' ((toLowerCase name).toList.filter slugKeep))) := by
  unfold slugify toLowerCase
  rw [jsTrim_none _ (no_space_after_replacements _)]
  rfl

/-- C26. The book pre-save hook returns the document as it is when the slug is
assigned and the title is not modified; when the slug is absent or the title is
modified, it sets the slug to the title lowercased, stripped of every character
other than a-z, 0-9, white space and the hyphen, with white-space runs and hyphen
runs each collapsed to one hyphen, followed by a hyphen and the timestamp,
whatever the other books are. -/
theorem Book.preSaveSlug_spec (now : Nat) (titleModified : Bool) (b : Book) :
    (b.slug ≠ "" → titleModified = false → Book.preSaveSlug now titleModified b = b) ∧
    (b.slug = "" ∨ titleModified = true →
      Book.preSaveSlug now titleModified b = { b with slug := claimedBookSlug b.title now }) := by
  constructor
  · intro hs ht
    simp [Book.preSaveSlug, hs, ht]
  · intro h
    unfold Book.preSaveSlug claimedBookSlug
    rw [if_pos h, slugify_eq]

/-- Witness of C26: the hook on the book of `sampleStore`, whose slug is
`foo-1`, with the title unmodified and with the title modified. -/
theorem Book.preSaveSlug_spec_witness :
    Book.preSaveSlug 100 false sampleBook = sampleBook ∧
    Book.preSaveSlug 100 true sampleBook
      = { sampleBook with slug := claimedBookSlug sampleBook.title 100 } :=
  ⟨(Book.preSaveSlug_spec 100 false sampleBook).1 (by decide) rfl,
    (Book.preSaveSlug_spec 100 true sampleBook).2 (Or.inr rfl)⟩

/-- The generated slug of a title with capitals, punctuation, a run of blanks
and a run of hyphens. -/
theorem claimedBookSlug_sample :
    (claimedBookSlug "Hello,  World--X" 100).toList = "hello-world-x-100".toList ∧
    (Book.preSaveSlug 100 false { sampleBook with title := "Hello,  World--X", slug := "" }).slug
      = claimedBookSlug "Hello,  World--X" 100 := by
  constructor
  · decide
  · unfold Book.preSaveSlug claimedBookSlug
    rw [if_pos (Or.inl rfl), slugify_eq]

/-! ## The resolver and the model method on `subtract` -/

/-- C27. For every book (every stock and sold count) and every integer
quantity, the `subtract` branch of the resolver `updateBookStock` leaves the
in-memory document that the model method `updateStock(q, 'subtract')` leaves:
stock `max(0, stock - q)` and sold `sold + q`; `subtract` is also the default
operation of the method. -/
theorem subtract_branch_agrees (b : Book) (q : Int) :
    adjustStock b q "subtract" = .ok (b.updateStock q "subtract") ∧
    b.updateStock q = b.updateStock q "subtract" ∧
    (b.updateStock q "subtract").stock = max 0 (b.stock - q) ∧
    (b.updateStock q "subtract").sold = b.sold + q ∧
    ∀ doc, adjustStock b q "subtract" = .ok doc →
      doc.stock = (b.updateStock q "subtract").stock ∧
      doc.sold = (b.updateStock q "subtract").sold := by
  have h : adjustStock b q "subtract" = .ok (b.updateStock q "subtract") := by
    rw [adjustStock_subtract, subtract_sold_amount]
    rfl
  refine ⟨h, rfl, rfl, rfl, ?_⟩
  intro doc hdoc
  rw [h] at hdoc
  cases hdoc
  exact ⟨rfl, rfl⟩

/-! ## The category counters under the book mutations -/

theorem countersInSync_iff (s : Store) :
    countersInSync s = true ↔ ∀ c ∈ s.categories, c.bookCount = (countBooksIn c.id s : Int) := by
  simp [countersInSync, List.all_eq_true]

/-- The invariant survives a step that shifts every counter and every count by
the same amount. -/
theorem countersInSync_step (s t : Store) (delta : Id → Int)
    (hcats : ∀ c1 ∈ t.categories, ∃ c ∈ s.categories,
      c1.id = c.id ∧ c1.bookCount = c.bookCount + delta c.id)
    (hcount : ∀ j, (countBooksIn j t : Int) = countBooksIn j s + delta j)
    (h : countersInSync s = true) : countersInSync t = true := by
  rw [countersInSync_iff] at h ⊢
  intro c1 hc1
  obtain ⟨c, hc, hid, hbc⟩ := hcats c1 hc1
  rw [hbc, hid, hcount, h c hc]

theorem mem_incBookCount (now : Nat) (k : Id) (d : Int) (s : Store) (c1 : Category)
    (h : c1 ∈ (incBookCount now k d s).categories) :
    ∃ c ∈ s.categories, c1.id = c.id ∧
      c1.bookCount = c.bookCount + (if c.id = k then d else 0) := by
  simp only [incBookCount, updateById, List.mem_map] at h
  obtain ⟨y, hy, rfl⟩ := h
  refine ⟨y, hy, ?_, ?_⟩
  · split_ifs <;> rfl
  · split_ifs
    · rfl
    · simp

theorem filter_length_snoc (p : Book → Bool) (xs : List Book) (d : Book) :
    (((xs ++ [d]).filter p).length : Int) = (xs.filter p).length + (if p d then 1 else 0) := by
  rw [List.filter_append, List.length_append]
  by_cases h : p d = true <;> simp [List.filter, h]

/-- Deleting by id from a collection with unique ids removes exactly the
document found. -/
theorem filter_length_deleteById (p : Book → Bool) (xs : List Book) (b : Book) (hb : b ∈ xs)
    (hnd : (xs.map Book.id).Nodup) :
    (((deleteById Book.id b.id xs).filter p).length : Int)
      = (xs.filter p).length - (if p b then 1 else 0) := by
  induction xs with
  | nil => simp at hb
  | cons x xs ih =>
    rw [List.map_cons, List.nodup_cons] at hnd
    obtain ⟨hx, hnd⟩ := hnd
    rcases List.mem_cons.mp hb with hbx | hbx
    · subst hbx
      have hrest : deleteById Book.id b.id xs = xs := by
        unfold deleteById
        rw [List.filter_eq_self]
        intro y hy
        have : y.id ≠ b.id := fun he => hx (he ▸ List.mem_map_of_mem Book.id hy)
        simpa using this
      have hdel : deleteById Book.id b.id (b :: xs) = deleteById Book.id b.id xs := by
        simp [deleteById]
      rw [hdel, hrest]
      by_cases h : p b = true <;> simp [List.filter, h]
    · have hne : x.id ≠ b.id := fun he => hx (he ▸ List.mem_map_of_mem Book.id hbx)
      have hdel : deleteById Book.id b.id (x :: xs) = x :: deleteById Book.id b.id xs := by
        simp [deleteById, hne]
      rw [hdel]
      have := ih hbx hnd
      by_cases h : p x = true
      · simp only [List.filter, h, List.length_cons]
        push_cast
        omega
      · simp only [List.filter, h]
        exact this

/-- Replacing by id in a collection with unique ids replaces exactly the
document found. -/
theorem filter_length_updateById (p : Book → Bool) (xs : List Book) (b doc : Book)
    (hb : b ∈ xs) (hnd : (xs.map Book.id).Nodup) :
    (((updateById Book.id b.id (fun _ => doc) xs).filter p).length : Int)
      = (xs.filter p).length - (if p b then 1 else 0) + (if p doc then 1 else 0) := by
  induction xs with
  | nil => simp at hb
  | cons x xs ih =>
    rw [List.map_cons, List.nodup_cons] at hnd
    obtain ⟨hx, hnd⟩ := hnd
    rcases List.mem_cons.mp hb with hbx | hbx
    · subst hbx
      have hrest : updateById Book.id b.id (fun _ => doc) xs = xs := by
        unfold updateById
        conv_rhs => rw [← List.map_id xs]
        apply List.map_congr_left
        intro y hy
        have : y.id ≠ b.id := fun he => hx (he ▸ List.mem_map_of_mem Book.id hy)
        simp [this]
      have hupd : updateById Book.id b.id (fun _ => doc) (b :: xs)
          = doc :: updateById Book.id b.id (fun _ => doc) xs := by
        simp [updateById]
      rw [hupd, hrest]
      by_cases h : p b = true <;> by_cases h2 : p doc = true <;>
        simp only [List.filter, h, h2, List.length_cons] <;> push_cast <;> simp
    · have hne : x.id ≠ b.id := fun he => hx (he ▸ List.mem_map_of_mem Book.id hbx)
      have hupd : updateById Book.id b.id (fun _ => doc) (x :: xs)
          = x :: updateById Book.id b.id (fun _ => doc) xs := by
        simp [updateById, hne]
      rw [hupd]
      have := ih hbx hnd
      by_cases h : p x = true
      · simp only [List.filter, h, List.length_cons]
        push_cast
        omega
      · simp only [List.filter, h]
        exact this

/-- A `save()` of a new book either fails and writes nothing, or appends one
document that has the category of the one saved. -/
theorem Book.insert_shape (now : Nat) (doc : Book) (s : Store) :
    (∃ e, Book.insert now doc s = (.error e, s)) ∨
    (∃ d : Book, d.category = doc.category ∧
      Book.insert now doc s = (.ok (), { s with books := s.books ++ [d] })) := by
  unfold Book.insert
  cases hv : doc.validationErrors with
  | cons e es => exact Or.inl ⟨_, rfl⟩
  | nil =>
    simp only
    split_ifs with hid
    · exact Or.inl ⟨_, rfl⟩
    · cases hdup : Book.duplicateKey none (Book.preSaveSlug now true doc) s.books with
      | some msg => exact Or.inl ⟨_, rfl⟩
      | none =>
        refine Or.inr ⟨{ Book.preSaveSlug now true doc with createdAt := now, updatedAt := now },
          ?_, rfl⟩
        show (Book.preSaveSlug now true doc).category = doc.category
        unfold Book.preSaveSlug
        split_ifs <;> rfl

/-- The store a successful `createBook` leaves. -/
theorem createBook_ok_shape (now : Nat) (fresh : Id) (input : BookInput)
    (user : Option Identity) (s : Store)
    (h : (createBook now fresh input user s).1.isOk = true) :
    ∃ d : Book, d.category = input.categoryId ∧
      (createBook now fresh input user s).2
        = incBookCount now input.categoryId 1 { s with books := s.books ++ [d] } := by
  unfold createBook at h ⊢
  by_cases hna : notAdmin user = true
  · rw [if_pos hna] at h
    simp [rethrow, Except.isOk, Except.toBool] at h
  · rw [if_neg hna] at h ⊢
    cases hcat : findById Category.id input.categoryId s.categories with
    | none =>
      rw [hcat] at h
      simp [rethrow, Except.isOk, Except.toBool] at h
    | some c =>
      rw [hcat] at h
      simp only at h ⊢
      rcases Book.insert_shape now (input.document fresh) s with ⟨e, he⟩ | ⟨d, hd, hins⟩
      · rw [he] at h
        simp [rethrow, Except.isOk, Except.toBool] at h
      · rw [hins]
        exact ⟨d, hd, rfl⟩

/-- The store a successful `deleteBook` leaves. -/
theorem deleteBook_ok_shape (now : Nat) (id : Id) (user : Option Identity) (s : Store)
    (h : (deleteBook now id user s).1.isOk = true) :
    ∃ book, findById Book.id id s.books = some book ∧
      (deleteBook now id user s).2
        = { incBookCount now book.category (-1) s with
            books := (deleteById Book.id id s.books) } := by
  unfold deleteBook at h ⊢
  by_cases hna : notAdmin user = true
  · rw [if_pos hna] at h
    simp [rethrow, Except.isOk, Except.toBool] at h
  · rw [if_neg hna] at h ⊢
    cases hfind : findById Book.id id s.books with
    | none =>
      rw [hfind] at h
      simp [rethrow, Except.isOk, Except.toBool] at h
    | some book => exact ⟨book, rfl, rfl⟩

/-- The store a successful `updateBook` leaves: the counters moved or not, and
the book replaced by the updated document. -/
theorem updateBook_ok_shape (now : Nat) (id : Id) (input : BookUpdateInput)
    (user : Option Identity) (s : Store)
    (h : (updateBook now id input user s).1.isOk = true) :
    ∃ (book : Book) (moved : Option Id) (s1 : Store),
      findById Book.id id s.books = some book ∧
      ((moved = none ∧ s1 = s) ∨
        (∃ c, moved = some c ∧ c ≠ book.category ∧
          s1 = incBookCount now c 1 (incBookCount now book.category (-1) s))) ∧
      (updateBook now id input user s).2
        = { s1 with books := (updateById Book.id id (fun _ => input.apply moved now book)
              s1.books) } := by
  unfold updateBook at h ⊢
  by_cases hna : notAdmin user = true
  · rw [if_pos hna] at h
    simp [rethrow, Except.isOk, Except.toBool] at h
  · rw [if_neg hna] at h ⊢
    cases hfind : findById Book.id id s.books with
    | none =>
      rw [hfind] at h
      simp [rethrow, Except.isOk, Except.toBool] at h
    | some book =>
      rw [hfind] at h
      simp only at h ⊢
      generalize hm : (match input.categoryId with
        | some c => if c ≠ "" ∧ c ≠ book.category then some c else none
        | none => (none : Option Id)) = moved at h ⊢
      have hmoved : ∀ c, moved = some c → c ≠ book.category := by
        intro c hc
        subst hc
        cases hi : input.categoryId with
        | none => rw [hi] at hm; cases hm
        | some c0 =>
          rw [hi] at hm
          simp only at hm
          split_ifs at hm with hcond
          cases hm
          exact hcond.2
      cases moved with
      | none =>
        simp only at h ⊢
        cases hv : input.validationErrors with
        | cons e es =>
          rw [hv] at h
          simp [rethrow, Except.isOk, Except.toBool] at h
        | nil =>
          rw [hv] at h
          simp only at h ⊢
          cases hdup : Book.duplicateKey (some book) (input.apply none now book) s.books with
          | some msg =>
            rw [hdup] at h
            simp [rethrow, Except.isOk, Except.toBool] at h
          | none =>
            exact ⟨book, none, s, rfl, Or.inl ⟨rfl, rfl⟩, rfl⟩
      | some c =>
        simp only at h ⊢
        cases hc : findById Category.id c s.categories with
        | none =>
          rw [hc] at h
          simp [rethrow, Except.isOk, Except.toBool] at h
        | some cat =>
          rw [hc] at h
          simp only at h ⊢
          cases hv : input.validationErrors with
          | cons e es =>
            rw [hv] at h
            simp [rethrow, Except.isOk, Except.toBool] at h
          | nil =>
            rw [hv] at h
            simp only at h ⊢
            cases hdup : Book.duplicateKey (some book) (input.apply (some c) now book)
                (incBookCount now c 1 (incBookCount now book.category (-1) s)).books with
            | some msg =>
              rw [hdup] at h
              simp [rethrow, Except.isOk, Except.toBool] at h
            | none =>
              exact ⟨book, some c, _, rfl, Or.inr ⟨c, rfl, hmoved c rfl, rfl⟩, rfl⟩

theorem createBook_keeps_counters (now : Nat) (fresh : Id) (input : BookInput)
    (user : Option Identity) (s : Store) (hsync : countersInSync s = true)
    (h : (createBook now fresh input user s).1.isOk = true) :
    countersInSync (createBook now fresh input user s).2 = true := by
  obtain ⟨d, hd, hs⟩ := createBook_ok_shape now fresh input user s h
  rw [hs]
  refine countersInSync_step s _ (fun j => if j = input.categoryId then 1 else 0) ?_ ?_ hsync
  · intro c1 hc1
    exact mem_incBookCount now input.categoryId 1 _ c1 hc1
  · intro j
    show (((s.books ++ [d]).filter (fun b => decide (b.category = j))).length : Int) = _
    rw [filter_length_snoc, hd]
    show _ = ((s.books.filter (fun b => decide (b.category = j))).length : Int) + _
    by_cases hj : j = input.categoryId
    · subst hj; simp
    · have hj2 : ¬ input.categoryId = j := fun e => hj e.symm
      simp [hj, hj2]

theorem deleteBook_keeps_counters (now : Nat) (id : Id) (user : Option Identity) (s : Store)
    (hsync : countersInSync s = true) (hids : (s.books.map Book.id).Nodup)
    (h : (deleteBook now id user s).1.isOk = true) :
    countersInSync (deleteBook now id user s).2 = true := by
  obtain ⟨book, hfind, hs⟩ := deleteBook_ok_shape now id user s h
  have hkey : book.id = id := findById_key hfind
  have hmem : book ∈ s.books := findById_mem hfind
  rw [hs]
  refine countersInSync_step s _ (fun j => if j = book.category then -1 else 0) ?_ ?_ hsync
  · intro c1 hc1
    exact mem_incBookCount now book.category (-1) s c1 hc1
  · intro j
    show (((deleteById Book.id id s.books).filter (fun b => decide (b.category = j))).length
      : Int) = ((s.books.filter (fun b => decide (b.category = j))).length : Int) + _
    rw [← hkey, filter_length_deleteById _ s.books book hmem hids]
    by_cases hj : j = book.category
    · subst hj; simp; omega
    · have hj2 : ¬ book.category = j := fun e => hj e.symm
      simp [hj, hj2]

theorem updateBook_keeps_counters (now : Nat) (id : Id) (input : BookUpdateInput)
    (user : Option Identity) (s : Store) (hsync : countersInSync s = true)
    (hids : (s.books.map Book.id).Nodup)
    (h : (updateBook now id input user s).1.isOk = true) :
    countersInSync (updateBook now id input user s).2 = true := by
  obtain ⟨book, moved, s1, hfind, hcases, hs⟩ := updateBook_ok_shape now id input user s h
  have hkey : book.id = id := findById_key hfind
  have hmem : book ∈ s.books := findById_mem hfind
  rw [hs]
  rcases hcases with ⟨hm, hs1⟩ | ⟨c, hm, hne, hs1⟩
  · subst hm hs1
    refine countersInSync_step s1 _ (fun _ => 0) ?_ ?_ hsync
    · intro c1 hc1
      exact ⟨c1, hc1, rfl, by simp⟩
    · intro j
      show (((updateById Book.id id (fun _ => input.apply none now book) s1.books).filter
        (fun b => decide (b.category = j))).length : Int)
        = ((s1.books.filter (fun b => decide (b.category = j))).length : Int) + 0
      rw [← hkey, filter_length_updateById _ s1.books book _ hmem hids]
      have hcat : (input.apply none now book).category = book.category := rfl
      rw [hcat]
      omega
  · subst hm hs1
    refine countersInSync_step s _
      (fun j => (if j = book.category then -1 else 0) + (if j = c then 1 else 0)) ?_ ?_ hsync
    · intro c1 hc1
      obtain ⟨c2, hc2, hid2, hb2⟩ := mem_incBookCount now c 1 _ c1 hc1
      obtain ⟨c3, hc3, hid3, hb3⟩ := mem_incBookCount now book.category (-1) s c2 hc2
      refine ⟨c3, hc3, hid2.trans hid3, ?_⟩
      rw [hb2, hb3, hid3]
      show _ = c3.bookCount + ((if c3.id = book.category then -1 else 0)
        + (if c3.id = c then 1 else 0))
      omega
    · intro j
      show (((updateById Book.id id (fun _ => input.apply (some c) now book) s.books).filter
        (fun b => decide (b.category = j))).length : Int)
        = ((s.books.filter (fun b => decide (b.category = j))).length : Int) + _
      rw [← hkey, filter_length_updateById _ s.books book _ hmem hids]
      have hcat : (input.apply (some c) now book).category = c := rfl
      rw [hcat]
      by_cases hj : j = book.category
      · have hjc : ¬ j = c := fun e => hne (e.symm.trans hj)
        have hcj : ¬ c = j := fun e => hjc e.symm
        subst hj
        simp [hcj, hjc]
        omega
      · have hj2 : ¬ book.category = j := fun e => hj e.symm
        by_cases hjc : j = c
        · subst hjc; simp [hj, hj2]
        · have hcj : ¬ c = j := fun e => hjc e.symm
          simp [hj, hj2, hjc, hcj]

/-- C28. In a store whose book ids are unique, if every category's `bookCount`
equals the number of books whose category is that category, then the same holds
in the store left by any successful `createBook`, `deleteBook` or `updateBook`
(a call that succeeds was made by an admin), whether the update moves the book,
names its current category or names none. -/
theorem book_mutations_keep_counters (now : Nat) (user : Option Identity) (s : Store)
    (hsync : countersInSync s = true) (hids : (s.books.map Book.id).Nodup) :
    (∀ fresh input, (createBook now fresh input user s).1.isOk = true →
      notAdmin user = false ∧ countersInSync (createBook now fresh input user s).2 = true) ∧
    (∀ id, (deleteBook now id user s).1.isOk = true →
      notAdmin user = false ∧ countersInSync (deleteBook now id user s).2 = true) ∧
    (∀ id input, (updateBook now id input user s).1.isOk = true →
      notAdmin user = false ∧ countersInSync (updateBook now id input user s).2 = true) := by
  refine ⟨fun fresh input h => ⟨?_, createBook_keeps_counters now fresh input user s hsync h⟩,
    fun id h => ⟨?_, deleteBook_keeps_counters now id user s hsync hids h⟩,
    fun id input h => ⟨?_, updateBook_keeps_counters now id input user s hsync hids h⟩⟩
  · by_contra hna
    rw [Bool.not_eq_false] at hna
    simp [createBook, hna, rethrow, Except.isOk, Except.toBool] at h
  · by_contra hna
    rw [Bool.not_eq_false] at hna
    simp [deleteBook, hna, rethrow, Except.isOk, Except.toBool] at h
  · by_contra hna
    rw [Bool.not_eq_false] at hna
    simp [updateBook, hna, rethrow, Except.isOk, Except.toBool] at h

/-- Witness of C28: in `familyStore` the admin creates a book in `k1`, deletes
the book `b1`, moves `b1` from `p1` to `k1`, and updates `b1` naming its current
category `p1`; each call succeeds and leaves the counters in sync. -/
theorem book_mutations_keep_counters_witness :
    (countersInSync familyStore = true ∧ (familyStore.books.map Book.id).Nodup) ∧
    ((createBook 100 "b2" secondBookInput (some sampleAdmin) familyStore).1.isOk = true ∧
      countersInSync (createBook 100 "b2" secondBookInput (some sampleAdmin) familyStore).2
        = true) ∧
    ((deleteBook 100 "b1" (some sampleAdmin) familyStore).1.isOk = true ∧
      countersInSync (deleteBook 100 "b1" (some sampleAdmin) familyStore).2 = true) ∧
    ((updateBook 100 "b1" { categoryId := some "k1" } (some sampleAdmin) familyStore).1.isOk
        = true ∧
      countersInSync (updateBook 100 "b1" { categoryId := some "k1" } (some sampleAdmin)
        familyStore).2 = true) ∧
    ((updateBook 100 "b1" { categoryId := some "p1" } (some sampleAdmin) familyStore).1.isOk
        = true ∧
      countersInSync (updateBook 100 "b1" { categoryId := some "p1" } (some sampleAdmin)
        familyStore).2 = true) :=
  ⟨⟨by decide, by decide⟩,
    ⟨rfl, ((book_mutations_keep_counters 100 (some sampleAdmin) familyStore (by decide)
      (by decide)).1 "b2" secondBookInput rfl).2⟩,
    ⟨rfl, ((book_mutations_keep_counters 100 (some sampleAdmin) familyStore (by decide)
      (by decide)).2.1 "b1" rfl).2⟩,
    ⟨rfl, ((book_mutations_keep_counters 100 (some sampleAdmin) familyStore (by decide)
      (by decide)).2.2 "b1" { categoryId := some "k1" } rfl).2⟩,
    ⟨rfl, ((book_mutations_keep_counters 100 (some sampleAdmin) familyStore (by decide)
      (by decide)).2.2 "b1" { categoryId := some "p1" } rfl).2⟩⟩

/-! ## The pages of a listing partition the matching documents -/

/-- The connection of a page `≥ 1` with a positive limit, written out. -/
theorem connection_ok {α : Type} (page limit : Int) (m : List α) (hp : 1 ≤ page)
    (hl : 0 < limit) :
    connection page limit ((page - 1) * limit) m
      = .ok { items := (m.drop ((page - 1) * limit).toNat).take limit.toNat,
              totalCount := m.length,
              hasNextPage := decide (page < ⌈((m.length : Int) : ℚ) / (limit : ℚ)⌉),
              hasPreviousPage := decide (1 < page), currentPage := page,
              totalPages := .finite (⌈((m.length : Int) : ℚ) / (limit : ℚ)⌉ : Int) } := by
  have hskip : ¬ (page - 1) * limit < 0 := by
    have : 0 ≤ (page - 1) * limit := Int.mul_nonneg (by omega) (le_of_lt hl)
    omega
  have hl0 : limit ≠ 0 := ne_of_gt hl
  have hnat : limit.natAbs = limit.toNat := by omega
  simp only [connection, skipLimit, if_neg hskip, if_neg hl0, hnat, jsDiv, jsCeil, jsLt,
    Int.cast_lt]

theorem pageItems_eq {α : Type} (page limit : Int) (m : List α) (hp : 1 ≤ page)
    (hl : 0 < limit) :
    pageItems page limit m = (m.drop ((page - 1) * limit).toNat).take limit.toNat := by
  unfold pageItems
  rw [connection_ok page limit m hp hl]

theorem pageItems_succ {α : Type} (i : Nat) (limit : Int) (m : List α) (hl : 0 < limit) :
    pageItems ((i : Int) + 1) limit m = (m.drop (i * limit.toNat)).take limit.toNat := by
  rw [pageItems_eq _ limit m (by omega) hl]
  have h : (((i : Int) + 1 - 1) * limit).toNat = i * limit.toNat := by
    have h1 : (i : Int) + 1 - 1 = i := by omega
    rw [h1]
    have h2 : ((i * limit.toNat : Nat) : Int) = (i : Int) * limit := by
      push_cast
      rw [Int.toNat_of_nonneg (le_of_lt hl)]
    rw [← h2]
    exact Int.toNat_natCast _
  rw [h]

/-- The first `k` pages, one after the other, are the first `k * limit`
documents. -/
theorem pages_concat {α : Type} (m : List α) (L k : Nat) :
    (List.range k).flatMap (fun i => (m.drop (i * L)).take L) = m.take (k * L) := by
  induction k with
  | zero => simp
  | succ k ih =>
    rw [List.range_succ, List.flatMap_append, ih, Nat.succ_mul, List.take_add]
    simp

/-- C29. For every sequence `m` of matching documents and every limit `> 0`
there is a number of pages `T`, the `totalPages` of every page, such that each
page `1..T` (skip `(page - 1) * limit`, take `limit`) is not empty and holds at
most `limit` documents, every page after `T` is empty, `hasNextPage` holds
exactly when `page * limit < n`, the pages `1..T` one after the other are the
whole sequence, and the document at position `k` is on page `k / limit + 1` at
position `k mod limit`. -/
theorem pages_partition {α : Type} (m : List α) (limit : Int) (hl : 0 < limit) :
    ∃ T : Nat,
      (∀ page : Int, 1 ≤ page →
        ∃ c, connection page limit ((page - 1) * limit) m = .ok c ∧
          c.items = pageItems page limit m ∧
          c.totalPages = .finite T ∧
          (page ≤ T → c.items ≠ [] ∧ (c.items.length : Int) ≤ limit) ∧
          ((T : Int) < page → c.items = []) ∧
          (c.hasNextPage = true ↔ page * limit < m.length)) ∧
      (List.range T).flatMap (fun i => pageItems ((i : Int) + 1) limit m) = m ∧
      (∀ k, k < m.length → k / limit.toNat + 1 ≤ T ∧
        (pageItems ((k / limit.toNat : Nat) + 1) limit m)[k % limit.toNat]? = m[k]?) := by
  obtain ⟨hb1, hb2⟩ := ceil_div_bounds m.length limit hl
  generalize hC : ⌈((m.length : Int) : ℚ) / (limit : ℚ)⌉ = C at hb1 hb2
  have hC0 : 0 ≤ C := by
    by_contra hneg
    have h1 : C ≤ -1 := by omega
    have h2 : C * limit ≤ -1 * limit := Int.mul_le_mul_of_nonneg_right h1 (le_of_lt hl)
    have h3 : (0 : Int) ≤ m.length := Int.natCast_nonneg _
    omega
  have hLpos : 0 < limit.toNat := by omega
  have hLcast : ((limit.toNat : Nat) : Int) = limit := Int.toNat_of_nonneg (le_of_lt hl)
  have hTcast : ((C.toNat : Nat) : Int) = C := Int.toNat_of_nonneg hC0
  -- the bounds on `C` in the natural numbers
  have hn1 : m.length ≤ C.toNat * limit.toNat := by
    have : ((m.length : Nat) : Int) ≤ ((C.toNat * limit.toNat : Nat) : Int) := by
      push_cast; rw [hLcast, hTcast]; exact hb2
    exact_mod_cast this
  refine ⟨C.toNat, ?_, ?_, ?_⟩
  · intro page hp
    refine ⟨_, connection_ok page limit m hp hl, (pageItems_eq page limit m hp hl).symm, ?_,
      ?_, ?_, ?_⟩
    · show JsNumber.finite ((⌈((m.length : Int) : ℚ) / (limit : ℚ)⌉ : Int) : ℚ)
        = JsNumber.finite ((C.toNat : Nat) : ℚ)
      rw [hC]
      congr 1
      have : ((C.toNat : Nat) : ℚ) = (((C.toNat : Nat) : Int) : ℚ) := by push_cast; rfl
      rw [this, hTcast]
    · intro hle
      rw [hTcast] at hle
      have hskip : (page - 1) * limit ≤ (C - 1) * limit :=
        Int.mul_le_mul_of_nonneg_right (by omega) (le_of_lt hl)
      have hlt : ((page - 1) * limit).toNat < m.length := by
        have h0 : 0 ≤ (page - 1) * limit := Int.mul_nonneg (by omega) (le_of_lt hl)
        omega
      constructor
      · show (m.drop ((page - 1) * limit).toNat).take limit.toNat ≠ []
        intro hnil
        have hlen := congrArg List.length hnil
        rw [List.length_take, List.length_drop] at hlen
        simp only [List.length_nil] at hlen
        omega
      · show (((m.drop ((page - 1) * limit).toNat).take limit.toNat).length : Int) ≤ limit
        rw [List.length_take]
        omega
    · intro hlt
      rw [hTcast] at hlt
      show (m.drop ((page - 1) * limit).toNat).take limit.toNat = []
      have hskip : C * limit ≤ (page - 1) * limit :=
        Int.mul_le_mul_of_nonneg_right (by omega) (le_of_lt hl)
      have hge : m.length ≤ ((page - 1) * limit).toNat := by omega
      rw [List.drop_eq_nil_of_le hge, List.take_nil]
    · show decide (page < ⌈((m.length : Int) : ℚ) / (limit : ℚ)⌉) = true
        ↔ page * limit < m.length
      rw [hC, decide_eq_true_iff]
      constructor
      · intro hlt
        have : page * limit ≤ (C - 1) * limit :=
          Int.mul_le_mul_of_nonneg_right (by omega) (le_of_lt hl)
        omega
      · intro hlt
        by_contra hge
        have : C * limit ≤ page * limit :=
          Int.mul_le_mul_of_nonneg_right (by omega) (le_of_lt hl)
        omega
  · have hfun : (fun i : Nat => pageItems ((i : Int) + 1) limit m)
        = (fun i : Nat => (m.drop (i * limit.toNat)).take limit.toNat) := by
      funext i
      exact pageItems_succ i limit m hl
    rw [hfun, pages_concat, List.take_of_length_le hn1]
  · intro k hk
    constructor
    · by_contra hgt
      have h1 : C.toNat ≤ k / limit.toNat := by omega
      have h2 : C.toNat * limit.toNat ≤ k / limit.toNat * limit.toNat :=
        Nat.mul_le_mul_right _ h1
      have h3 : k / limit.toNat * limit.toNat ≤ k := Nat.div_mul_le_self k limit.toNat
      omega
    · rw [pageItems_succ (k / limit.toNat) limit m hl]
      have hr : k % limit.toNat < limit.toNat := Nat.mod_lt k hLpos
      rw [List.getElem?_take_of_lt hr, List.getElem?_drop]
      congr 1
      rw [Nat.mul_comm]
      exact Nat.div_add_mod k limit.toNat

/-- Witness of C29: five documents with limit 2 make three pages. -/
theorem pages_partition_witness :
    ∃ T : Nat,
      (∀ page : Int, 1 ≤ page →
        ∃ c, connection page 2 ((page - 1) * 2) [10, 20, 30, 40, 50] = .ok c ∧
          c.items = pageItems page 2 [10, 20, 30, 40, 50] ∧
          c.totalPages = .finite T ∧
          (page ≤ T → c.items ≠ [] ∧ (c.items.length : Int) ≤ 2) ∧
          ((T : Int) < page → c.items = []) ∧
          (c.hasNextPage = true ↔ page * 2 < [10, 20, 30, 40, 50].length)) ∧
      (List.range T).flatMap (fun i => pageItems ((i : Int) + 1) 2 [10, 20, 30, 40, 50])
        = [10, 20, 30, 40, 50] ∧
      (∀ k, k < [10, 20, 30, 40, 50].length → k / (2 : Int).toNat + 1 ≤ T ∧
        (pageItems ((k / (2 : Int).toNat : Nat) + 1) 2 [10, 20, 30, 40, 50])[k % (2 : Int).toNat]?
          = [10, 20, 30, 40, 50][k]?) :=
  pages_partition [10, 20, 30, 40, 50] 2 (by decide)

/-- The three pages of five documents with limit 2, and the page after them. -/
theorem pageItems_sample :
    pageItems 1 2 [10, 20, 30, 40, 50] = [10, 20] ∧
    pageItems 2 2 [10, 20, 30, 40, 50] = [30, 40] ∧
    pageItems 3 2 [10, 20, 30, 40, 50] = [50] ∧
    pageItems 4 2 [10, 20, 30, 40, 50] = [] := by
  refine ⟨?_, ?_, ?_, ?_⟩ <;> rw [pageItems_eq _ _ _ (by decide) (by decide)] <;> decide

/-! ## The slug of a category -/

/-- The hook `categorySchema.pre('save')` changes no document that has passed
validation: `slug` is required, so the branch that generates a slug is not
taken. -/
theorem Category.preSave_of_valid (c : Category) (hv : c.validationErrors = []) :
    c.preSave = c := by
  have hslug : c.slug ≠ "" := by
    intro h
    simp [Category.validationErrors, slugErrors, h] at hv
  simp [Category.preSave, hslug]

/-- Whoever calls it and whatever the name is, `createCategory` with no slug (or
an empty one) fails and writes nothing. -/
theorem createCategory_needs_slug (now : Nat) (fresh : Id) (input : CategoryInput)
    (user : Option Identity) (s : Store) (h : input.slug.getD "" = "") :
    ∃ e, createCategory now fresh input user s = (.error e, s) := by
  unfold createCategory
  by_cases hna : notAdmin user = true
  · rw [if_pos hna]
    exact ⟨_, rfl⟩
  · rw [if_neg hna]
    simp only
    split_ifs with hparent
    · exact ⟨_, rfl⟩
    · have hempty : (input.document fresh (truthyId input.parentCategoryId)).slug = "" := by
        show toLowerCase (input.slug.getD "") = ""
        rw [h]; rfl
      cases hl : (input.document fresh (truthyId input.parentCategoryId)).validationErrors with
      | nil => simp [Category.validationErrors, slugErrors, hempty] at hl
      | cons e es =>
        simp only [Category.insert, hl, categoryCatch]
        exact ⟨_, rfl⟩

/-- C30 (evaluation at the failing input). An admin creates the category named
`Hello World !` and gives no slug: validation, which runs before the pre-save
hook, rejects the missing slug, so `createCategory` fails with `Slug is
required` and writes nothing; no slug is generated from the name. -/
theorem createCategory_without_slug_fails :
    createCategory 9 "c9" noSlugInput (some sampleAdmin) sampleStore
      = (.error "Error creating category: Category validation failed: slug: Slug is required",
          sampleStore) ∧
    findById Category.id "c9"
      (createCategory 9 "c9" noSlugInput (some sampleAdmin) sampleStore).2.categories = none := by
  exact ⟨rfl, by decide⟩

/-- The setter `trim` on the name of a category: the name ` Fiction` is stored
as `Fiction`, which the category `c1` of `sampleStore` holds already. -/
theorem createCategory_trims_name :
    createCategory 9 "c9" paddedNameInput (some sampleAdmin) sampleStore
      = (.error "Category name already exists", sampleStore) := rfl

/-- Every character of a generated slug is in the class `[a-z0-9-]` of the slug
validator. -/
theorem slugify_chars (name : String) : ∀ x ∈ (slugify name).toList, slugChar x = true := by
  intro x hx
  rw [slugify_eq] at hx
  rcases mem_replaceRunsAux _ _ _ _ x hx with h1 | ⟨h1, -⟩
  · subst h1; decide
  · rcases mem_replaceRunsAux _ _ _ _ x h1 with h2 | ⟨h2, h3⟩
    · subst h2; decide
    · have hkeep : slugKeep x = true := (List.mem_filter.mp h2).2
      simp only [slugKeep, h3, Bool.or_false] at hkeep
      exact hkeep

/-- After a replacement of the runs of `p` by `r`, no two neighbours are both in
`p`; and what follows a run starts outside `p`. -/
theorem replaceRunsAux_chain (p : Char → Bool) (r : Char) (inRun : Bool) (cs : List Char) :
    List.Chain' (fun a b => ¬ (p a = true ∧ p b = true)) (replaceRunsAux p r inRun cs) ∧
    (inRun = true → ∀ h ∈ (replaceRunsAux p r inRun cs).head?, p h = false) := by
  induction cs generalizing inRun with
  | nil => simp [replaceRunsAux]
  | cons c cs ih =>
    by_cases hc : p c = true
    · cases inRun
      · simp only [replaceRunsAux, hc, if_true, Bool.false_eq_true, if_false]
        refine ⟨?_, fun h => by cases h⟩
        rw [List.chain'_cons']
        refine ⟨?_, (ih true).1⟩
        intro h hh hboth
        have := (ih true).2 rfl h hh
        rw [this] at hboth
        exact Bool.false_ne_true hboth.2
      · simp only [replaceRunsAux, hc, if_true]
        exact ⟨(ih true).1, fun _ => (ih true).2 rfl⟩
    · simp only [replaceRunsAux, hc, Bool.false_eq_true, if_false]
      refine ⟨?_, ?_⟩
      · rw [List.chain'_cons']
        exact ⟨fun h _ hboth => hc hboth.1, (ih false).1⟩
      · intro _ h hh
        simp only [List.head?_cons, Option.mem_def, Option.some.injEq] at hh
        subst hh
        simpa using hc

/-- A generated slug has no two consecutive hyphens. -/
theorem slugify_no_double_hyphen (name : String) :
    List.Chain' (fun a b => ¬ (a = '-' ∧ b = '-')) (slugify name).toList := by
  rw [slugify_eq]
  have h := (replaceRunsAux_chain (fun c => decide (c = '-')) '-' false
    (replaceRuns isSpace '-' ((toLowerCase name).toList.filter slugKeep))).1
  simpa [replaceRuns] using h

/-- Lower case leaves a character of the class `[a-z0-9-]` as it is. -/
theorem lowerChar_slugChar (c : Char) (h : slugChar c = true) : lowerChar c = [c] := by
  have hn : (97 ≤ c.toNat ∧ c.toNat ≤ 122) ∨ (48 ≤ c.toNat ∧ c.toNat ≤ 57) ∨ c.toNat = 45 := by
    simp only [slugChar, Bool.or_eq_true, Bool.and_eq_true, decide_eq_true_eq] at h
    rcases h with (⟨h1, h2⟩ | ⟨h1, h2⟩) | h
    · left; exact ⟨h1, h2⟩
    · right; left; exact ⟨h1, h2⟩
    · right; right; subst h; rfl
  have h1 : c ≠ Char.ofNat 0x130 := by
    intro e; rw [e] at hn; revert hn; decide
  have h2 : c ≠ Char.ofNat 0x212A := by
    intro e; rw [e] at hn; revert hn; decide
  have h3 : c.toLower = c := by
    have : ¬ (c.toNat ≥ 65 ∧ c.toNat ≤ 90) := by omega
    simp only [Char.toLower, if_neg this]
  simp [lowerChar, h1, h2, h3]

theorem flatMap_lowerChar_slugChars (cs : List Char) (h : ∀ x ∈ cs, slugChar x = true) :
    cs.flatMap lowerChar = cs := by
  induction cs with
  | nil => rfl
  | cons c cs ih =>
    rw [List.flatMap_cons, lowerChar_slugChar c (h c (List.mem_cons_self _ _)),
      ih (fun x hx => h x (List.mem_cons_of_mem _ hx))]
    rfl

theorem slugChar_keep (c : Char) (h : slugChar c = true) : slugKeep c = true := by
  simp only [slugChar, Bool.or_eq_true] at h
  simp only [slugKeep, Bool.or_eq_true]
  rcases h with (h | h) | h
  · exact Or.inl (Or.inl (Or.inl h))
  · exact Or.inl (Or.inl (Or.inr h))
  · exact Or.inr h

theorem slugChar_not_space (c : Char) (h : slugChar c = true) : isSpace c = false := by
  have hn : (97 ≤ c.toNat ∧ c.toNat ≤ 122) ∨ (48 ≤ c.toNat ∧ c.toNat ≤ 57) ∨ c.toNat = 45 := by
    simp only [slugChar, Bool.or_eq_true, Bool.and_eq_true, decide_eq_true_eq] at h
    rcases h with (⟨h1, h2⟩ | ⟨h1, h2⟩) | h
    · left; exact ⟨h1, h2⟩
    · right; left; exact ⟨h1, h2⟩
    · right; right; subst h; rfl
  simp only [isSpace, Bool.or_eq_false_iff, Bool.and_eq_false_iff, decide_eq_false_iff_not]
  omega

/-- A replacement of runs changes nothing in a string that has no character of
the class. -/
theorem replaceRunsAux_none (p : Char → Bool) (r : Char) (inRun : Bool) (cs : List Char)
    (h : ∀ x ∈ cs, p x = false) : replaceRunsAux p r inRun cs = cs := by
  induction cs generalizing inRun with
  | nil => rfl
  | cons c cs ih =>
    have hc := h c (List.mem_cons_self _ _)
    simp only [replaceRunsAux, hc, Bool.false_eq_true, if_false]
    rw [ih false (fun x hx => h x (List.mem_cons_of_mem _ hx))]

/-- A replacement of the runs of `r` by `r` changes nothing in a string in which
no two neighbours are both `r`. -/
theorem replaceRuns_fixed (r : Char) (cs : List Char)
    (h : List.Chain' (fun a b => ¬ (a = r ∧ b = r)) cs) :
    replaceRuns (fun c => decide (c = r)) r cs = cs := by
  induction cs with
  | nil => rfl
  | cons c cs ih =>
    rw [List.chain'_cons'] at h
    by_cases hc : c = r
    · subst hc
      rw [replaceRuns_cons_run _ _ _ _ (by simp)]
      have hdrop : cs.dropWhile (fun x => decide (x = c)) = cs := by
        cases cs with
        | nil => rfl
        | cons d ds =>
          have hd : ¬ d = c := fun e => h.1 d rfl ⟨rfl, e⟩
          simp [List.dropWhile, hd]
      rw [hdrop, ih h.2]
    · rw [replaceRuns_cons_keep _ _ _ _ (by simpa using hc), ih h.2]

/-- Generation is idempotent: the chain applied to a generated slug returns it. -/
theorem slugify_idempotent (name : String) : slugify (slugify name) = slugify name := by
  have hchars := slugify_chars name
  have hchain := slugify_no_double_hyphen name
  rw [slugify_eq (slugify name)]
  have h1 : (toLowerCase (slugify name)).toList = (slugify name).toList := by
    show (slugify name).toList.flatMap lowerChar = (slugify name).toList
    exact flatMap_lowerChar_slugChars _ hchars
  have h2 : (slugify name).toList.filter slugKeep = (slugify name).toList := by
    rw [List.filter_eq_self]
    exact fun x hx => slugChar_keep x (hchars x hx)
  have h3 : replaceRuns isSpace '-' (slugify name).toList = (slugify name).toList :=
    replaceRunsAux_none isSpace '-' false _ (fun x hx => slugChar_not_space x (hchars x hx))
  rw [h1, h2, h3, replaceRuns_fixed '-' _ hchain]
  rfl

end Bookstore
